import Mathlib

/-!
# jd-lib: Task, Queue and the expanding ThreadPool

A shallow embedding of `jd-lib/src/list/list.c`, `jd-lib/src/queue/queue.c`,
`jd-lib/src/task/task.c` and `jd-lib/src/threadpool/threadpool.c`.

Conventions of the embedding

* `errno` and every returned error code is a natural number, `0` meaning success.
* A pointer argument that the C code compares with `NULL` is an `Option`
  (`none` is `NULL`); pointers that are stored as data are numbers (`0` is `NULL`).
* The outcome of every pthread call and of every `malloc` is an input of the
  embedded function (an environment record), so that failure paths are part of
  the model.
* Every function returns the list of synchronisation operations that succeeded
  and of the writes to shared fields it performed, in program order.
* `unsigned` arithmetic is taken modulo `2 ^ 32`, `size_t` arithmetic modulo `2 ^ 64`.
-/

namespace JdLib

/-! ## Basic vocabulary -/

/-- A `void *` value; `0` is `NULL`. -/
abbrev Val := Nat

/-- The address of a `void *` slot (the target of a `void **`). -/
abbrev Addr := Nat

/-- A `Task *` stored as data; `0` is `NULL`. -/
abbrev TaskPtr := Nat

/-- A `pthread_t`. -/
abbrev ThreadId := Nat

def EPERM : Nat := 1
def ENOMEM : Nat := 12
def EFAULT : Nat := 14
def EINVAL : Nat := 22
def EOVERFLOW : Nat := 75

/-- Modulus of `unsigned` arithmetic. -/
def UINT_MOD : Nat := 2 ^ 32

/-- Modulus of `size_t` arithmetic. -/
def SIZE_MOD : Nat := 2 ^ 64

/-- The mutexes of the library. -/
inductive Mutex
  | taskMutex
  | completedMutex
  deriving DecidableEq, Repr

/-- The condition variables of the library. -/
inductive Cond
  | taskAvailable
  | completedCond
  deriving DecidableEq, Repr

/-- The shared fields whose writes are recorded. -/
inductive Field
  | running
  | threads
  | numIdleThreads
  | waitingTasks
  | completed
  deriving DecidableEq, Repr

/-- One recorded operation: a pthread call that succeeded, a write to a shared
field, or the invocation of a task's callable. -/
inductive Ev
  | lock (m : Mutex)
  | unlock (m : Mutex)
  | signal (c : Cond)
  | broadcast (c : Cond)
  | wait (c : Cond) (m : Mutex)
  | condInit (c : Cond)
  | mutexInit (m : Mutex)
  | condDestroy (c : Cond)
  | mutexDestroy (m : Mutex)
  | create (t : ThreadId)
  | join (t : ThreadId)
  | write (f : Field)
  | call (arg : Val)
  deriving DecidableEq, Repr

/-- Whether the operation leaves mutex `m` held by the caller: a lock of `m`, or
the return of a `pthread_cond_wait` on `m`. -/
def Ev.acquires (m : Mutex) : Ev → Bool
  | Ev.lock m1 => decide (m1 = m)
  | Ev.wait _ m1 => decide (m1 = m)
  | _ => false

/-- Whether mutex `m` is held after the operations of `tr`, starting from `held`. -/
def heldAfter (m : Mutex) : Bool → List Ev → Bool
  | held, [] => held
  | held, e :: rest =>
    if e.acquires m then heldAfter m true rest
    else if e = Ev.unlock m then heldAfter m false rest
    else heldAfter m held rest

/-- Every operation of `tr` selected by `p` happens while mutex `m` is held. -/
def underLock (m : Mutex) (p : Ev → Bool) : Bool → List Ev → Bool
  | _, [] => true
  | held, e :: rest =>
    let now := if e.acquires m then true else if e = Ev.unlock m then false else held
    (if p e then held else true) && underLock m p now rest

/-! ## list.c and queue.c -/

/-- The `List` of list.c, seen through its contents: `nodes` is the data of
the nodes reached from `head` by `next`, in that order (`tail` is the last of
them); `length` is the separately maintained `length` field. The
`elementDeleter` field is `NULL` in every list built by `list_constructEmpty`,
so that `list_freeNode` only releases the node. -/
structure JList (α : Type) where
  nodes : List α
  length : Nat
  dataSize : Nat
  deriving DecidableEq, Repr

/-- Result of a list or queue operation that returns `bool` and sets `errno`. -/
structure ListResult (α : Type) where
  ok : Bool
  errno : Nat
  list : JList α
  deriving DecidableEq, Repr

def list_constructEmpty {α : Type} (dataSize : Nat) : JList α :=
  { nodes := [], length := 0, dataSize := dataSize }

/-- The walk of `list_nodeAt` from `head` through `next`: `index` steps, failing
with `EFAULT` when the chain ends first (for an empty chain and a positive
`index` the code steps through `NULL`; the walk fails there as well). -/
def list_walk {α : Type} : List α → Nat → Option α × Nat
  | [], _ => (none, EFAULT)
  | x :: _, 0 => (some x, 0)
  | _ :: rest, i + 1 => list_walk rest i

/-- The data of the node `list_nodeAt` returns, with the `errno` it leaves. -/
def list_nodeAt {α : Type} (list : JList α) (index : Nat) : Option α × Nat :=
  if index ≥ list.length then (none, EOVERFLOW)
  else list_walk list.nodes index

def list_elementAt {α : Type} (list : JList α) (index : Nat) : Option α × Nat :=
  if index ≥ list.length then (none, EOVERFLOW)
  else list_nodeAt list index

/-- Links an allocated node at the back. -/
def list_pushNodeBack {α : Type} (list : JList α) (node : α) : ListResult α :=
  { ok := true, errno := 0,
    list := { list with nodes := list.nodes ++ [node],
                        length := (list.length + 1) % SIZE_MOD } }

/-- `element` is the pointer argument (`none` is `NULL`); `alloc` tells whether
the `malloc` of `list_newNode` succeeds (it leaves `ENOMEM` when it does not). -/
def list_pushBack {α : Type} (alloc : Bool) (list : JList α) (element : Option α) :
    ListResult α :=
  match element with
  | none => { ok := false, errno := EPERM, list := list }
  | some x =>
    if alloc then list_pushNodeBack list x
    else { ok := false, errno := ENOMEM, list := list }

def list_popFront {α : Type} (list : JList α) : ListResult α :=
  match list.nodes with
  | [] => { ok := false, errno := EINVAL, list := list }
  | _ :: rest =>
    { ok := true, errno := 0,
      list := { list with nodes := rest,
                          length := (list.length + SIZE_MOD - 1) % SIZE_MOD } }

/-- The `Queue` of queue.h: a wrapper of one `List`. -/
structure Queue (α : Type) where
  elements : JList α
  deriving DecidableEq, Repr

def q_constructEmpty {α : Type} (dataSize : Nat) : Queue α :=
  { elements := list_constructEmpty dataSize }

def q_enqueue {α : Type} (alloc : Bool) (q : Queue α) (element : Option α) :
    Bool × Nat × Queue α :=
  let r := list_pushBack alloc q.elements element
  (r.ok, r.errno, { elements := r.list })

def q_dequeue {α : Type} (q : Queue α) : Bool × Nat × Queue α :=
  let r := list_popFront q.elements
  (r.ok, r.errno, { elements := r.list })

def q_front {α : Type} (q : Queue α) : Option α × Nat :=
  list_elementAt q.elements 0

def q_length {α : Type} (q : Queue α) : Nat := q.elements.length

/-! ## task.c -/

/-- A task's callable: from the argument and the `errno` at the call to the
returned pointer and the `errno` it leaves. -/
abbrev Callable := Val → Nat → Val × Nat

/-- The `Task` of task.h (its condition variable and mutex appear in the
recorded operations only). -/
structure Task where
  foo : Option Callable
  fooArg : Val
  fooReturn : Option Addr
  fooErrno : Nat
  completed : Bool

/-- The memory holding the result slots (`void *` cells). -/
abbrev Mem := Addr → Val

def Mem.store (mem : Mem) (a : Addr) (v : Val) : Mem :=
  fun b => if b = a then v else mem b

/-- Outcomes of the pthread calls a task function makes (return codes). -/
structure TaskEnv where
  condInitRc : Nat
  mutexInitRc : Nat
  lockRc : Nat
  broadcastRc : Nat
  unlockRc : Nat
  condDestroyRc : Nat
  mutexDestroyRc : Nat
  deriving DecidableEq, Repr

/-- Every pthread call succeeds. -/
def TaskEnv.ok : TaskEnv :=
  { condInitRc := 0, mutexInitRc := 0, lockRc := 0, broadcastRc := 0, unlockRc := 0,
    condDestroyRc := 0, mutexDestroyRc := 0 }

/-- What a task function leaves: its return value, the task (`none` when the
pointer was `NULL`) and the recorded operations. -/
structure TaskResult where
  rc : Nat
  task : Option Task
  trace : List Ev

def task_init (env : TaskEnv) (task : Option Task) (foo : Option Callable) (fooArg : Val)
    (fooReturn : Option Addr) : TaskResult :=
  match task with
  | none => { rc := EPERM, task := none, trace := [] }
  | some t =>
    match foo with
    | none => { rc := EPERM, task := some t, trace := [] }
    | some f =>
      let t1 : Task :=
        { foo := some f, fooArg := fooArg, fooReturn := fooReturn, fooErrno := 0,
          completed := false }
      if env.condInitRc ≠ 0 then
        { rc := env.condInitRc, task := some t1, trace := [Ev.write Field.completed] }
      else
        if env.mutexInitRc ≠ 0 then
          { rc := env.mutexInitRc, task := some t1,
            trace := [Ev.write Field.completed, Ev.condInit Cond.completedCond] }
        else
          { rc := env.mutexInitRc, task := some t1,
            trace := [Ev.write Field.completed, Ev.condInit Cond.completedCond,
                      Ev.mutexInit Mutex.completedMutex] }

def task_destroy (env : TaskEnv) (task : Option Task) : TaskResult :=
  match task with
  | none => { rc := EPERM, task := none, trace := [] }
  | some t =>
    let t1 : Task := { t with foo := none, fooArg := 0, fooReturn := none, fooErrno := 0 }
    if env.lockRc ≠ 0 then { rc := env.lockRc, task := some t1, trace := [] }
    else
      let t2 : Task := { t1 with completed := true }
      let tr1 := [Ev.lock Mutex.completedMutex, Ev.write Field.completed]
      if env.broadcastRc ≠ 0 then { rc := env.broadcastRc, task := some t2, trace := tr1 }
      else
        let tr2 := tr1 ++ [Ev.broadcast Cond.completedCond]
        if env.unlockRc ≠ 0 then { rc := env.unlockRc, task := some t2, trace := tr2 }
        else
          let tr3 := tr2 ++ [Ev.unlock Mutex.completedMutex]
          if env.condDestroyRc ≠ 0 then
            { rc := env.condDestroyRc, task := some t2, trace := tr3 }
          else
            let tr4 := tr3 ++ [Ev.condDestroy Cond.completedCond]
            if env.mutexDestroyRc ≠ 0 then
              { rc := env.mutexDestroyRc, task := some t2, trace := tr4 }
            else
              { rc := env.mutexDestroyRc, task := some t2,
                trace := tr4 ++ [Ev.mutexDestroy Mutex.completedMutex] }

/-- What `task_execute` leaves: return value, task, memory and recorded operations. -/
structure ExecResult where
  rc : Nat
  task : Option Task
  mem : Mem
  trace : List Ev

/-- The result is `none` when the call goes through a `NULL` function pointer
(no behaviour is defined for it). `errno` is `0` when the callable is entered. -/
def task_execute (task : Option Task) (mem : Mem) : Option ExecResult :=
  match task with
  | none => some { rc := EPERM, task := none, mem := mem, trace := [] }
  | some t =>
    match t.foo with
    | none => none
    | some f =>
      let out := f t.fooArg 0
      let result := out.1
      let errno := out.2
      let mem1 := match t.fooReturn with
        | some a => mem.store a result
        | none => mem
      some { rc := 0, task := some { t with fooErrno := errno }, mem := mem1,
             trace := [Ev.call t.fooArg] }

def task_markCompleted (env : TaskEnv) (task : Option Task) : TaskResult :=
  match task with
  | none => { rc := EPERM, task := none, trace := [] }
  | some t =>
    if t.completed ≠ true then
      if env.lockRc ≠ 0 then { rc := env.lockRc, task := some t, trace := [] }
      else
        let t1 : Task := { t with completed := true }
        let tr1 := [Ev.lock Mutex.completedMutex, Ev.write Field.completed]
        if env.broadcastRc ≠ 0 then { rc := env.broadcastRc, task := some t1, trace := tr1 }
        else
          if env.unlockRc ≠ 0 then
            { rc := env.unlockRc, task := some t1,
              trace := tr1 ++ [Ev.broadcast Cond.completedCond] }
          else
            { rc := env.unlockRc, task := some t1,
              trace := tr1 ++ [Ev.broadcast Cond.completedCond,
                               Ev.unlock Mutex.completedMutex] }
    else { rc := 0, task := some t, trace := [] }

/-- One return of `pthread_cond_wait` in `task_getResult`: its return code and
the value of `completed` found at that moment (other threads write the flag
while the waiter sleeps; a spurious wakeup finds it still `false`). -/
structure Wake where
  rc : Nat
  completed : Bool
  deriving DecidableEq, Repr

/-- How a call of `task_getResult` ends: it returns, or it is still blocked in
`pthread_cond_wait` when the given wakeups are used up. -/
inductive WaitOutcome
  | returned (rc : Nat) (task : Option Task) (trace : List Ev)
  | blocked (task : Task) (trace : List Ev)

/-- The end of `task_getResult`, after the loop: the unlock and the return. -/
def task_getResult_exit (env : TaskEnv) (t : Task) (trace : List Ev) : WaitOutcome :=
  if env.unlockRc ≠ 0 then WaitOutcome.returned env.unlockRc (some t) trace
  else WaitOutcome.returned env.unlockRc (some t) (trace ++ [Ev.unlock Mutex.completedMutex])

/-- The `while (!task->completed)` loop of `task_getResult`, entered with the
mutex held; the last argument lists the returns of `pthread_cond_wait`. -/
def task_getResult_loop (env : TaskEnv) : Task → List Ev → List Wake → WaitOutcome
  | t, trace, [] =>
    if t.completed then task_getResult_exit env t trace
    else WaitOutcome.blocked t trace
  | t, trace, w :: rest =>
    if t.completed then task_getResult_exit env t trace
    else if w.rc ≠ 0 then
      WaitOutcome.returned w.rc (some { t with completed := w.completed }) trace
    else
      task_getResult_loop env { t with completed := w.completed }
        (trace ++ [Ev.wait Cond.completedCond Mutex.completedMutex]) rest

def task_getResult (env : TaskEnv) (wakes : List Wake) (task : Option Task) : WaitOutcome :=
  match task with
  | none => WaitOutcome.returned EPERM none []
  | some t =>
    if env.lockRc ≠ 0 then WaitOutcome.returned env.lockRc (some t) []
    else task_getResult_loop env t [Ev.lock Mutex.completedMutex] wakes

/-! ## threadpool.c -/

/-- The `ThreadPool` of threadpool.h (its condition variable and mutex appear
in the recorded operations only). `threads` holds `pthread_t` values,
`waitingTasks` holds `Task *` values. -/
structure ThreadPool where
  threads : Queue ThreadId
  numIdleThreads : Nat
  waitingTasks : Queue TaskPtr
  running : Bool
  deriving DecidableEq, Repr

/-- Value of `sizeof(Task *)` and of `sizeof(pthread_t)`. -/
def WORD_SIZE : Nat := 8

/-- Outcomes met by one `tp_spawnThread`: the return code of `pthread_create`,
the thread id it stores, and whether the `malloc` of the queue node succeeds. -/
structure SpawnEnv where
  createRc : Nat
  thread : ThreadId
  alloc : Bool
  deriving DecidableEq, Repr

/-- What `tp_spawnThread` leaves. -/
structure SpawnResult where
  ok : Bool
  errno : Nat
  tp : Option ThreadPool
  trace : List Ev
  deriving DecidableEq, Repr

def tp_spawnThread (env : SpawnEnv) (tp : Option ThreadPool) : SpawnResult :=
  match tp with
  | none => { ok := false, errno := EPERM, tp := none, trace := [] }
  | some p =>
    if env.createRc ≠ 0 then { ok := false, errno := env.createRc, tp := some p, trace := [] }
    else
      match q_enqueue env.alloc p.threads (some env.thread) with
      | (false, e, _) =>
        { ok := false, errno := e, tp := some p, trace := [Ev.create env.thread] }
      | (true, e, q) =>
        { ok := true, errno := e,
          tp := some { p with threads := q,
                              numIdleThreads := (p.numIdleThreads + 1) % UINT_MOD },
          trace := [Ev.create env.thread, Ev.write Field.threads,
                    Ev.write Field.numIdleThreads] }

/-- Outcomes met by `tp_init`; `spawn i` is met by the spawn of thread number `i`. -/
structure InitEnv where
  condInitRc : Nat
  mutexInitRc : Nat
  spawn : Nat → SpawnEnv

/-- What a pool function returning `int` leaves. -/
structure PoolResult where
  rc : Nat
  tp : Option ThreadPool
  trace : List Ev
  deriving DecidableEq, Repr

/-- The spawning loop of `tp_init`: `k` iterations are left, `threadNum` is the
loop counter, `errno` the current value of `errno`. The result is the `errno`
of a failed spawn (`Except.error`) or the state after the loop. -/
def tp_init_loop (spawn : Nat → SpawnEnv) :
    Nat → Nat → Nat → Option ThreadPool → List Ev →
      Except PoolResult (Nat × Option ThreadPool × List Ev)
  | 0, _, errno, tp, trace => Except.ok (errno, tp, trace)
  | k + 1, threadNum, _, tp, trace =>
    let r := tp_spawnThread (spawn threadNum) tp
    if r.ok then tp_init_loop spawn k (threadNum + 1) r.errno r.tp (trace ++ r.trace)
    else Except.error { rc := r.errno, tp := r.tp, trace := trace ++ r.trace }

/-- The result is `none` for a `NULL` pool, which the code reports and then
dereferences. -/
def tp_init (env : InitEnv) (tp : Option ThreadPool) (numInitThreads : Nat) :
    Option PoolResult :=
  match tp with
  | none => none
  | some p =>
    let p1 : ThreadPool := { p with running := true }
    let tr1 := [Ev.write Field.running]
    if env.condInitRc ≠ 0 then some { rc := env.condInitRc, tp := some p1, trace := tr1 }
    else
      let tr2 := tr1 ++ [Ev.condInit Cond.taskAvailable]
      if env.mutexInitRc ≠ 0 then some { rc := env.mutexInitRc, tp := some p1, trace := tr2 }
      else
        let p2 : ThreadPool :=
          { p1 with waitingTasks := q_constructEmpty WORD_SIZE,
                    threads := q_constructEmpty WORD_SIZE }
        let tr3 := tr2 ++ [Ev.mutexInit Mutex.taskMutex, Ev.write Field.waitingTasks,
                           Ev.write Field.threads]
        match tp_init_loop env.spawn numInitThreads 0 env.mutexInitRc (some p2) tr3 with
        | Except.error r => some r
        | Except.ok (errno, none, tr4) => some { rc := errno, tp := none, trace := tr4 }
        | Except.ok (errno, some p3, tr4) =>
          some { rc := errno,
                 tp := some { p3 with numIdleThreads := numInitThreads },
                 trace := tr4 ++ [Ev.write Field.numIdleThreads] }

/-- Outcomes met by `tp_enqueueImmediate`. -/
structure EnqueueEnv where
  lockRc : Nat
  spawn : SpawnEnv
  alloc : Bool
  signalRc : Nat
  unlockRc : Nat
  deriving DecidableEq, Repr

def tp_enqueueImmediate (env : EnqueueEnv) (tp : Option ThreadPool) (task : TaskPtr) :
    PoolResult :=
  match tp with
  | none => { rc := EPERM, tp := none, trace := [] }
  | some p =>
    if env.lockRc ≠ 0 then { rc := env.lockRc, tp := some p, trace := [] }
    else
      let tr1 := [Ev.lock Mutex.taskMutex]
      let sp : SpawnResult :=
        if p.numIdleThreads = 0 then tp_spawnThread env.spawn (some p)
        else { ok := true, errno := env.lockRc, tp := some p, trace := [] }
      if ¬ sp.ok then { rc := sp.errno, tp := sp.tp, trace := tr1 ++ sp.trace }
      else
        match sp.tp with
        | none => { rc := sp.errno, tp := none, trace := tr1 ++ sp.trace }
        | some p1 =>
          let tr2 := tr1 ++ sp.trace
          match q_enqueue env.alloc p1.waitingTasks (some task) with
          | (false, e, _) => { rc := e, tp := some p1, trace := tr2 }
          | (true, _, q) =>
            let p2 : ThreadPool := { p1 with waitingTasks := q }
            let tr3 := tr2 ++ [Ev.write Field.waitingTasks]
            if env.signalRc ≠ 0 then { rc := env.signalRc, tp := some p2, trace := tr3 }
            else
              let tr4 := tr3 ++ [Ev.signal Cond.taskAvailable]
              if env.unlockRc ≠ 0 then { rc := env.unlockRc, tp := some p2, trace := tr4 }
              else
                { rc := env.unlockRc, tp := some p2,
                  trace := tr4 ++ [Ev.unlock Mutex.taskMutex] }

/-- Outcomes met by `tp_destroy`; `joinRc t` is the return code of joining `t`. -/
structure DestroyEnv where
  lockRc : Nat
  broadcastRc : Nat
  unlockRc : Nat
  joinRc : ThreadId → Nat
  condDestroyRc : Nat
  mutexDestroyRc : Nat

/-- What `tp_destroy` leaves: its `bool`, `errno`, the pool and the recorded
operations. -/
structure DestroyResult where
  ok : Bool
  errno : Nat
  tp : Option ThreadPool
  trace : List Ev
  deriving DecidableEq, Repr

/-- The joining loop of `tp_destroy`,
`for (tIdx = 0; tIdx < q_length(&tp->threads); ++tIdx)`. The first argument
bounds the number of iterations (the value of `q_length` at entry is enough,
since every iteration removes one thread); the result is `none` when the bound
is used up, the result of a failed iteration (`Except.error`), or the state
after the loop. The thread joined is the one read at the front before the
dequeue (the code reads it through the pointer `q_front` returned). -/
def tp_destroy_joinLoop (joinRc : ThreadId → Nat) :
    Nat → Nat → ThreadPool → List Ev → Option (Except DestroyResult (ThreadPool × List Ev))
  | 0, tIdx, p, trace =>
    if tIdx < q_length p.threads then none else some (Except.ok (p, trace))
  | fuel + 1, tIdx, p, trace =>
    if tIdx < q_length p.threads then
      match q_front p.threads with
      | (none, e) =>
        some (Except.error { ok := false, errno := e, tp := some p, trace := trace })
      | (some thread, _) =>
        match q_dequeue p.threads with
        | (false, e, _) =>
          some (Except.error { ok := false, errno := e, tp := some p, trace := trace })
        | (true, _, q) =>
          let p1 : ThreadPool := { p with threads := q }
          let tr1 := trace ++ [Ev.write Field.threads]
          if joinRc thread ≠ 0 then
            some (Except.error
              { ok := false, errno := joinRc thread, tp := some p1, trace := tr1 })
          else tp_destroy_joinLoop joinRc fuel (tIdx + 1) p1 (tr1 ++ [Ev.join thread])
    else some (Except.ok (p, trace))

/-- The part of `tp_destroy` after its first `if`, for a pool that is not `NULL`. -/
def tp_destroy_body (env : DestroyEnv) (p : ThreadPool) : Option DestroyResult :=
  let p1 : ThreadPool := { p with running := false }
  let tr1 := [Ev.write Field.running]
  if env.lockRc ≠ 0 then
    some { ok := false, errno := env.lockRc, tp := some p1, trace := tr1 }
  else
    let tr2 := tr1 ++ [Ev.lock Mutex.taskMutex]
    let unblockErr := env.broadcastRc
    let tr3 := if unblockErr = 0 then tr2 ++ [Ev.broadcast Cond.taskAvailable] else tr2
    if env.unlockRc ≠ 0 then
      some { ok := false, errno := env.unlockRc, tp := some p1, trace := tr3 }
    else
      let tr4 := tr3 ++ [Ev.unlock Mutex.taskMutex]
      if unblockErr ≠ 0 then
        some { ok := false, errno := unblockErr, tp := some p1, trace := tr4 }
      else
        match tp_destroy_joinLoop env.joinRc (q_length p1.threads) 0 p1 tr4 with
        | none => none
        | some (Except.error r) => some r
        | some (Except.ok (p2, tr5)) =>
          let err1 := env.condDestroyRc
          let tr6 := if err1 = 0 then tr5 ++ [Ev.condDestroy Cond.taskAvailable] else tr5
          let err2 := env.mutexDestroyRc
          let tr7 := if err2 = 0 then tr6 ++ [Ev.mutexDestroy Mutex.taskMutex] else tr6
          let errno := if err1 ≠ 0 then err1 else err2
          some { ok := decide (errno = 0), errno := errno, tp := some p2, trace := tr7 }

/-- The first `if` of the function compares `tp` with itself, as written in the
source: `if (tp == (ThreadPool *)tp) return true;`. `errno` is the value of
`errno` at the call. The result is `none` where the code dereferences `NULL`. -/
def tp_destroy (env : DestroyEnv) (errno : Nat) (tp : Option ThreadPool) :
    Option DestroyResult :=
  if tp = tp then some { ok := true, errno := errno, tp := tp, trace := [] }
  else
    match tp with
    | none => none
    | some p => tp_destroy_body env p

/-! ### workerFunction -/

/-- Where a worker thread stands between two of its steps. -/
inductive WorkerState
  | idle
  | waiting
  | busy (task : TaskPtr)
  | stopped (rc : Nat)
  deriving DecidableEq, Repr

/-- Outcomes of the pthread calls of one worker step. -/
structure WorkerEnv where
  lockRc : Nat
  waitRc : Nat
  unlockRc : Nat
  deriving DecidableEq, Repr

/-- Every pthread call succeeds. -/
def WorkerEnv.ok : WorkerEnv := { lockRc := 0, waitRc := 0, unlockRc := 0 }

/-- What one worker step leaves. -/
structure WorkerResult where
  state : WorkerState
  tp : ThreadPool
  trace : List Ev
  deriving DecidableEq, Repr

/-- The worker from the test of its inner `while` (line 282) on, the mutex being
held: it goes to sleep in `pthread_cond_wait`, or stops, or claims the front
task and releases the mutex. -/
def workerFunction_claim (env : WorkerEnv) (p : ThreadPool) (trace : List Ev) : WorkerResult :=
  if p.running ∧ q_length p.waitingTasks = 0 then
    { state := WorkerState.waiting, tp := p, trace := trace }
  else if ¬ p.running ∧ q_length p.waitingTasks = 0 then
    if env.unlockRc ≠ 0 then
      { state := WorkerState.stopped env.unlockRc, tp := p, trace := trace }
    else
      { state := WorkerState.stopped env.unlockRc, tp := p,
        trace := trace ++ [Ev.unlock Mutex.taskMutex] }
  else
    let p1 : ThreadPool :=
      { p with numIdleThreads := (p.numIdleThreads + UINT_MOD - 1) % UINT_MOD }
    let tr1 := trace ++ [Ev.write Field.numIdleThreads]
    match q_front p1.waitingTasks with
    | (none, e) => { state := WorkerState.stopped e, tp := p1, trace := tr1 }
    | (some task, _) =>
      match q_dequeue p1.waitingTasks with
      | (false, e, _) => { state := WorkerState.stopped e, tp := p1, trace := tr1 }
      | (true, _, q) =>
        let p2 : ThreadPool := { p1 with waitingTasks := q }
        let tr2 := tr1 ++ [Ev.write Field.waitingTasks]
        if env.unlockRc ≠ 0 then
          { state := WorkerState.stopped env.unlockRc, tp := p2, trace := tr2 }
        else
          { state := WorkerState.busy task, tp := p2,
            trace := tr2 ++ [Ev.unlock Mutex.taskMutex] }

/-- An idle worker starts an iteration of its outer loop: `pthread_mutex_lock`
(line 272), then the claim. -/
def workerFunction_lock (env : WorkerEnv) (p : ThreadPool) : WorkerResult :=
  if env.lockRc ≠ 0 then { state := WorkerState.stopped env.lockRc, tp := p, trace := [] }
  else workerFunction_claim env p [Ev.lock Mutex.taskMutex]

/-- A sleeping worker returns from `pthread_cond_wait` (line 283) and tests the
condition of the inner loop again. -/
def workerFunction_wake (env : WorkerEnv) (p : ThreadPool) : WorkerResult :=
  if env.waitRc ≠ 0 then { state := WorkerState.stopped env.waitRc, tp := p, trace := [] }
  else workerFunction_claim env p [Ev.wait Cond.taskAvailable Mutex.taskMutex]

/-- What the end of an iteration leaves: the worker, the pool, the task, the
memory and the recorded operations. -/
structure FinishResult where
  state : WorkerState
  tp : ThreadPool
  task : Option Task
  mem : Mem
  trace : List Ev

/-- The end of an iteration (lines 342 to 375) for a callable that returns:
`task_execute`, `task_markCompleted`, then the increment of `numIdleThreads`
under the mutex. The result is `none` where `task_execute` has no defined
behaviour. -/
def workerFunction_finish (env : WorkerEnv) (tenv : TaskEnv) (p : ThreadPool)
    (task : Option Task) (mem : Mem) : Option FinishResult :=
  match task_execute task mem with
  | none => none
  | some x =>
    if x.rc ≠ 0 then
      some { state := WorkerState.stopped x.rc, tp := p, task := x.task, mem := x.mem,
             trace := x.trace }
    else
      let m := task_markCompleted tenv x.task
      let tr1 := x.trace ++ m.trace
      if m.rc ≠ 0 then
        some { state := WorkerState.stopped m.rc, tp := p, task := m.task, mem := x.mem,
               trace := tr1 }
      else if env.lockRc ≠ 0 then
        some { state := WorkerState.stopped env.lockRc, tp := p, task := m.task,
               mem := x.mem, trace := tr1 }
      else
        let p1 : ThreadPool :=
          { p with numIdleThreads := (p.numIdleThreads + 1) % UINT_MOD }
        let tr2 := tr1 ++ [Ev.lock Mutex.taskMutex, Ev.write Field.numIdleThreads]
        if env.unlockRc ≠ 0 then
          some { state := WorkerState.stopped env.unlockRc, tp := p1, task := m.task,
                 mem := x.mem, trace := tr2 }
        else
          some { state := WorkerState.idle, tp := p1, task := m.task, mem := x.mem,
                 trace := tr2 ++ [Ev.unlock Mutex.taskMutex] }

/-! ### Fault-free environments -/

/-- A spawn that succeeds and yields thread `t`. -/
def SpawnEnv.ok (t : ThreadId) : SpawnEnv := { createRc := 0, thread := t, alloc := true }

/-- Every call of `tp_init` succeeds; the spawn of thread number `i` yields `ids i`. -/
def InitEnv.ok (ids : Nat → ThreadId) : InitEnv :=
  { condInitRc := 0, mutexInitRc := 0, spawn := fun i => SpawnEnv.ok (ids i) }

/-- Every call of `tp_enqueueImmediate` succeeds; a spawn yields thread `t`. -/
def EnqueueEnv.ok (t : ThreadId) : EnqueueEnv :=
  { lockRc := 0, spawn := SpawnEnv.ok t, alloc := true, signalRc := 0, unlockRc := 0 }

/-! ### The pool and its worker threads as a transition system -/

/-- A pool with its worker threads (the worker of thread `i` is `workers[i]`), the
tasks the stored pointers refer to, and the memory of the result slots. -/
structure PoolSys where
  tp : ThreadPool
  workers : List WorkerState
  heap : TaskPtr → Task
  mem : Mem

/-- The task a stored `Task *` points to; `NULL` points to none. -/
def derefTask (heap : TaskPtr → Task) (task : TaskPtr) : Option Task :=
  if task = 0 then none else some (heap task)

/-- The moves of the system: a producer submits a task, or worker `i` takes its
next step. Each critical section is one move. -/
inductive Action
  | submit (task : TaskPtr)
  | work (i : Nat)
  deriving DecidableEq, Repr

/-- The system after a fault-free `tp_init` with `n` threads, numbered `0` to
`n - 1`, on a pool variable holding `garbage`. -/
def sys_init (garbage : ThreadPool) (n : Nat) (heap : TaskPtr → Task) (mem : Mem) :
    Option PoolSys :=
  match tp_init (InitEnv.ok id) (some garbage) n with
  | some { rc := 0, tp := some p, trace := _ } =>
    some { tp := p, workers := List.replicate n WorkerState.idle, heap := heap, mem := mem }
  | _ => none

/-- A fault-free `tp_enqueueImmediate`; a spawned thread starts idle. -/
def sys_submit (s : PoolSys) (task : TaskPtr) : Option PoolSys :=
  match tp_enqueueImmediate (EnqueueEnv.ok s.workers.length) (some s.tp) task with
  | { rc := 0, tp := some p, trace := _ } =>
    some { s with tp := p,
                  workers := if s.tp.numIdleThreads = 0 then s.workers ++ [WorkerState.idle]
                             else s.workers }
  | _ => none

/-- A fault-free step of worker `i`; `returns task` tells whether the callable of
`task` returns. The result is `none` when the worker cannot move: there is no
such worker, it has stopped, or it runs a callable that does not return. -/
def sys_work (returns : TaskPtr → Bool) (s : PoolSys) (i : Nat) : Option PoolSys :=
  match s.workers.get? i with
  | none => none
  | some WorkerState.idle =>
    let r := workerFunction_lock WorkerEnv.ok s.tp
    some { s with tp := r.tp, workers := s.workers.set i r.state }
  | some WorkerState.waiting =>
    let r := workerFunction_wake WorkerEnv.ok s.tp
    some { s with tp := r.tp, workers := s.workers.set i r.state }
  | some (WorkerState.busy task) =>
    if returns task then
      match workerFunction_finish WorkerEnv.ok TaskEnv.ok s.tp (derefTask s.heap task)
          s.mem with
      | none => none
      | some r =>
        some { tp := r.tp, workers := s.workers.set i r.state,
               heap := match r.task with
                 | some t => fun q => if q = task then t else s.heap q
                 | none => s.heap,
               mem := r.mem }
    else none
  | some (WorkerState.stopped _) => none

def sys_step (returns : TaskPtr → Bool) (s : PoolSys) : Action → Option PoolSys
  | Action.submit task => sys_submit s task
  | Action.work i => sys_work returns s i

/-- The state after a schedule; a move that is not possible leaves the state as
it is. -/
def sys_run (returns : TaskPtr → Bool) : PoolSys → List Action → PoolSys
  | s, [] => s
  | s, a :: rest =>
    match sys_step returns s a with
    | some s1 => sys_run returns s1 rest
    | none => sys_run returns s rest

/-- Number of workers that are not executing a task. -/
def PoolSys.freeWorkers (s : PoolSys) : Nat :=
  (s.workers.filter fun w => match w with
    | WorkerState.idle => true
    | WorkerState.waiting => true
    | _ => false).length

/-! ### Sequences of calls on one task -/

/-- A call on a task, with the outcomes it meets. -/
inductive TaskOp
  | execute
  | markCompleted (env : TaskEnv)
  | getResult (env : TaskEnv) (wakes : List Wake)
  | destroy (env : TaskEnv)

/-- The task and the memory after one call on a task that is not `NULL`; `none`
where the call has no defined behaviour. A `task_getResult` that stays blocked
leaves the task as its last wakeup found it. -/
def TaskOp.apply : TaskOp → Task × Mem → Option (Task × Mem)
  | TaskOp.execute, (t, mem) =>
    match task_execute (some t) mem with
    | some { rc := _, task := some t1, mem := mem1, trace := _ } => some (t1, mem1)
    | _ => none
  | TaskOp.markCompleted env, (t, mem) =>
    match (task_markCompleted env (some t)).task with
    | some t1 => some (t1, mem)
    | none => none
  | TaskOp.getResult env wakes, (t, mem) =>
    match task_getResult env wakes (some t) with
    | WaitOutcome.returned _ (some t1) _ => some (t1, mem)
    | WaitOutcome.returned _ none _ => none
    | WaitOutcome.blocked t1 _ => some (t1, mem)
  | TaskOp.destroy env, (t, mem) =>
    match (task_destroy env (some t)).task with
    | some t1 => some (t1, mem)
    | none => none

/-- The task and the memory after a sequence of calls; the sequence ends at the
first call without defined behaviour. -/
def runOps : List TaskOp → Task × Mem → Task × Mem
  | [], s => s
  | op :: rest, s =>
    match op.apply s with
    | some s1 => runOps rest s1
    | none => s

/-- The callable `noop` of game.c: `void *noop(void *data) { return data; }`. -/
def noop : Callable := fun data errno => (data, errno)

/-- The sentinel of `caterpillarRun` (game.c, lines 45 to 53) after its
`task_init(&sleepGame, noop, NULL, NULL)` and its `task_execute(&sleepGame)`,
both fault-free; `garbage` is the content of the variable before. -/
def caterpillarRun_sleepGame (garbage : Task) (mem : Mem) : Option Task :=
  let r := task_init TaskEnv.ok (some garbage) (some noop) 0 none
  if r.rc ≠ 0 then none
  else
    match task_execute r.task mem with
    | some x => if x.rc ≠ 0 then none else x.task
    | none => none

/-- A task used in the examples: not completed, with a result slot at address 3. -/
def sampleTask : Task :=
  { foo := some noop, fooArg := 7, fooReturn := some 3, fooErrno := 0, completed := false }

/-- A completed task used in the examples. -/
def doneTask : Task :=
  { foo := some noop, fooArg := 7, fooReturn := none, fooErrno := 0, completed := true }

/-- A memory used in the examples: every cell holds `0`. -/
def zeroMem : Mem := fun _ => 0

/-- A pool used in the examples: running, no thread, no idle thread, no task. -/
def emptyPool : ThreadPool :=
  { threads := q_constructEmpty WORD_SIZE, numIdleThreads := 0,
    waitingTasks := q_constructEmpty WORD_SIZE, running := true }

/-- A pool variable before its initialisation, used in the examples. -/
def garbagePool : ThreadPool :=
  { threads := { elements := { nodes := [9, 9], length := 5, dataSize := 1 } },
    numIdleThreads := 77,
    waitingTasks := { elements := { nodes := [4], length := 0, dataSize := 3 } },
    running := false }

/-- Every call of `tp_destroy` succeeds. -/
def DestroyEnv.ok : DestroyEnv :=
  { lockRc := 0, broadcastRc := 0, unlockRc := 0, joinRc := fun _ => 0,
    condDestroyRc := 0, mutexDestroyRc := 0 }

/-- No callable returns: every task blocks for ever once it is started. -/
def neverReturns : TaskPtr → Bool := fun _ => false

/-- The pool after a fault-free `tp_init` with one thread: one idle worker, no
task waiting. -/
def oneThread (heap : TaskPtr → Task) (mem : Mem) : PoolSys :=
  { tp := { threads := { elements := { nodes := [0], length := 1, dataSize := WORD_SIZE } },
            numIdleThreads := 1,
            waitingTasks := q_constructEmpty WORD_SIZE,
            running := true },
    workers := [WorkerState.idle], heap := heap, mem := mem }

/-- The pool of `oneThread` after the submission of task `1`. -/
def oneSubmitted (heap : TaskPtr → Task) (mem : Mem) : PoolSys :=
  { tp := { threads := { elements := { nodes := [0], length := 1, dataSize := WORD_SIZE } },
            numIdleThreads := 1,
            waitingTasks :=
              { elements := { nodes := [1], length := 1, dataSize := WORD_SIZE } },
            running := true },
    workers := [WorkerState.idle], heap := heap, mem := mem }

/-- The pool after a fault-free `tp_init` with one thread and two submissions
made before the worker takes a step: one idle worker, tasks `1` and `2` waiting. -/
def twoSubmitted (heap : TaskPtr → Task) (mem : Mem) : PoolSys :=
  { tp := { threads := { elements := { nodes := [0], length := 1, dataSize := WORD_SIZE } },
            numIdleThreads := 1,
            waitingTasks :=
              { elements := { nodes := [1, 2], length := 2, dataSize := WORD_SIZE } },
            running := true },
    workers := [WorkerState.idle], heap := heap, mem := mem }

/-- The pool of `twoSubmitted` after its worker has claimed task `1`. -/
def oneClaimed (heap : TaskPtr → Task) (mem : Mem) : PoolSys :=
  { tp := { threads := { elements := { nodes := [0], length := 1, dataSize := WORD_SIZE } },
            numIdleThreads := 0,
            waitingTasks :=
              { elements := { nodes := [2], length := 1, dataSize := WORD_SIZE } },
            running := true },
    workers := [WorkerState.busy 1], heap := heap, mem := mem }

/-- A spurious wakeup: `pthread_cond_wait` returns `0` and `completed` is still `false`. -/
def Wake.spurious : Wake := { rc := 0, completed := false }

/-! ### Well-formed lists and pool writes -/

/-- The `length` field of a list counts its nodes (and fits a `size_t`). -/
def JList.wellFormed {α : Type} (l : JList α) : Prop :=
  l.length = l.nodes.length ∧ l.nodes.length < SIZE_MOD

/-- A write to the pool's `waitingTasks` queue or to its `numIdleThreads` counter. -/
def isPoolWrite (e : Ev) : Bool :=
  decide (e = Ev.write Field.waitingTasks) || decide (e = Ev.write Field.numIdleThreads)

/-- A pool used in the examples: shut down (`running = false`) with tasks `4`
and `6` still waiting. -/
def drainingPool : ThreadPool :=
  { threads := { elements := { nodes := [0], length := 1, dataSize := WORD_SIZE } },
    numIdleThreads := 1,
    waitingTasks := { elements := { nodes := [4, 6], length := 2, dataSize := WORD_SIZE } },
    running := false }

/-! ### Sequences of queue operations -/

/-- The queue after `q_enqueue` of each element in turn, every allocation
succeeding. -/
def q_enqueueAll {α : Type} (q : Queue α) : List α → Queue α
  | [] => q
  | x :: xs => q_enqueueAll (q_enqueue true q (some x)).2.2 xs

/-- The first argument counts successive pairs of `q_front` and `q_dequeue`; for
each pair the record holds the element `q_front` returned, the `bool` of
`q_dequeue` and `q_length` after it. The queue left at the end comes second. -/
def q_drain {α : Type} : Nat → Queue α → List (Option α × Bool × Nat) × Queue α
  | 0, q => ([], q)
  | n + 1, q =>
    let f := q_front q
    let d := q_dequeue q
    let r := q_drain n d.2.2
    ((f.1, d.1, q_length d.2.2) :: r.1, r.2)

/-! ### Sequences of worker iterations -/

/-- The ends of iteration (`workerFunction_finish`, fault-free) of the given
tasks, one after the other; the result holds the pool, the tasks and the memory
they leave, and is `none` when one of them has no result or leaves the loop. -/
def workerFunction_finishAll (p : ThreadPool) :
    List Task → Mem → Option (ThreadPool × List Task × Mem)
  | [], mem => some (p, [], mem)
  | t :: rest, mem =>
    match workerFunction_finish WorkerEnv.ok TaskEnv.ok p (some t) mem with
    | some { state := WorkerState.idle, tp := p1, task := some t1, mem := mem1, trace := _ } =>
      match workerFunction_finishAll p1 rest mem1 with
      | some (p2, ts, mem2) => some (p2, t1 :: ts, mem2)
      | none => none
    | _ => none

/-- The callable of the examples that returns the constant `v`. -/
def constCallable (v : Val) : Callable := fun _ errno => (v, errno)

/-- The task of the examples that writes `v` to the result slot `a`. -/
def writerTask (a : Addr) (v : Val) : Task :=
  { foo := some (constCallable v), fooArg := 0, fooReturn := some a, fooErrno := 0,
    completed := false }

/-! ### States of a pool with a single worker -/

/-- The pool runs with the single worker `w`, the idle count `idle` and the
tasks `nodes` waiting in a queue whose `length` field counts them. -/
def PoolSys.singleWorker (s : PoolSys) (w : WorkerState) (idle : Nat)
    (nodes : List TaskPtr) : Prop :=
  s.workers = [w] ∧ s.tp.numIdleThreads = idle ∧ s.tp.running = true ∧
  s.tp.waitingTasks.elements.nodes = nodes ∧
  s.tp.waitingTasks.elements.length = nodes.length

/-- Every callable returns. -/
def alwaysReturns : TaskPtr → Bool := fun _ => true

/-- A heap used in the examples: every task pointer refers to `sampleTask`. -/
def sampleHeap : TaskPtr → Task := fun _ => sampleTask

/-! ### Idle accounting -/

/-- The worker is between the claim of a task and the end of its iteration. -/
def WorkerState.isBusy : WorkerState → Bool
  | WorkerState.busy _ => true
  | _ => false

/-- Number of workers between the claim of a task and the end of their iteration. -/
def PoolSys.busyWorkers (s : PoolSys) : Nat := s.workers.countP WorkerState.isBusy

/-- The accounting of a state that can still take `budget` moves: the idle count
and the busy workers add up to the workers, `threads` holds one entry per
worker, the `length` fields count the nodes, the counters stay below `2 ^ 32`,
and no task that waits or is being run is `NULL`. -/
def PoolSys.accounted (s : PoolSys) (budget : Nat) : Prop :=
  s.tp.numIdleThreads + s.busyWorkers = s.workers.length ∧
  s.tp.threads.elements.nodes.length = s.workers.length ∧
  s.tp.threads.elements.length = s.workers.length ∧
  s.workers.length + budget < UINT_MOD ∧
  s.tp.waitingTasks.elements.length = s.tp.waitingTasks.elements.nodes.length ∧
  s.tp.waitingTasks.elements.nodes.length + budget < UINT_MOD ∧
  (∀ t ∈ s.tp.waitingTasks.elements.nodes, t ≠ 0) ∧
  (∀ t, WorkerState.busy t ∈ s.workers → t ≠ 0)

/-! ### Observations of the moves -/

/-- What a move of the system does to a task: a producer has submitted it, worker
`i` has taken it from `waitingTasks` (lines 308 to 330 of `workerFunction`), or
worker `i` has gone through `task_execute` on it (line 342). -/
inductive Obs
  | submitted (task : TaskPtr)
  | claimed (i : Nat) (task : TaskPtr)
  | executed (i : Nat) (task : TaskPtr)
  deriving DecidableEq, Repr

/-- The observation is a claim of `task` by some worker. -/
def Obs.claims (task : TaskPtr) : Obs → Bool
  | Obs.claimed _ u => decide (u = task)
  | _ => false

/-- The observation is a `task_execute` on `task` by some worker. -/
def Obs.executes (task : TaskPtr) : Obs → Bool
  | Obs.executed _ u => decide (u = task)
  | _ => false

/-- The task a worker holds between its claim and the end of its iteration. -/
def WorkerState.task : WorkerState → Option TaskPtr
  | WorkerState.busy t => some t
  | _ => none

/-- The tasks held by the workers, by worker number. -/
def PoolSys.held (s : PoolSys) : List (Option TaskPtr) := s.workers.map WorkerState.task

/-- The observation a claim step of worker `i` gives: the task, if the step took one. -/
def claimObs (i : Nat) (r : WorkerResult) : List Obs :=
  match r.state with
  | WorkerState.busy t => [Obs.claimed i t]
  | _ => []

/-- What is observed of one move; a move that is not possible shows nothing. -/
def sys_obs (returns : TaskPtr → Bool) (s : PoolSys) : Action → List Obs
  | Action.submit task =>
    match sys_submit s task with
    | some _ => [Obs.submitted task]
    | none => []
  | Action.work i =>
    match s.workers.get? i with
    | some WorkerState.idle => claimObs i (workerFunction_lock WorkerEnv.ok s.tp)
    | some WorkerState.waiting => claimObs i (workerFunction_wake WorkerEnv.ok s.tp)
    | some (WorkerState.busy task) =>
      if returns task then
        match workerFunction_finish WorkerEnv.ok TaskEnv.ok s.tp (derefTask s.heap task)
            s.mem with
        | some _ => [Obs.executed i task]
        | none => []
      else []
    | _ => []

/-- The state after one move; a move that is not possible leaves the state as it is. -/
def sys_next (returns : TaskPtr → Bool) (s : PoolSys) (a : Action) : PoolSys :=
  match sys_step returns s a with
  | some s1 => s1
  | none => s

/-- The observations of a schedule, in order. -/
def sys_log (returns : TaskPtr → Bool) : PoolSys → List Action → List Obs
  | _, [] => []
  | s, a :: rest => sys_obs returns s a ++ sys_log returns (sys_next returns s a) rest

/-! ### The polling loops of the caterpillar game

`runScreenRefresher` (game_console.c), `runUpkeep` (upkeep.c), `spawnCaterpillars`
(spawn_caterpillars.c) and `acceptUserInput` (user_input.c) share one skeleton:
`errno = 0`, the checks of the argument, `while (!arg->sleepGame->completed)`
around a body that leaves the loop with `break` on an error, then
`if (errno != 0) task_markCompleted(arg->sleepGame)` and `return errno`. The
sentinel `sleepGame` is shared with other threads: each iteration of a run tells
whether another thread completes the sentinel while the iteration is in progress,
and the flag is read when the loop condition is evaluated. The calls of the console
library (`sleepTicks`, `consoleRefresh`) and of the C library are outcomes of the
environment; writing a message to `stderr` is taken to leave `errno` as it is. -/

/-- Value of `EIO`. -/
def EIO : Nat := 5

/-- The end of one iteration of a polling loop: `errno`, the sentinel, and whether
the body left the loop with `break`. -/
structure BodyResult where
  errno : Nat
  sentinel : Task
  broke : Bool

/-- The end of a polling loop: `errno`, the sentinel, the number of iterations
started, and whether the loop was left (it is still polling when the iterations
of the environment are used up and the sentinel is not completed). -/
structure PollResult where
  errno : Nat
  sentinel : Task
  iterations : Nat
  exited : Bool

/-- The loop `while (!arg->sleepGame->completed) { body }` from an evaluation of its
condition on, with `errno`, the sentinel and the number of iterations started so
far. -/
def pollLoop {E : Type} (body : E → Nat → Task → BodyResult) (marked : E → Bool) :
    Nat → Task → Nat → List E → PollResult
  | errno, sentinel, k, [] =>
    { errno := errno, sentinel := sentinel, iterations := k, exited := sentinel.completed }
  | errno, sentinel, k, e :: rest =>
    if sentinel.completed then
      { errno := errno, sentinel := sentinel, iterations := k, exited := true }
    else
      let r := body e errno sentinel
      let s1 : Task := if marked e then { r.sentinel with completed := true } else r.sentinel
      if r.broke then
        { errno := r.errno, sentinel := s1, iterations := k + 1, exited := true }
      else pollLoop body marked r.errno s1 (k + 1) rest

/-- What a polling function leaves: whether it has returned, its return value
(`errno`), the sentinel and the number of iterations started. -/
structure FnResult where
  returned : Bool
  rc : Nat
  sentinel : Option Task
  iterations : Nat

/-- The common end of the polling functions: `if (errno != 0)` the sentinel is
completed with `task_markCompleted`, which sets `errno` to its own return value;
then `return errno`. -/
def pollEpilogue (tenv : TaskEnv) (errno : Nat) (sentinel : Option Task)
    (iterations : Nat) : FnResult :=
  if errno ≠ 0 then
    let m := task_markCompleted tenv sentinel
    { returned := true, rc := m.rc, sentinel := m.task, iterations := iterations }
  else
    { returned := true, rc := errno, sentinel := sentinel, iterations := iterations }

/-- The end of the function after its loop; a loop that is still polling has not
returned. -/
def pollFinish (tenv : TaskEnv) (r : PollResult) : FnResult :=
  if r.exited then pollEpilogue tenv r.errno (some r.sentinel) r.iterations
  else { returned := false, rc := r.errno, sentinel := some r.sentinel,
         iterations := r.iterations }

/-- The value of `errno` after a call of the environment that may set it. -/
def setErrno (outcome : Option Nat) (errno : Nat) : Nat :=
  match outcome with
  | some e => e
  | none => errno

/-- Outcomes met by one iteration of `runScreenRefresher`. -/
structure RefreshIter where
  lockRc : Nat
  unlockRc : Nat
  sleepErrno : Option Nat
  marked : Bool

/-- The `RefreshArg` of `runScreenRefresher`. -/
structure RefreshArg where
  sleepGame : Option Task

/-- The body of the loop of `runScreenRefresher` (lines 98 to 124). -/
def runScreenRefresher_body (e : RefreshIter) (_errno : Nat) (sentinel : Task) :
    BodyResult :=
  if e.lockRc ≠ 0 then { errno := e.lockRc, sentinel := sentinel, broke := true }
  else if e.unlockRc ≠ 0 then { errno := e.unlockRc, sentinel := sentinel, broke := true }
  else { errno := setErrno e.sleepErrno e.unlockRc, sentinel := sentinel, broke := false }

/-- The function `runScreenRefresher`; `none` where it reads through `NULL`. -/
def runScreenRefresher (tenv : TaskEnv) (data : Option RefreshArg) (its : List RefreshIter) :
    Option FnResult :=
  match data with
  | none => none
  | some arg =>
    match arg.sleepGame with
    | none => some (pollEpilogue tenv EPERM none 0)
    | some sentinel =>
      some (pollFinish tenv (pollLoop runScreenRefresher_body RefreshIter.marked 0 sentinel 0 its))

/-- Outcomes met by one iteration of `runUpkeep`; `mark` holds those of the
`task_markCompleted` of the body. -/
structure UpkeepIter where
  consoleLockRc : Nat
  scoreOk : Bool
  livesOk : Bool
  consoleUnlockRc : Nat
  killedLockRc : Nat
  killedUnlockRc : Nat
  runningLockRc : Nat
  runningEmpty : Bool
  mark : TaskEnv
  runningUnlockRc : Nat
  sleepErrno : Option Nat
  marked : Bool

/-- The `UpkeepArg` of `runUpkeep`; a `Bool` member tells that the pointer is not
`NULL`. -/
structure UpkeepArg where
  p : Bool
  killedCatLock : Bool
  killedCaterpillars : Bool
  banner : Bool
  sleepGame : Option Task

/-- The body of the loop of `runUpkeep` (lines 117 to 193). -/
def runUpkeep_body (e : UpkeepIter) (_errno : Nat) (sentinel : Task) : BodyResult :=
  if e.consoleLockRc ≠ 0 then
    { errno := e.consoleLockRc, sentinel := sentinel, broke := true }
  else if e.scoreOk ≠ true then { errno := EIO, sentinel := sentinel, broke := true }
  else if e.livesOk ≠ true then { errno := EIO, sentinel := sentinel, broke := true }
  else if e.consoleUnlockRc ≠ 0 then
    { errno := e.consoleUnlockRc, sentinel := sentinel, broke := true }
  else if e.killedLockRc ≠ 0 then
    { errno := e.killedLockRc, sentinel := sentinel, broke := true }
  else if e.killedUnlockRc ≠ 0 then
    { errno := e.killedUnlockRc, sentinel := sentinel, broke := true }
  else if e.runningLockRc ≠ 0 then
    { errno := e.runningLockRc, sentinel := sentinel, broke := true }
  else
    let m : TaskResult :=
      if e.runningEmpty then task_markCompleted e.mark (some sentinel)
      else { rc := e.runningLockRc, task := some sentinel, trace := [] }
    let s1 : Task := match m.task with
      | some t => t
      | none => sentinel
    if m.rc ≠ 0 then { errno := m.rc, sentinel := s1, broke := true }
    else if e.runningUnlockRc ≠ 0 then
      { errno := e.runningUnlockRc, sentinel := s1, broke := true }
    else { errno := setErrno e.sleepErrno e.runningUnlockRc, sentinel := s1, broke := false }

/-- The function `runUpkeep`; `none` where it reads through `NULL`. -/
def runUpkeep (tenv : TaskEnv) (data : Option UpkeepArg) (its : List UpkeepIter) :
    Option FnResult :=
  match data with
  | none => none
  | some arg =>
    if arg.p ≠ true then some (pollEpilogue tenv EPERM arg.sleepGame 0)
    else if arg.killedCatLock ≠ true then some (pollEpilogue tenv EPERM arg.sleepGame 0)
    else if arg.killedCaterpillars ≠ true then some (pollEpilogue tenv EPERM arg.sleepGame 0)
    else if arg.banner ≠ true then some (pollEpilogue tenv EPERM arg.sleepGame 0)
    else
      match arg.sleepGame with
      | none => some (pollEpilogue tenv EPERM none 0)
      | some sentinel =>
        some (pollFinish tenv (pollLoop runUpkeep_body UpkeepIter.marked 0 sentinel 0 its))

/-- Outcomes met by one iteration of `spawnCaterpillars`: a failing `malloc` sets
`errno` to `ENOMEM`, a failing `list_pushBack` sets it to `pushErrno`. -/
structure SpawnIter where
  mallocOk : Bool
  initRc : Nat
  taskInitRc : Nat
  runningLockRc : Nat
  pushOk : Bool
  pushErrno : Nat
  enqueueRc : Nat
  sleepErrno : Option Nat
  marked : Bool

/-- The `SpawnCaterpillarsArg` of `spawnCaterpillars`; a `Bool` member tells that
the pointer is not `NULL`. -/
structure SpawnCaterpillarsArg where
  runningCaterpillars : Bool
  sleepGame : Option Task
  threadPool : Bool
  killedCatLock : Bool
  killedCaterpillars : Bool
  runningCatLock : Bool

/-- The body of the loop of `spawnCaterpillars` (lines 108 to 177); the test after
`malloc` is `errno != 0`, on the `errno` the iteration starts with; the value of
`pthread_mutex_lock` (line 155) is overwritten before it is read. -/
def spawnCaterpillars_body (e : SpawnIter) (errno : Nat) (sentinel : Task) : BodyResult :=
  let errno1 := if e.mallocOk then errno else ENOMEM
  if errno1 ≠ 0 then { errno := errno1, sentinel := sentinel, broke := true }
  else if e.initRc ≠ 0 then { errno := e.initRc, sentinel := sentinel, broke := true }
  else if e.taskInitRc ≠ 0 then { errno := e.taskInitRc, sentinel := sentinel, broke := true }
  else if e.pushOk ≠ true then { errno := e.pushErrno, sentinel := sentinel, broke := true }
  else if e.enqueueRc ≠ 0 then { errno := e.enqueueRc, sentinel := sentinel, broke := true }
  else { errno := setErrno e.sleepErrno e.enqueueRc, sentinel := sentinel, broke := false }

/-- The function `spawnCaterpillars`; `none` where it reads through `NULL`. -/
def spawnCaterpillars (tenv : TaskEnv) (data : Option SpawnCaterpillarsArg)
    (its : List SpawnIter) : Option FnResult :=
  match data with
  | none => none
  | some arg =>
    if arg.runningCaterpillars ≠ true then some (pollEpilogue tenv EPERM arg.sleepGame 0)
    else
      match arg.sleepGame with
      | none => some (pollEpilogue tenv EPERM none 0)
      | some sentinel =>
        if arg.threadPool ≠ true then some (pollEpilogue tenv EPERM arg.sleepGame 0)
        else if arg.killedCatLock ≠ true then some (pollEpilogue tenv EPERM arg.sleepGame 0)
        else if arg.killedCaterpillars ≠ true then
          some (pollEpilogue tenv EPERM arg.sleepGame 0)
        else if arg.runningCatLock ≠ true then some (pollEpilogue tenv EPERM arg.sleepGame 0)
        else
          some (pollFinish tenv
            (pollLoop spawnCaterpillars_body SpawnIter.marked 0 sentinel 0 its))

/-- Outcomes met by one iteration of `acceptUserInput`: `selectErrno` is the `errno`
of a `select` that returns a negative value, `inputReady` the bit of `stdin`,
`scanErrno` the `errno` set by `scanf`, `executeRc` the value of `executeCommand`. -/
structure InputIter where
  selectErrno : Option Nat
  inputReady : Bool
  scanErrno : Option Nat
  executeRc : Nat
  marked : Bool

/-- The `UserInputArg` of `acceptUserInput`; `p` tells that the pointer is not
`NULL`. -/
structure UserInputArg where
  p : Bool
  sleepGame : Option Task

/-- The body of the loop of `acceptUserInput` (lines 214 to 255); `readUserCmd`
fails when `errno` is not `0` after its `scanf`. -/
def acceptUserInput_body (e : InputIter) (errno : Nat) (sentinel : Task) : BodyResult :=
  match e.selectErrno with
  | some x => { errno := x, sentinel := sentinel, broke := true }
  | none =>
    if e.inputReady then
      let errno1 := setErrno e.scanErrno errno
      if errno1 ≠ 0 then { errno := errno1, sentinel := sentinel, broke := true }
      else if e.executeRc ≠ 0 then
        { errno := e.executeRc, sentinel := sentinel, broke := true }
      else { errno := e.executeRc, sentinel := sentinel, broke := false }
    else { errno := errno, sentinel := sentinel, broke := false }

/-- The function `acceptUserInput`; `none` where it reads through `NULL`. -/
def acceptUserInput (tenv : TaskEnv) (data : Option UserInputArg) (its : List InputIter) :
    Option FnResult :=
  match data with
  | none => none
  | some arg =>
    if arg.p ≠ true then some (pollEpilogue tenv EPERM arg.sleepGame 0)
    else
      match arg.sleepGame with
      | none => some (pollEpilogue tenv EPERM none 0)
      | some sentinel =>
        some (pollFinish tenv (pollLoop acceptUserInput_body InputIter.marked 0 sentinel 0 its))

/-- The four polling functions. -/
inductive Poller
  | screenRefresher
  | upkeep
  | spawner
  | userInput
  deriving DecidableEq, Repr

/-- The outcomes of one iteration of a polling function. -/
def Poller.Iter : Poller → Type
  | Poller.screenRefresher => RefreshIter
  | Poller.upkeep => UpkeepIter
  | Poller.spawner => SpawnIter
  | Poller.userInput => InputIter

/-- Another thread completes the sentinel during the iteration. -/
def Poller.marked : (f : Poller) → f.Iter → Bool
  | Poller.screenRefresher => RefreshIter.marked
  | Poller.upkeep => UpkeepIter.marked
  | Poller.spawner => SpawnIter.marked
  | Poller.userInput => InputIter.marked

/-- The body of the loop of a polling function. -/
def Poller.body : (f : Poller) → f.Iter → Nat → Task → BodyResult
  | Poller.screenRefresher => runScreenRefresher_body
  | Poller.upkeep => runUpkeep_body
  | Poller.spawner => spawnCaterpillars_body
  | Poller.userInput => acceptUserInput_body

/-- A call that leaves `errno` at `0`. -/
def quiet (outcome : Option Nat) : Bool := setErrno outcome 0 == 0

/-- No call of the iteration fails. -/
def Poller.noError : (f : Poller) → f.Iter → Bool
  | Poller.screenRefresher => fun e =>
    e.lockRc == 0 && e.unlockRc == 0 && quiet e.sleepErrno
  | Poller.upkeep => fun e =>
    e.consoleLockRc == 0 && e.scoreOk && e.livesOk && e.consoleUnlockRc == 0 &&
    e.killedLockRc == 0 && e.killedUnlockRc == 0 && e.runningLockRc == 0 &&
    e.mark.lockRc == 0 && e.mark.broadcastRc == 0 && e.mark.unlockRc == 0 &&
    e.runningUnlockRc == 0 && quiet e.sleepErrno
  | Poller.spawner => fun e =>
    e.mallocOk && e.initRc == 0 && e.taskInitRc == 0 && e.pushOk && e.enqueueRc == 0 &&
    quiet e.sleepErrno
  | Poller.userInput => fun e =>
    e.selectErrno.isNone && quiet e.scanErrno && e.executeRc == 0

/-- A polling function called with valid arguments and the sentinel `sentinel`. -/
def Poller.run (f : Poller) (tenv : TaskEnv) (sentinel : Task) (its : List f.Iter) :
    Option FnResult :=
  match f, its with
  | Poller.screenRefresher, its =>
    runScreenRefresher tenv (some { sleepGame := some sentinel }) its
  | Poller.upkeep, its =>
    runUpkeep tenv
      (some { p := true, killedCatLock := true, killedCaterpillars := true, banner := true,
              sleepGame := some sentinel }) its
  | Poller.spawner, its =>
    spawnCaterpillars tenv
      (some { runningCaterpillars := true, sleepGame := some sentinel, threadPool := true,
              killedCatLock := true, killedCaterpillars := true, runningCatLock := true }) its
  | Poller.userInput, its =>
    acceptUserInput tenv (some { p := true, sleepGame := some sentinel }) its

/-- One polling loop: the function and the iterations the environment gives it. -/
structure PollRun where
  fn : Poller
  its : List fn.Iter

/-- An iteration in which no call fails; `marked` tells whether another thread
completes the sentinel meanwhile. -/
def Poller.calm : (f : Poller) → Bool → f.Iter
  | Poller.screenRefresher => fun marked =>
    ({ lockRc := 0, unlockRc := 0, sleepErrno := none, marked := marked } : RefreshIter)
  | Poller.upkeep => fun marked =>
    ({ consoleLockRc := 0, scoreOk := true, livesOk := true, consoleUnlockRc := 0,
       killedLockRc := 0, killedUnlockRc := 0, runningLockRc := 0, runningEmpty := false,
       mark := TaskEnv.ok, runningUnlockRc := 0, sleepErrno := none,
       marked := marked } : UpkeepIter)
  | Poller.spawner => fun marked =>
    ({ mallocOk := true, initRc := 0, taskInitRc := 0, runningLockRc := 0, pushOk := true,
       pushErrno := 0, enqueueRc := 0, sleepErrno := none, marked := marked } : SpawnIter)
  | Poller.userInput => fun marked =>
    ({ selectErrno := none, inputReady := true, scanErrno := none, executeRc := 0,
       marked := marked } : InputIter)

/-- A loop used in the examples: the sentinel is completed by another thread during
the second of four iterations. -/
def sampleRun (f : Poller) : PollRun :=
  { fn := f, its := [f.calm false, f.calm true, f.calm false, f.calm false] }

/-- Ten loops that poll one sentinel. -/
def tenLoops : List PollRun :=
  List.replicate 3 (sampleRun Poller.screenRefresher) ++
  List.replicate 3 (sampleRun Poller.upkeep) ++
  List.replicate 2 (sampleRun Poller.spawner) ++
  List.replicate 2 (sampleRun Poller.userInput)

/-- One loop that polls the sentinel. -/
def oneLoop : List PollRun := [sampleRun Poller.upkeep]

/-! ### vector.c (jd-lib): vectors over a heap of allocations

A `Vector` owns one allocation of `capacity` elements. The heap is a list of
allocations, each a list of cells, one cell per element of `dataSize` bytes; a
pointer names an allocation and a cell in it. A read or write outside an
allocation, or through a pointer that names no cell, has no defined behaviour
(`none`); a `memcpy` of `0` bytes copies nothing. Sizes are taken to stay below
`2 ^ 32`, so that no byte count wraps. -/

/-- Value of `ENOENT`. -/
def ENOENT : Nat := 2

/-- Value of `ESRCH`. -/
def ESRCH : Nat := 3

/-- Value of `EINTR`. -/
def EINTR : Nat := 4

/-- Value of `ERANGE`. -/
def ERANGE : Nat := 34

/-- A `void *`: `NULL`, the cell `off` of allocation `block`, or an address computed
from `NULL` that names no cell. -/
inductive Ptr
  | null
  | cell (block : Nat) (off : Nat)
  | wild
  deriving DecidableEq, Repr

/-- The allocations, by number; a freed allocation has no cell left. -/
abbrev Heap := List (List Val)

/-- Pointer arithmetic in elements. -/
def Ptr.add : Ptr → Nat → Ptr
  | Ptr.cell b off, k => Ptr.cell b (off + k)
  | Ptr.null, k => if k = 0 then Ptr.null else Ptr.wild
  | Ptr.wild, _ => Ptr.wild

/-- The `n` cells read from `p` on. -/
def Heap.read (h : Heap) (p : Ptr) (n : Nat) : Option (List Val) :=
  if n = 0 then some []
  else match p with
    | Ptr.cell b off =>
      match h.get? b with
      | some cells => if off + n ≤ cells.length then some ((cells.drop off).take n) else none
      | none => none
    | _ => none

/-- The heap after `cells` are written from `p` on. -/
def Heap.write (h : Heap) (p : Ptr) (cells : List Val) : Option Heap :=
  if cells.length = 0 then some h
  else match p with
    | Ptr.cell b off =>
      match h.get? b with
      | some old =>
        if off + cells.length ≤ old.length then
          some (h.set b (old.take off ++ cells ++ old.drop (off + cells.length)))
        else none
      | none => none
    | _ => none

/-- The call `memcpy(dest, src, n)` of `n` elements. -/
def memcpy (h : Heap) (dest src : Ptr) (n : Nat) : Option Heap :=
  match h.read src n with
  | none => none
  | some cells => h.write dest cells

/-- Outcomes of the allocator: whether the allocation that would get number `k`
succeeds, and the content of fresh cells. -/
structure MemEnv where
  allocOk : Nat → Bool
  fill : Val

/-- An allocator call: the pointer, `errno` and the heap. -/
structure AllocResult where
  ptr : Ptr
  errno : Nat
  heap : Heap

/-- The call `malloc` for `n` elements; a failure sets `errno` to `ENOMEM`. -/
def malloc (env : MemEnv) (h : Heap) (errno : Nat) (n : Nat) : AllocResult :=
  if env.allocOk h.length then
    { ptr := Ptr.cell h.length 0, errno := errno, heap := h ++ [List.replicate n env.fill] }
  else { ptr := Ptr.null, errno := ENOMEM, heap := h }

/-- The call `free`. -/
def free (h : Heap) : Ptr → Heap
  | Ptr.cell b _ => h.set b []
  | _ => h

/-- The call `realloc` for `n` elements: a new allocation that starts with the old
cells, the old one freed; `none` for a pointer that is not the start of an
allocation. -/
def realloc (env : MemEnv) (h : Heap) (errno : Nat) (p : Ptr) (n : Nat) :
    Option AllocResult :=
  match p with
  | Ptr.null => some (malloc env h errno n)
  | Ptr.cell b 0 =>
    match h.get? b with
    | none => none
    | some old =>
      if env.allocOk h.length then
        some { ptr := Ptr.cell h.length 0, errno := errno,
               heap := (h ++ [old.take n ++ List.replicate (n - old.length) env.fill]).set b [] }
      else some { ptr := Ptr.null, errno := ENOMEM, heap := h }
  | _ => none

/-- The call `memoryOverlaps(first, second, dataSize)` of error.c, in elements:
two ranges of equal length overlap when they lie in one allocation and one starts
inside the other. -/
def memoryOverlaps (first second : Ptr) (n : Nat) : Bool :=
  match first, second with
  | Ptr.cell b1 o1, Ptr.cell b2 o2 =>
    decide (b1 = b2) && ((decide (o1 ≤ o2) && decide (o1 + n > o2)) ||
      (decide (o2 ≤ o1) && decide (o2 + n > o1)))
  | _, _ => false

/-- The `Vector` of vector.h; `elementDeleter` is `0` for `NULL`. -/
structure Vector where
  data : Ptr
  length : Nat
  capacity : Nat
  dataSize : Nat
  elementDeleter : Nat
  deriving DecidableEq, Repr

/-- The `OptionalVector` of vector.h. -/
structure OptionalVector where
  data : Vector
  valid : Bool
  deriving DecidableEq, Repr

/-- What a constructor of vectors leaves. -/
structure ConstructResult where
  opt : OptionalVector
  errno : Nat
  heap : Heap

/-- The call `vector_constructCapacity`; it sets `errno` to `0` first, whatever
`errno` was. -/
def vector_constructCapacity (env : MemEnv) (h : Heap) (_errno : Nat)
    (capacity dataSize : Nat) : ConstructResult :=
  let vec : Vector :=
    { data := Ptr.null, length := 0, capacity := capacity, dataSize := dataSize,
      elementDeleter := 0 }
  if dataSize = 0 then { opt := { data := vec, valid := false }, errno := EPERM, heap := h }
  else if capacity = 0 then
    { opt := { data := vec, valid := false }, errno := EPERM, heap := h }
  else
    let m := malloc env h 0 capacity
    if m.ptr = Ptr.null then
      { opt := { data := vec, valid := false }, errno := m.errno, heap := m.heap }
    else
      { opt := { data := { vec with data := m.ptr }, valid := true }, errno := m.errno,
        heap := m.heap }

/-- The call `vector_freeData`. -/
def vector_freeData (h : Heap) (vec : Option Vector) : Heap :=
  match vec with
  | none => h
  | some v => free h v.data

/-- The call `vector_at`: the pointer and `errno`. -/
def vector_at (vec : Option Vector) (index : Nat) : Ptr × Nat :=
  match vec with
  | none => (Ptr.null, EPERM)
  | some v =>
    if v.length ≤ index then (Ptr.null, ENOENT)
    else (v.data.add (if v.dataSize = 0 then 0 else index), 0)

/-- What an assignment of elements leaves. -/
structure AssignResult where
  ok : Bool
  errno : Nat
  heap : Heap

/-- The call `vector_assignElements` (it does not reset `errno`); the bytes copied
are `dataSize * numElements`. -/
def vector_assignElements (h : Heap) (errno : Nat) (vec : Option Vector)
    (destination numElements : Nat) (source : Ptr) : Option AssignResult :=
  match vec with
  | none => some { ok := false, errno := errno, heap := h }
  | some v =>
    if source = Ptr.null then some { ok := false, errno := errno, heap := h }
    else
      let n := if v.dataSize = 0 then 0 else numElements
      let loc := vector_at (some v) destination
      if loc.2 ≠ 0 then some { ok := false, errno := loc.2, heap := h }
      else if memoryOverlaps source loc.1 n then
        some { ok := false, errno := loc.2, heap := h }
      else
        match memcpy h loc.1 source n with
        | none => none
        | some h1 => some { ok := true, errno := loc.2, heap := h1 }

/-- What `vector_erase` leaves: its return value, `errno`, the vector and the heap. -/
structure EraseResult where
  ok : Bool
  errno : Nat
  vec : Option Vector
  heap : Heap

/-- The call `vector_erase` (lines 449 to 503); `none` where a copy leaves an
allocation. The test of the index (line 460) sets `errno` and goes on. -/
def vector_erase (env : MemEnv) (h : Heap) (vec : Option Vector) (index : Nat) :
    Option EraseResult :=
  match vec with
  | none => some { ok := false, errno := EPERM, vec := none, heap := h }
  | some v =>
    let errno1 := if v.length ≤ index then ERANGE else 0
    let c := vector_constructCapacity env h errno1 v.capacity v.dataSize
    let newVec : Vector := { c.opt.data with length := v.length }
    match vector_assignElements c.heap c.errno (some newVec) 0 index v.data with
    | none => none
    | some a1 =>
      if a1.ok ≠ true then
        some { ok := false, errno := a1.errno, vec := some v, heap := a1.heap }
      else
        let second : Option AssignResult :=
          if v.length > (index + 1) % SIZE_MOD then
            let source := vector_at (some v) ((index + 1) % SIZE_MOD)
            vector_assignElements a1.heap source.2 (some newVec) index
              (v.length - index - 1) source.1
          else some a1
        match second with
        | none => none
        | some a2 =>
          if a2.ok ≠ true then
            some { ok := false, errno := a2.errno, vec := some v, heap := a2.heap }
          else
            some { ok := true, errno := a2.errno,
                   vec := some { newVec with
                     length := (newVec.length + SIZE_MOD - 1) % SIZE_MOD },
                   heap := vector_freeData a2.heap (some v) }

/-- An allocator that never fails and fills fresh cells with `0`. -/
def MemEnv.ok : MemEnv := { allocOk := fun _ => true, fill := 0 }

/-- A heap used in the examples: one allocation of four elements, the first two
in use. -/
def twoOfFourHeap : Heap := [[7, 8, 0, 0]]

/-- The vector on `twoOfFourHeap`: elements `7` and `8`, capacity `4`. -/
def twoOfFour : Vector :=
  { data := Ptr.cell 0 0, length := 2, capacity := 4, dataSize := 4, elementDeleter := 0 }

/-- The elements of a byte count `dataSize * n`: none when `dataSize` is `0`. -/
def elems (dataSize n : Nat) : Nat := if dataSize = 0 then 0 else n

/-- The call `vector_copyConstruct` (lines 70 to 104); `none` where the copy leaves
an allocation. A result that is not valid holds a zeroed vector. -/
def vector_copyConstruct (env : MemEnv) (h : Heap) (other : Option Vector) :
    Option ConstructResult :=
  let zero : Vector :=
    { data := Ptr.null, length := 0, capacity := 0, dataSize := 0, elementDeleter := 0 }
  match other with
  | none => some { opt := { data := zero, valid := false }, errno := EPERM, heap := h }
  | some o =>
    let vec : Vector :=
      { data := Ptr.null, length := o.length, capacity := o.capacity,
        dataSize := o.dataSize, elementDeleter := 0 }
    let m := malloc env h 0 (elems vec.dataSize vec.capacity)
    if m.ptr = Ptr.null then
      some { opt := { data := zero, valid := false }, errno := m.errno, heap := m.heap }
    else
      match memcpy m.heap m.ptr o.data (elems vec.dataSize vec.length) with
      | none => none
      | some h1 =>
        some { opt := { data := { vec with data := m.ptr }, valid := true },
               errno := m.errno, heap := h1 }

/-- The `for` of `vector_find` (lines 525 to 531) from index `i` on, with `left`
elements to go: the index found, or `none` for `-1`; the outer `none` is a read
outside an allocation. -/
def vector_find_loop (h : Heap) (v : Vector) (value : Ptr) : Nat → Nat → Option (Option Nat)
  | 0, _ => some none
  | left + 1, i =>
    let vecElem := (vector_at (some v) i).1
    match h.read vecElem (elems v.dataSize 1), h.read value (elems v.dataSize 1) with
    | some a, some b =>
      if a = b then some (some i) else vector_find_loop h v value left (i + 1)
    | _, _ => none

/-- The call `vector_find`: the index (`none` for `-1`) and `errno`. -/
def vector_find (h : Heap) (vec : Option Vector) (value : Ptr) :
    Option (Option Nat × Nat) :=
  match vec with
  | none => some (none, EPERM)
  | some v =>
    if value = Ptr.null then some (none, EPERM)
    else
      match vector_find_loop h v value v.length 0 with
      | none => none
      | some found => some (found, 0)

/-- What an operation that changes a vector leaves. -/
structure VecResult where
  ok : Bool
  errno : Nat
  vec : Option Vector
  heap : Heap

/-- The call `vector_reserve` (lines 297 to 321). -/
def vector_reserve (env : MemEnv) (h : Heap) (vec : Option Vector) (newSize : Nat) :
    Option VecResult :=
  match vec with
  | none => some { ok := false, errno := EPERM, vec := none, heap := h }
  | some v =>
    if newSize > v.capacity then
      let newCapacity := (2 * newSize) % SIZE_MOD
      match realloc env h 0 v.data (elems v.dataSize newCapacity) with
      | none => none
      | some m =>
        if m.ptr = Ptr.null then
          some { ok := false, errno := m.errno, vec := some v, heap := m.heap }
        else
          some { ok := true, errno := m.errno,
                 vec := some { v with data := m.ptr, capacity := newCapacity },
                 heap := m.heap }
    else some { ok := true, errno := 0, vec := some v, heap := h }

/-- The call `vector_assignElement` (lines 335 to 372). -/
def vector_assignElement (h : Heap) (vec : Option Vector) (destination : Nat)
    (source : Ptr) : Option AssignResult :=
  match vec with
  | none => some { ok := false, errno := EPERM, heap := h }
  | some v =>
    if source = Ptr.null then some { ok := false, errno := EPERM, heap := h }
    else
      let loc := vector_at (some v) destination
      if loc.2 ≠ 0 then some { ok := false, errno := loc.2, heap := h }
      else if memoryOverlaps source loc.1 (elems v.dataSize 1) then
        some { ok := false, errno := loc.2, heap := h }
      else vector_assignElements h loc.2 (some v) destination 1 source

/-- The call `vector_pushBack` (lines 178 to 201): the length is incremented before
the reservation. -/
def vector_pushBack (env : MemEnv) (h : Heap) (vec : Option Vector) (element : Ptr) :
    Option VecResult :=
  match vec with
  | none => some { ok := false, errno := EPERM, vec := none, heap := h }
  | some v =>
    if element = Ptr.null then some { ok := false, errno := EPERM, vec := some v, heap := h }
    else
      let oldLength := v.length
      let v1 : Vector := { v with length := (v.length + 1) % SIZE_MOD }
      match vector_reserve env h (some v1) v1.length with
      | none => none
      | some r =>
        if r.ok ≠ true then some r
        else
          match vector_assignElement r.heap r.vec oldLength element with
          | none => none
          | some a => some { ok := a.ok, errno := a.errno, vec := r.vec, heap := a.heap }

/-! ### job_states.c (myshell): waiting for the foreground processes -/

/-- One return of `waitpid`: whether it returns `-1`, the `errno` it sets then,
and whether the status is a normal exit (`WIFEXITED`). -/
structure WaitpidOutcome where
  failed : Bool
  errno : Nat
  exited : Bool
  deriving DecidableEq, Repr

/-- The global vectors of job_states.c with the heap and `errno`. -/
structure JobState where
  fgPids : Vector
  suspendedPids : Vector
  heap : Heap
  errno : Nat

/-- What `waitForForegroundPids` leaves: its return value, the state, and the PIDs
`waitpid` was called on, in order. -/
structure ForegroundResult where
  ok : Bool
  state : JobState
  waited : List Val

/-- The `for` of `waitForForegroundPids` (lines 42 to 75) from the test of
`childIdx < fgPids.length` on; `spawned` is the copy made at entry. The result is
`none` where the code has no defined behaviour or the fuel runs out. -/
def waitForForegroundPids_loop (menv : MemEnv) (waitpid : Val → WaitpidOutcome)
    (spawned : Vector) : Nat → Nat → JobState → List Val → Option ForegroundResult
  | 0, childIdx, st, waited =>
    if childIdx < st.fgPids.length then none
    else some { ok := true, state := st, waited := waited }
  | fuel + 1, childIdx, st, waited =>
    if ¬ childIdx < st.fgPids.length then some { ok := true, state := st, waited := waited }
    else
      let pid := vector_at (some spawned) childIdx
      match st.heap.read pid.1 1 with
      | some [pidVal] =>
        let w := waitpid pidVal
        let errno1 := if w.failed then w.errno else pid.2
        if w.failed = true ∧ errno1 ≠ EINTR then
          some { ok := false, state := { st with errno := errno1 },
                 waited := waited ++ [pidVal] }
        else
          match vector_find st.heap (some st.fgPids) pid.1 with
          | none => none
          | some (none, _) =>
            some { ok := false, state := { st with errno := ESRCH },
                   waited := waited ++ [pidVal] }
          | some (some fgPidIdx, errno2) =>
            let pushed : Option VecResult :=
              if w.exited then
                some { ok := true, errno := errno2, vec := some st.suspendedPids,
                       heap := st.heap }
              else vector_pushBack menv st.heap (some st.suspendedPids) pid.1
            match pushed with
            | none => none
            | some ps =>
              let suspended := match ps.vec with
                | some v => v
                | none => st.suspendedPids
              match vector_erase menv ps.heap (some st.fgPids) fgPidIdx with
              | none => none
              | some er =>
                let fg := match er.vec with
                  | some v => v
                  | none => st.fgPids
                let st1 : JobState :=
                  { fgPids := fg, suspendedPids := suspended, heap := er.heap,
                    errno := er.errno }
                if er.ok ≠ true then
                  some { ok := false, state := st1, waited := waited ++ [pidVal] }
                else
                  waitForForegroundPids_loop menv waitpid spawned fuel (childIdx + 1) st1
                    (waited ++ [pidVal])
      | _ => none

/-- The call `waitForForegroundPids`. -/
def waitForForegroundPids (menv : MemEnv) (waitpid : Val → WaitpidOutcome) (st : JobState) :
    Option ForegroundResult :=
  match vector_copyConstruct menv st.heap (some st.fgPids) with
  | none => none
  | some c =>
    if c.opt.valid ≠ true then
      some { ok := false, state := { st with heap := c.heap, errno := c.errno },
             waited := [] }
    else
      waitForForegroundPids_loop menv waitpid c.opt.data st.fgPids.length 0
        { st with heap := c.heap, errno := c.errno } []

/-- A `waitpid` that succeeds for every PID with a normal exit. -/
def waitpidExited : Val → WaitpidOutcome := fun _ => { failed := false, errno := 0, exited := true }

/-- A state used in the examples: the foreground PIDs `10` and `20`, no suspended
PID. -/
def twoForeground : JobState :=
  { fgPids := { data := Ptr.cell 0 0, length := 2, capacity := 2, dataSize := 4,
                elementDeleter := 0 },
    suspendedPids := { data := Ptr.null, length := 0, capacity := 0, dataSize := 4,
                       elementDeleter := 0 },
    heap := [[10, 20]], errno := 0 }

/-! ### a1.c: the job list of the scheduler

The `LinkedList` of a1.c holds `JobRequest`s in nodes linked by `next` and ended
by `NULL`; it is seen through the jobs of its nodes, in order. `long` has 64 bits
(the program is built with gcc on Linux), so the difference of two `unsigned`
arrival times is exact. -/

/-- The `JobRequest` of a1.c; `user` stands for the string. -/
structure JobRequest where
  remainingDuration : Nat
  user : Nat
  process : Nat
  arrival : Nat
  duration : Nat
  deriving DecidableEq, Repr

/-- The jobs of the nodes reached from `head`. -/
abbrev LinkedList := List JobRequest

/-- The call `linkedNode_compareArrival`; `none` is the `NULL` node. -/
def linkedNode_compareArrival (first second : Option JobRequest) : Int :=
  match first, second with
  | none, _ => 0
  | _, none => 0
  | some a, some b => (a.arrival : Int) - (b.arrival : Int)

/-- How `linkedList_pushOrdered` ends: it returns, or `handleExitError` ends the
program after a failed `malloc`. -/
inductive PushOutcome
  | returned (ok : Bool) (list : Option LinkedList)
  | exited
  deriving DecidableEq, Repr

/-- The `while` of `linkedList_pushOrdered` (lines 357 to 363): `current` is
`currentNode`, `rest` the nodes after it; the new node goes in after the last node
whose successor arrives before it. The result is the list from `current` on. -/
def linkedList_pushOrdered_walk (job : JobRequest) : JobRequest → List JobRequest →
    List JobRequest
  | current, [] => [current, job]
  | current, nxt :: more =>
    if linkedNode_compareArrival (some nxt) (some job) < 0 then
      current :: linkedList_pushOrdered_walk job nxt more
    else current :: job :: nxt :: more

def linkedList_pushOrdered (alloc : Bool) (list : Option LinkedList)
    (job : Option JobRequest) : PushOutcome :=
  match list with
  | none => PushOutcome.returned false none
  | some l =>
    match job with
    | none => PushOutcome.returned false (some l)
    | some j =>
      if alloc ≠ true then PushOutcome.exited
      else
        match l with
        | [] => PushOutcome.returned true (some [j])
        | head :: rest =>
          if linkedNode_compareArrival (some j) (some head) ≤ 0 then
            PushOutcome.returned true (some (j :: head :: rest))
          else PushOutcome.returned true (some (linkedList_pushOrdered_walk j head rest))

/-- The jobs are in ascending order of arrival. -/
def ascendingArrival (l : LinkedList) : Prop :=
  l.Pairwise fun a b => a.arrival ≤ b.arrival

/-- The `while` of `shortestJob` (lines 561 to 568): `job` is the job of `node`,
`rest` the nodes after it. -/
def shortestJob_loop (currentTime : Nat) : JobRequest → JobRequest → List JobRequest →
    JobRequest
  | _, shortest, [] => shortest
  | job, shortest, nextJob :: more =>
    if nextJob.arrival ≤ currentTime then
      shortestJob_loop currentTime nextJob
        (if nextJob.duration < job.duration then nextJob else shortest) more
    else shortest

/-- The call `shortestJob`: `some none` is the `NULL` result; the outer `none` is
the read of `jobRequests->head` through `NULL` (the argument check is empty). -/
def shortestJob (jobRequests : Option LinkedList) (currentTime : Nat) :
    Option (Option JobRequest) :=
  match jobRequests with
  | none => none
  | some [] => some none
  | some (head :: rest) => some (some (shortestJob_loop currentTime head head rest))

/-- Three jobs that arrive at time `0`, of durations `1`, `5` and `3`. -/
def threeJobs : LinkedList :=
  [ { remainingDuration := 1, user := 1, process := 65, arrival := 0, duration := 1 },
    { remainingDuration := 5, user := 1, process := 66, arrival := 0, duration := 5 },
    { remainingDuration := 3, user := 1, process := 67, arrival := 0, duration := 3 } ]

/-! ### fat32.c: short names and the type of the volume -/

/-- Value of `DIR_NAME_LENGTH` (fat32_header.h). -/
def DIR_NAME_LENGTH : Nat := 11

/-- The `for` of `dirName` (lines 334 to 360) from index `i` on, with `left`
iterations to go: `state` is `0` for `readingMain`, `1` for `hitSpaces`, `2` for
`foundExtension`; `clean` holds the characters written to `cleanName` so far.
A character of `rawName` beyond its end reads as a space. -/
def dirName_loop (rawName : List Char) : Nat → Nat → Nat → List Char → List Char
  | 0, _, _, clean => clean
  | left + 1, i, state, clean =>
    let state1 := if state = 0 ∧ i = 7 then 2 else state
    let c := rawName.getD i ' '
    if state1 = 0 then
      if c = ' ' then dirName_loop rawName left (i + 1) 1 clean
      else dirName_loop rawName left (i + 1) 0 (clean ++ [c])
    else if state1 = 1 then
      if c ≠ ' ' then dirName_loop rawName left (i + 1) 2 (clean ++ ['.', c])
      else dirName_loop rawName left (i + 1) 1 clean
    else if state1 = 2 then
      if c ≠ ' ' then dirName_loop rawName left (i + 1) 2 (clean ++ [c])
      else clean
    else dirName_loop rawName left (i + 1) state1 clean

/-- The call `dirName`: the characters of `cleanName` before its terminating NUL. -/
def dirName (rawName : List Char) : List Char :=
  dirName_loop rawName DIR_NAME_LENGTH 0 0 []

/-- The clean form of a short name as the claim states it: the base, followed by
`.` and the extension when there is one. -/
def cleanForm (base ext : List Char) : List Char :=
  if ext = [] then base else base ++ '.' :: ext

/-- The raw 11-byte name of a base and an extension, each padded with spaces. -/
def rawForm (base ext : List Char) : List Char :=
  base ++ List.replicate (8 - base.length) ' ' ++ ext ++ List.replicate (3 - ext.length) ' '

/-- The fields of `fat32_bootSector` (boot_sector.h) read by `isFat32Volume`, each
within its width. -/
structure BootSector where
  BPB_BytesPerSec : Nat
  BPB_SecPerClus : Nat
  BPB_RsvdSecCnt : Nat
  BPB_NumFATs : Nat
  BPB_RootEntCnt : Nat
  BPB_TotSec16 : Nat
  BPB_FATSz16 : Nat
  BPB_TotSec32 : Nat
  BPB_FATSz32 : Nat
  BS_BootSig : Nat
  deriving DecidableEq, Repr

/-- Every field fits its type: `uint8_t`, `uint16_t` or `uint32_t`. -/
def BootSector.inRange (bs : BootSector) : Bool :=
  decide (bs.BPB_BytesPerSec < 2 ^ 16) && decide (bs.BPB_SecPerClus < 2 ^ 8) &&
  decide (bs.BPB_RsvdSecCnt < 2 ^ 16) && decide (bs.BPB_NumFATs < 2 ^ 8) &&
  decide (bs.BPB_RootEntCnt < 2 ^ 16) && decide (bs.BPB_TotSec16 < 2 ^ 16) &&
  decide (bs.BPB_FATSz16 < 2 ^ 16) && decide (bs.BPB_TotSec32 < 2 ^ 32) &&
  decide (bs.BPB_FATSz32 < 2 ^ 32) && decide (bs.BS_BootSig < 2 ^ 8)

/-- The call `isFat32Volume` on the boot sector of the header: its value and
`errno`; `none` where it divides by `0`. `fatSize` and `totSecs` are `uint16_t`
(lines 232 to 235); the data sectors are computed in `uint32_t`. -/
def isFat32Volume (header : Option BootSector) : Option (Bool × Nat) :=
  match header with
  | none => some (false, EPERM)
  | some bs =>
    if bs.BS_BootSig ≠ 0x29 then some (false, 0)
    else if bs.BPB_BytesPerSec = 0 then none
    else
      let rootDirSectors :=
        ((bs.BPB_RootEntCnt * 32 + (bs.BPB_BytesPerSec - 1)) / bs.BPB_BytesPerSec) % 2 ^ 32
      if rootDirSectors ≠ 0 then some (false, 0)
      else
        let fatSize := (if bs.BPB_FATSz16 ≠ 0 then bs.BPB_FATSz16 else bs.BPB_FATSz32) % 2 ^ 16
        let totSecs :=
          (if bs.BPB_TotSec16 ≠ 0 then bs.BPB_TotSec16 else bs.BPB_TotSec32) % 2 ^ 16
        let used := (bs.BPB_RsvdSecCnt + bs.BPB_NumFATs * fatSize + rootDirSectors) % 2 ^ 32
        let numDataSecs := (totSecs + 2 ^ 32 - used) % 2 ^ 32
        if bs.BPB_SecPerClus = 0 then none
        else
          let numClusters := numDataSecs / bs.BPB_SecPerClus
          if numClusters < 4085 then some (false, 0)
          else if numClusters < 65525 then some (false, 0)
          else some (true, 0)

/-- The count-of-clusters test as the claim states it, on the full 32-bit
`BPB_FATSz32` and `BPB_TotSec32`. -/
def countOfClustersTest (bs : BootSector) : Bool :=
  let rootDirSectors := (bs.BPB_RootEntCnt * 32 + (bs.BPB_BytesPerSec - 1)) / bs.BPB_BytesPerSec
  let fatSz := if bs.BPB_FATSz16 ≠ 0 then bs.BPB_FATSz16 else bs.BPB_FATSz32
  let totSec := if bs.BPB_TotSec16 ≠ 0 then bs.BPB_TotSec16 else bs.BPB_TotSec32
  decide (rootDirSectors = 0) &&
  decide ((totSec - (bs.BPB_RsvdSecCnt + bs.BPB_NumFATs * fatSz + rootDirSectors)) /
    bs.BPB_SecPerClus ≥ 65525)

/-- The boot sector of a FAT32 volume of 71232 sectors of 512 bytes with one
sector per cluster: 32 reserved sectors, two FATs of 600 sectors, 70000 clusters. -/
def smallFat32 : BootSector :=
  { BPB_BytesPerSec := 512, BPB_SecPerClus := 1, BPB_RsvdSecCnt := 32, BPB_NumFATs := 2,
    BPB_RootEntCnt := 0, BPB_TotSec16 := 0, BPB_FATSz16 := 0, BPB_TotSec32 := 71232,
    BPB_FATSz32 := 600, BS_BootSig := 0x29 }

/-- Outcomes of `tp_enqueueImmediate` in which `pthread_cond_signal` fails with
`EINVAL` and every other call succeeds. -/
def signalFails : EnqueueEnv :=
  { lockRc := 0, spawn := SpawnEnv.ok 1, alloc := true, signalRc := EINVAL, unlockRc := 0 }

/-- Outcomes of the task functions in which `pthread_cond_broadcast` fails with
`EINVAL` and every other call succeeds. -/
def broadcastFails : TaskEnv := { TaskEnv.ok with broadcastRc := EINVAL }

/-! ### list.c with its pointers

`list_removeNode` works on the links of the nodes, so here the `List` of list.h is
kept with its `head` and `tail` pointers and the nodes with `next` and `prev`
(`0` is `NULL`). -/

/-- The `ListNode` of list.h. -/
structure ListNode where
  data : Val
  next : Addr
  prev : Addr
  deriving DecidableEq, Repr

/-- The `List` of list.h (without `elementDeleter`). -/
structure RawList where
  head : Addr
  tail : Addr
  length : Nat
  dataSize : Nat
  deriving DecidableEq, Repr

/-- The nodes, by address. -/
abbrev NodeHeap := Addr → ListNode

/-- The assignment `a->next = v`. -/
def NodeHeap.setNext (h : NodeHeap) (a v : Addr) : NodeHeap :=
  fun x => if x = a then { h a with next := v } else h x

/-- The assignment `a->prev = v`. -/
def NodeHeap.setPrev (h : NodeHeap) (a v : Addr) : NodeHeap :=
  fun x => if x = a then { h a with prev := v } else h x

/-- What a list function on the links leaves. -/
structure RawListResult where
  ok : Bool
  errno : Nat
  list : Option RawList
  heap : NodeHeap

/-- The call `list_removeNode` (lines 579 to 626); `none` where a link is read
through `NULL`. -/
def Raw.list_removeNode (h : NodeHeap) (list : Option RawList) (node : Addr) :
    Option RawListResult :=
  match list with
  | none => some { ok := false, errno := EPERM, list := none, heap := h }
  | some l =>
    if node = 0 then some { ok := false, errno := EOVERFLOW, list := some l, heap := h }
    else if l.head = 0 then some { ok := false, errno := EPERM, list := some l, heap := h }
    else
      let unlinked : Option (RawList × NodeHeap) :=
        if node = l.head then
          let head1 := (h node).next
          some ({ l with head := head1 }, if head1 ≠ 0 then h.setPrev head1 0 else h)
        else if node = l.tail then
          let tail1 := (h node).prev
          some ({ l with tail := tail1 }, if tail1 ≠ 0 then h.setNext tail1 0 else h)
        else if (h node).prev = 0 ∨ (h node).next = 0 then none
        else
          some (l, (h.setNext (h node).prev (h node).next).setPrev (h node).next
            (h node).prev)
      match unlinked with
      | none => none
      | some (l1, h1) =>
        some { ok := true, errno := 0,
               list := some { l1 with length := (l1.length + SIZE_MOD - 1) % SIZE_MOD },
               heap := (h1.setNext node 0).setPrev node 0 }

/-- The call `list_pushNodeBack` (lines 229 to 258) on the links. -/
def Raw.list_pushNodeBack (h : NodeHeap) (list : Option RawList) (node : Addr) :
    RawListResult :=
  match list with
  | none => { ok := false, errno := EPERM, list := none, heap := h }
  | some l =>
    if node = 0 then { ok := false, errno := EPERM, list := some l, heap := h }
    else
      let h1 := if l.tail ≠ 0 then h.setNext l.tail node else h
      let head1 := if l.tail ≠ 0 then l.head else node
      { ok := true, errno := 0,
        list := some { l with head := head1, tail := node,
                              length := (l.length + 1) % SIZE_MOD },
        heap := h1.setPrev node l.tail }

/-- The nodes reached from `a` by `next`, at most `fuel` of them. -/
def Raw.reach (h : NodeHeap) : Nat → Addr → List Addr
  | 0, _ => []
  | fuel + 1, a => if a = 0 then [] else a :: Raw.reach h fuel (h a).next

/-- The list is well formed: `head`, `tail` and `length` are `NULL`, `NULL` and `0`
together, `length` counts the nodes reached from `head`, and `tail` is the last of
them. -/
def Raw.wellFormed (h : NodeHeap) (l : RawList) : Bool :=
  decide (l.head = 0 ↔ l.tail = 0) && decide (l.head = 0 ↔ l.length = 0) &&
  decide ((Raw.reach h (l.length + 1) l.head).length = l.length) &&
  decide ((Raw.reach h (l.length + 1) l.head).getLast? =
    if l.tail = 0 then none else some l.tail)

/-- Nodes used in the examples: a node at address `8` and a node at address `16`,
both with `NULL` links. -/
def twoNodes : NodeHeap := fun a =>
  if a = 8 then { data := 5, next := 0, prev := 0 }
  else { data := 6, next := 0, prev := 0 }

/-- The list whose only node is the node at address `8`. -/
def oneNodeList : RawList := { head := 8, tail := 8, length := 1, dataSize := 8 }

/-! ### Idle accounting with workers that have left their loop -/

/-- The worker has left its loop. -/
def WorkerState.isStopped : WorkerState → Bool
  | WorkerState.stopped _ => true
  | _ => false

/-- The worker is not counted idle: it is inside an iteration or has left its loop. -/
def WorkerState.isOut (w : WorkerState) : Bool := w.isBusy || w.isStopped

/-- Number of workers that have left their loop. -/
def PoolSys.stoppedWorkers (s : PoolSys) : Nat := s.workers.countP WorkerState.isStopped

/-- The accounting of a state that can still take `budget` moves, for tasks of any
pointer value: the idle count and the workers that are busy or have left their
loop add up to the workers, `threads` holds one entry per worker, the `length`
fields count the nodes, the counters stay below `2 ^ 32`, the pool is running,
and a worker that has left its loop left it with `EPERM`. -/
def PoolSys.balanced (s : PoolSys) (budget : Nat) : Prop :=
  s.tp.numIdleThreads + s.workers.countP WorkerState.isOut = s.workers.length ∧
  s.tp.threads.elements.nodes.length = s.workers.length ∧
  s.tp.threads.elements.length = s.workers.length ∧
  s.workers.length + budget < UINT_MOD ∧
  s.tp.waitingTasks.elements.length = s.tp.waitingTasks.elements.nodes.length ∧
  s.tp.waitingTasks.elements.nodes.length + budget < UINT_MOD ∧
  s.tp.running = true ∧
  (∀ e, WorkerState.stopped e ∈ s.workers → e = EPERM)

/-- The schedule on which a worker takes a `NULL` task and ends its iteration. -/
def nullSchedule : List Action := [Action.submit 0, Action.work 0, Action.work 0]

/-! ## Auxiliary lemmas on task.c -/

theorem task_getResult_loop_completed (env : TaskEnv) (t : Task) (trace : List Ev)
    (wakes : List Wake) (h : t.completed = true) :
    task_getResult_loop env t trace wakes = task_getResult_exit env t trace := by
  cases wakes <;> simp [task_getResult_loop, h]

theorem task_getResult_loop_spurious (env : TaskEnv) (wakes : List Wake) :
    ∀ (t : Task) (trace : List Ev), t.completed = false →
      (∀ w ∈ wakes, w.rc = 0 ∧ w.completed = false) →
      task_getResult_loop env t trace wakes =
        WaitOutcome.blocked t
          (trace ++ List.replicate wakes.length (Ev.wait Cond.completedCond Mutex.completedMutex)) := by
  induction wakes with
  | nil => intro t trace h _; simp [task_getResult_loop, h]
  | cons w rest ih =>
    intro t trace h hw
    have hw0 := hw w (List.mem_cons_self _ _)
    have hrest : ∀ v ∈ rest, v.rc = 0 ∧ v.completed = false :=
      fun v hv => hw v (List.mem_cons_of_mem _ hv)
    have ht : ({ t with completed := w.completed } : Task) = t := by
      cases t; simp_all
    simp only [task_getResult_loop, h, hw0.1, ht]
    simp only [Bool.false_eq_true, if_false, ne_eq, not_true_eq_false]
    rw [ih t _ h hrest]
    simp [List.replicate_succ]

theorem heldAfter_append_unlock (m : Mutex) (xs : List Ev) :
    ∀ held, heldAfter m held (xs ++ [Ev.unlock m]) = false := by
  induction xs with
  | nil => intro held; simp [heldAfter, Ev.acquires]
  | cons e rest ih =>
    intro held
    simp only [List.cons_append, heldAfter]
    split
    · exact ih _
    · split
      · exact ih _
      · exact ih _

theorem task_getResult_loop_returned (env : TaskEnv) (wakes : List Wake) :
    ∀ (t : Task) (trace : List Ev) (t1 : Option Task) (tr : List Ev),
      task_getResult_loop env t trace wakes = WaitOutcome.returned 0 t1 tr →
      ∃ t2 k, t1 = some t2 ∧ t2.completed = true ∧
        tr = trace ++
          List.replicate k (Ev.wait Cond.completedCond Mutex.completedMutex) ++
          [Ev.unlock Mutex.completedMutex] := by
  have hexit : ∀ (t : Task) (trace : List Ev) (t1 : Option Task) (tr : List Ev),
      t.completed = true →
      task_getResult_exit env t trace = WaitOutcome.returned 0 t1 tr →
      ∃ t2 k, t1 = some t2 ∧ t2.completed = true ∧
        tr = trace ++
          List.replicate k (Ev.wait Cond.completedCond Mutex.completedMutex) ++
          [Ev.unlock Mutex.completedMutex] := by
    intro t trace t1 tr hc h
    unfold task_getResult_exit at h
    by_cases hu : env.unlockRc = 0
    · simp only [hu, ne_eq, not_true_eq_false, if_false] at h
      injection h with _ h2 h3
      exact ⟨t, 0, h2.symm, hc, by simp [← h3]⟩
    · simp only [ne_eq, hu, not_false_eq_true, if_true] at h
      injection h with h1 _ _
      exact absurd h1 hu
  induction wakes with
  | nil =>
    intro t trace t1 tr h
    by_cases hc : t.completed = true
    · rw [task_getResult_loop_completed env t trace [] hc] at h
      exact hexit t trace t1 tr hc h
    · simp [task_getResult_loop, hc] at h
  | cons w rest ih =>
    intro t trace t1 tr h
    by_cases hc : t.completed = true
    · rw [task_getResult_loop_completed env t trace _ hc] at h
      exact hexit t trace t1 tr hc h
    · by_cases hw : w.rc = 0
      · simp only [task_getResult_loop, hc, hw, ne_eq, not_true_eq_false, if_false] at h
        obtain ⟨t2, k, h1, h2, h3⟩ := ih _ _ t1 tr h
        refine ⟨t2, k + 1, h1, h2, ?_⟩
        rw [h3]
        simp [List.replicate_succ]
      · simp only [task_getResult_loop, hc, ne_eq, hw, not_false_eq_true, if_true,
          if_false] at h
        injection h with h1 _ _
        exact absurd h1 hw

theorem task_getResult_loop_wakes (env : TaskEnv) (hu : env.unlockRc = 0)
    (spurious : List Wake) (rest : List Wake) :
    ∀ (t : Task) (trace : List Ev), t.completed = false →
      (∀ w ∈ spurious, w.rc = 0 ∧ w.completed = false) →
      task_getResult_loop env t trace (spurious ++ { rc := 0, completed := true } :: rest) =
        WaitOutcome.returned 0 (some { t with completed := true })
          (trace ++
            List.replicate (spurious.length + 1)
              (Ev.wait Cond.completedCond Mutex.completedMutex) ++
            [Ev.unlock Mutex.completedMutex]) := by
  induction spurious with
  | nil =>
    intro t trace hc _
    simp only [List.nil_append, task_getResult_loop, hc]
    simp only [Bool.false_eq_true, if_false, ne_eq, not_true_eq_false]
    rw [task_getResult_loop_completed env _ _ rest rfl]
    simp [task_getResult_exit, hu]
  | cons w more ih =>
    intro t trace hc hw
    have hw0 := hw w (List.mem_cons_self _ _)
    have hmore : ∀ v ∈ more, v.rc = 0 ∧ v.completed = false :=
      fun v hv => hw v (List.mem_cons_of_mem _ hv)
    have ht : ({ t with completed := w.completed } : Task) = t := by
      cases t; simp_all
    simp only [List.cons_append, task_getResult_loop, hc, hw0.1, ht]
    simp only [Bool.false_eq_true, if_false, ne_eq, not_true_eq_false]
    exact (ih t _ hc hmore).trans (by simp [List.replicate_succ])

theorem TaskOp.apply_completed (op : TaskOp) (t t1 : Task) (mem mem1 : Mem)
    (hc : t.completed = true) (h : op.apply (t, mem) = some (t1, mem1)) :
    t1.completed = true := by
  cases op with
  | execute =>
    simp only [TaskOp.apply, task_execute] at h
    cases hf : t.foo with
    | none => simp [hf] at h
    | some f =>
      simp only [hf, Option.some.injEq, Prod.mk.injEq] at h
      rw [← h.1]; exact hc
  | markCompleted env =>
    simp only [TaskOp.apply, task_markCompleted, hc, ne_eq, not_true_eq_false, if_false,
      Option.some.injEq, Prod.mk.injEq] at h
    rw [← h.1]; exact hc
  | getResult env wakes =>
    simp only [TaskOp.apply, task_getResult] at h
    by_cases hl : env.lockRc = 0
    · simp only [hl, ne_eq, not_true_eq_false, if_false,
        task_getResult_loop_completed env t _ wakes hc, task_getResult_exit] at h
      by_cases hu : env.unlockRc = 0
      · simp only [hu, ne_eq, not_true_eq_false, if_false, Option.some.injEq,
          Prod.mk.injEq] at h
        rw [← h.1]; exact hc
      · simp only [ne_eq, hu, not_false_eq_true, if_true, Option.some.injEq,
          Prod.mk.injEq] at h
        rw [← h.1]; exact hc
    · simp only [ne_eq, hl, not_false_eq_true, if_true, Option.some.injEq,
        Prod.mk.injEq] at h
      rw [← h.1]; exact hc
  | destroy env =>
    simp only [TaskOp.apply, task_destroy] at h
    by_cases hl : env.lockRc = 0 <;> by_cases hb : env.broadcastRc = 0 <;>
      by_cases hu : env.unlockRc = 0 <;> by_cases hd : env.condDestroyRc = 0 <;>
      by_cases hm : env.mutexDestroyRc = 0 <;>
      simp only [hl, hb, hu, hd, hm, ne_eq, not_true_eq_false, not_false_eq_true, if_true,
        if_false, Option.some.injEq, Prod.mk.injEq] at h <;>
      first | (rw [← h.1]; exact hc) | rw [← h.1]

/-! ## Auxiliary lemmas on threadpool.c -/

theorem tp_spawnThread_ok (t : ThreadId) (p : ThreadPool) :
    tp_spawnThread (SpawnEnv.ok t) (some p) =
      { ok := true, errno := 0,
        tp := some { p with
          threads := { elements := { p.threads.elements with
            nodes := p.threads.elements.nodes ++ [t],
            length := (p.threads.elements.length + 1) % SIZE_MOD } },
          numIdleThreads := (p.numIdleThreads + 1) % UINT_MOD },
        trace := [Ev.create t, Ev.write Field.threads, Ev.write Field.numIdleThreads] } := by
  simp [tp_spawnThread, SpawnEnv.ok, q_enqueue, list_pushBack, list_pushNodeBack]

theorem tp_init_loop_ok (ids : Nat → ThreadId) (k : Nat) :
    ∀ (threadNum errno : Nat) (p : ThreadPool) (trace : List Ev),
      p.threads.elements.length < SIZE_MOD →
      ∃ e p1 tr,
        tp_init_loop (fun i => SpawnEnv.ok (ids i)) k threadNum errno (some p) trace =
          Except.ok (e, some p1, tr) ∧
        (errno = 0 → e = 0) ∧
        p1.running = p.running ∧ p1.waitingTasks = p.waitingTasks ∧
        p1.threads.elements.nodes =
          p.threads.elements.nodes ++ (List.range k).map (fun i => ids (threadNum + i)) ∧
        p1.threads.elements.length = (p.threads.elements.length + k) % SIZE_MOD := by
  induction k with
  | zero =>
    intro threadNum errno p trace hlen
    exact ⟨errno, p, trace, rfl, id, rfl, rfl, by simp, by simp [Nat.mod_eq_of_lt hlen]⟩
  | succ k ih =>
    intro threadNum errno p trace hlen
    have hlt : (p.threads.elements.length + 1) % SIZE_MOD < SIZE_MOD :=
      Nat.mod_lt _ (by unfold SIZE_MOD; norm_num)
    obtain ⟨e, p1, tr, h1, h2, h3, h4, h5, h6⟩ :=
      ih (threadNum + 1) 0
        { p with
          threads := { elements := { p.threads.elements with
            nodes := p.threads.elements.nodes ++ [ids threadNum],
            length := (p.threads.elements.length + 1) % SIZE_MOD } },
          numIdleThreads := (p.numIdleThreads + 1) % UINT_MOD }
        (trace ++ [Ev.create (ids threadNum), Ev.write Field.threads,
                   Ev.write Field.numIdleThreads]) hlt
    refine ⟨e, p1, tr, ?_, fun _ => h2 rfl, h3, h4, ?_, ?_⟩
    · simp only [tp_init_loop, tp_spawnThread_ok, if_true]
      exact h1
    · rw [h5, List.range_succ_eq_map]
      simp [List.map_map, Function.comp_def, Nat.add_assoc, Nat.add_comm 1]
    · rw [h6]
      simp only [Nat.mod_add_mod, Nat.add_assoc, Nat.add_comm 1 k]

/-! ## Claims on task.c -/

/-- C5: `task_markCompleted` is idempotent. On a task whose `completed` flag is
already `true` it returns `0`, leaves every field as it is and performs no lock,
broadcast or unlock, whatever the pthread calls would have returned; hence a
second call after a first one that took the lock returns `0`, leaves the task of
the first call and records no operation (no second broadcast). -/
theorem task_markCompleted_idempotent (env env2 : TaskEnv) (t : Task) :
    (t.completed = true →
      task_markCompleted env (some t) = { rc := 0, task := some t, trace := [] }) ∧
    (env.lockRc = 0 →
      task_markCompleted env2 (task_markCompleted env (some t)).task =
        { rc := 0, task := (task_markCompleted env (some t)).task, trace := [] }) := by
  constructor
  · intro h
    simp [task_markCompleted, h]
  · intro h
    by_cases hc : t.completed = true
    · simp [task_markCompleted, hc]
    · by_cases hb : env.broadcastRc = 0 <;> by_cases hu : env.unlockRc = 0 <;>
        simp [task_markCompleted, hc, h, hb, hu]

theorem task_markCompleted_idempotent_witness :
    doneTask.completed = true ∧
    (task_markCompleted TaskEnv.ok (some doneTask)).rc = 0 ∧
    (task_markCompleted TaskEnv.ok (some doneTask)).trace = [] ∧
    (task_markCompleted TaskEnv.ok
      (task_markCompleted TaskEnv.ok (some sampleTask)).task).trace = [] := by
  have h1 := (task_markCompleted_idempotent TaskEnv.ok TaskEnv.ok doneTask).1 rfl
  have h2 := (task_markCompleted_idempotent TaskEnv.ok TaskEnv.ok sampleTask).2 rfl
  exact ⟨rfl, by rw [h1], by rw [h1], by rw [h2]⟩

/-- C7: on a task with `completed = false`, a `task_markCompleted` whose lock,
broadcast and unlock succeed returns `0`, leaves the task with `completed = true`
and every other field unchanged, and performs exactly: lock of `completedMutex`,
the write of the flag, a broadcast (not a signal) of `completedCond`, unlock of
`completedMutex`, in that order. -/
theorem task_markCompleted_sets (env : TaskEnv) (t : Task) (hc : t.completed = false)
    (hl : env.lockRc = 0) (hb : env.broadcastRc = 0) (hu : env.unlockRc = 0) :
    task_markCompleted env (some t) =
      { rc := 0,
        task := some { foo := t.foo, fooArg := t.fooArg, fooReturn := t.fooReturn,
                       fooErrno := t.fooErrno, completed := true },
        trace := [Ev.lock Mutex.completedMutex, Ev.write Field.completed,
                  Ev.broadcast Cond.completedCond, Ev.unlock Mutex.completedMutex] } := by
  simp [task_markCompleted, hc, hl, hb, hu]

theorem task_markCompleted_sets_witness :
    sampleTask.completed = false ∧
    (task_markCompleted TaskEnv.ok (some sampleTask)).rc = 0 ∧
    (task_markCompleted TaskEnv.ok (some sampleTask)).trace =
      [Ev.lock Mutex.completedMutex, Ev.write Field.completed,
       Ev.broadcast Cond.completedCond, Ev.unlock Mutex.completedMutex] := by
  have h := task_markCompleted_sets TaskEnv.ok sampleTask rfl rfl rfl rfl
  exact ⟨rfl, by rw [h], by rw [h]⟩

/-- C10: for a task that is not `NULL` and has a callable `f`, `task_execute`
returns `0` whatever `errno` the callable leaves, calls the callable exactly once,
with `fooArg`, stores its return value in `*fooReturn` when `fooReturn` is not
`NULL` and writes no memory otherwise, records in `fooErrno` the `errno` the
callable leaves, and changes no other field of the task. -/
theorem task_execute_spec (t : Task) (mem : Mem) (f : Callable) (hf : t.foo = some f) :
    ∃ r t1, task_execute (some t) mem = some r ∧ r.rc = 0 ∧ r.task = some t1 ∧
      r.trace = [Ev.call t.fooArg] ∧
      t1.fooErrno = (f t.fooArg 0).2 ∧
      (∀ a, t.fooReturn = some a →
        r.mem a = (f t.fooArg 0).1 ∧ ∀ b, b ≠ a → r.mem b = mem b) ∧
      (t.fooReturn = none → r.mem = mem) ∧
      t1.foo = t.foo ∧ t1.fooArg = t.fooArg ∧ t1.fooReturn = t.fooReturn ∧
      t1.completed = t.completed := by
  have h : task_execute (some t) mem =
      some { rc := 0, task := some { t with fooErrno := (f t.fooArg 0).2 },
             mem := (match t.fooReturn with
               | some a => mem.store a (f t.fooArg 0).1
               | none => mem),
             trace := [Ev.call t.fooArg] } := by
    simp only [task_execute, hf]
  refine ⟨_, _, h, rfl, rfl, rfl, rfl, ?_, ?_, rfl, rfl, rfl, rfl⟩
  · intro a ha
    simp only [ha]
    constructor
    · simp [Mem.store]
    · intro b hb
      simp [Mem.store, hb]
  · intro hn
    simp only [hn]

theorem task_execute_spec_witness :
    sampleTask.foo = some noop ∧
    ∃ r t1, task_execute (some sampleTask) zeroMem = some r ∧ r.rc = 0 ∧ r.task = some t1 ∧
      r.trace = [Ev.call 7] ∧ t1.fooErrno = 0 ∧ r.mem 3 = 7 := by
  refine ⟨rfl, ?_⟩
  obtain ⟨r, t1, h1, h2, h3, h4, h5, h6, _⟩ :=
    task_execute_spec sampleTask zeroMem noop rfl
  exact ⟨r, t1, h1, h2, h3, h4, h5, (h6 3 rfl).1⟩

/-- C8: `task_getResult` on a task that is not `NULL`, the returns of
`pthread_cond_wait` being given by the environment. (1) It returns `0` only with
`completed = true`, the last operation being the unlock of `completedMutex`,
which is not held at the return. (2) When `completed` is `true` on entry it does
not wait: it locks, unlocks and returns. (3) While every wakeup is spurious it
keeps waiting, one wait per wakeup. (4) After spurious wakeups, the first wakeup
that finds `completed = true` ends the wait and the call returns `0`. -/
theorem task_getResult_spec (env : TaskEnv) (wakes : List Wake) (t : Task) :
    (∀ t1 tr, task_getResult env wakes (some t) = WaitOutcome.returned 0 t1 tr →
      ∃ t2, t1 = some t2 ∧ t2.completed = true ∧
        tr.getLast? = some (Ev.unlock Mutex.completedMutex) ∧
        heldAfter Mutex.completedMutex false tr = false) ∧
    (t.completed = true → env.lockRc = 0 → env.unlockRc = 0 →
      task_getResult env wakes (some t) =
        WaitOutcome.returned 0 (some t)
          [Ev.lock Mutex.completedMutex, Ev.unlock Mutex.completedMutex]) ∧
    (t.completed = false → env.lockRc = 0 →
      (∀ w ∈ wakes, w.rc = 0 ∧ w.completed = false) →
      task_getResult env wakes (some t) =
        WaitOutcome.blocked t
          (Ev.lock Mutex.completedMutex ::
            List.replicate wakes.length (Ev.wait Cond.completedCond Mutex.completedMutex))) ∧
    (t.completed = false → env.lockRc = 0 → env.unlockRc = 0 →
      ∀ spurious rest, (∀ w ∈ spurious, w.rc = 0 ∧ w.completed = false) →
        wakes = spurious ++ { rc := 0, completed := true } :: rest →
        task_getResult env wakes (some t) =
          WaitOutcome.returned 0 (some { t with completed := true })
            (Ev.lock Mutex.completedMutex ::
              List.replicate (spurious.length + 1)
                (Ev.wait Cond.completedCond Mutex.completedMutex) ++
              [Ev.unlock Mutex.completedMutex])) := by
  refine ⟨?_, ?_, ?_, ?_⟩
  · intro t1 tr h
    by_cases hl : env.lockRc = 0
    · simp only [task_getResult, hl, ne_eq, not_true_eq_false, if_false] at h
      obtain ⟨t2, k, h1, h2, h3⟩ := task_getResult_loop_returned env wakes _ _ _ _ h
      refine ⟨t2, h1, h2, ?_, ?_⟩
      · rw [h3, List.getLast?_concat]
      · rw [h3]; exact heldAfter_append_unlock _ _ _
    · simp only [task_getResult, ne_eq, hl, not_false_eq_true, if_true] at h
      injection h with h1 _ _
      exact absurd h1 hl
  · intro hc hl hu
    simp only [task_getResult, hl, ne_eq, not_true_eq_false, if_false]
    rw [task_getResult_loop_completed env t _ wakes hc]
    simp [task_getResult_exit, hu]
  · intro hc hl hw
    simp only [task_getResult, hl, ne_eq, not_true_eq_false, if_false]
    rw [task_getResult_loop_spurious env wakes t _ hc hw]
    simp
  · intro hc hl hu spurious rest hs hw
    subst hw
    simp only [task_getResult, hl, ne_eq, not_true_eq_false, if_false]
    rw [task_getResult_loop_wakes env hu spurious rest t _ hc hs]
    simp

theorem task_getResult_spec_witness :
    sampleTask.completed = false ∧
    task_getResult TaskEnv.ok [Wake.spurious, Wake.spurious, { rc := 0, completed := true }]
        (some sampleTask) =
      WaitOutcome.returned 0 (some { sampleTask with completed := true })
        [Ev.lock Mutex.completedMutex,
         Ev.wait Cond.completedCond Mutex.completedMutex,
         Ev.wait Cond.completedCond Mutex.completedMutex,
         Ev.wait Cond.completedCond Mutex.completedMutex,
         Ev.unlock Mutex.completedMutex] ∧
    task_getResult TaskEnv.ok [Wake.spurious, Wake.spurious] (some sampleTask) =
      WaitOutcome.blocked sampleTask
        [Ev.lock Mutex.completedMutex,
         Ev.wait Cond.completedCond Mutex.completedMutex,
         Ev.wait Cond.completedCond Mutex.completedMutex] := by
  refine ⟨rfl, ?_, ?_⟩
  · exact (task_getResult_spec TaskEnv.ok _ sampleTask).2.2.2 rfl rfl rfl
      [Wake.spurious, Wake.spurious] [] (by simp [Wake.spurious]) rfl
  · exact (task_getResult_spec TaskEnv.ok [Wake.spurious, Wake.spurious] sampleTask).2.2.1
      rfl rfl (by simp [Wake.spurious])

/-- C9: `task_execute` never sets `completed`. For every task that is not `NULL`,
whenever the call has a result the flag after it equals the flag before it, and
the call has a result for every task that has a callable. The sentinel
`sleepGame` of `caterpillarRun`, initialised with `noop` and executed, is
therefore not completed: `task_getResult` on it stays blocked through any number
of spurious wakeups, and returns `0` without waiting once `task_markCompleted`
has been called. -/
theorem task_execute_keeps_completed (t garbage : Task) (mem : Mem) (wakes : List Wake)
    (hw : ∀ w ∈ wakes, w.rc = 0 ∧ w.completed = false) :
    (∀ r, task_execute (some t) mem = some r →
      ∃ t1, r.task = some t1 ∧ t1.completed = t.completed) ∧
    (∀ f, t.foo = some f → ∃ r, task_execute (some t) mem = some r ∧ r.rc = 0) ∧
    (∃ s, caterpillarRun_sleepGame garbage mem = some s ∧ s.completed = false ∧
      task_getResult TaskEnv.ok wakes (some s) =
        WaitOutcome.blocked s
          (Ev.lock Mutex.completedMutex ::
            List.replicate wakes.length (Ev.wait Cond.completedCond Mutex.completedMutex)) ∧
      task_getResult TaskEnv.ok wakes (task_markCompleted TaskEnv.ok (some s)).task =
        WaitOutcome.returned 0 (some { s with completed := true })
          [Ev.lock Mutex.completedMutex, Ev.unlock Mutex.completedMutex]) := by
  refine ⟨?_, ?_, ?_⟩
  · intro r h
    cases hf : t.foo with
    | none => simp [task_execute, hf] at h
    | some f =>
      simp only [task_execute, hf, Option.some.injEq] at h
      subst h
      exact ⟨_, rfl, rfl⟩
  · intro f hf
    exact ⟨_, by simp only [task_execute, hf]; rfl, rfl⟩
  · refine ⟨{ foo := some noop, fooArg := 0, fooReturn := none, fooErrno := 0,
              completed := false }, ?_, rfl, ?_, ?_⟩
    · simp [caterpillarRun_sleepGame, task_init, task_execute, TaskEnv.ok, noop]
    · simp only [task_getResult, TaskEnv.ok, ne_eq, not_true_eq_false, if_false]
      rw [task_getResult_loop_spurious _ wakes _ _ rfl hw]
      simp
    · simp only [task_markCompleted, TaskEnv.ok, task_getResult, ne_eq, not_true_eq_false,
        if_false, Bool.false_eq_true, not_false_eq_true, if_true]
      rw [task_getResult_loop_completed _ _ _ wakes rfl]
      simp [task_getResult_exit]

theorem task_execute_keeps_completed_witness :
    (∀ w ∈ [Wake.spurious, Wake.spurious], w.rc = 0 ∧ w.completed = false) ∧
    (∃ r, task_execute (some sampleTask) zeroMem = some r ∧ r.rc = 0) ∧
    (∃ s, caterpillarRun_sleepGame doneTask zeroMem = some s ∧ s.completed = false ∧
      task_getResult TaskEnv.ok [Wake.spurious, Wake.spurious] (some s) =
        WaitOutcome.blocked s
          [Ev.lock Mutex.completedMutex,
           Ev.wait Cond.completedCond Mutex.completedMutex,
           Ev.wait Cond.completedCond Mutex.completedMutex]) := by
  have hw : ∀ w ∈ [Wake.spurious, Wake.spurious], w.rc = 0 ∧ w.completed = false := by
    simp [Wake.spurious]
  obtain ⟨_, h2, ⟨s, h3, h4, h5, _⟩⟩ :=
    task_execute_keeps_completed sampleTask doneTask zeroMem
      [Wake.spurious, Wake.spurious] hw
  exact ⟨hw, h2 noop rfl, ⟨s, h3, h4, h5⟩⟩

/-- C6: completion monotonicity. From a task with `completed = true`, no sequence
of `task_execute`, `task_markCompleted`, `task_getResult` and `task_destroy`
calls, whatever the pthread calls return in each of them, leaves a task with
`completed = false`. -/
theorem completed_monotone (ops : List TaskOp) (t : Task) (mem : Mem)
    (hc : t.completed = true) : (runOps ops (t, mem)).1.completed = true := by
  induction ops generalizing t mem with
  | nil => exact hc
  | cons op rest ih =>
    simp only [runOps]
    cases h : op.apply (t, mem) with
    | none => exact hc
    | some s1 =>
      obtain ⟨t1, mem1⟩ := s1
      exact ih t1 mem1 (TaskOp.apply_completed op t t1 mem mem1 hc h)

theorem completed_monotone_witness :
    doneTask.completed = true ∧
    (runOps [TaskOp.execute, TaskOp.getResult TaskEnv.ok [Wake.spurious],
             TaskOp.markCompleted TaskEnv.ok, TaskOp.destroy TaskEnv.ok, TaskOp.execute]
       (doneTask, zeroMem)).1.completed = true :=
  ⟨rfl, completed_monotone _ doneTask zeroMem rfl⟩

/-! ## Claims on threadpool.c -/

/-- C4: for every `n` and whatever the pool variable held before, a `tp_init`
in which every pthread call and every allocation succeeds returns `0` and leaves
the pool with `running = true`, an empty `waitingTasks`, exactly `n` entries in
`threads` (the threads created, in order) and `numIdleThreads = n`. -/
theorem tp_init_spec (garbage : ThreadPool) (n : Nat) (ids : Nat → ThreadId) :
    ∃ r p, tp_init (InitEnv.ok ids) (some garbage) n = some r ∧ r.rc = 0 ∧
      r.tp = some p ∧ p.running = true ∧
      p.waitingTasks.elements.nodes = [] ∧ q_length p.waitingTasks = 0 ∧
      p.threads.elements.nodes = (List.range n).map ids ∧
      p.threads.elements.nodes.length = n ∧
      q_length p.threads = n % SIZE_MOD ∧
      p.numIdleThreads = n := by
  obtain ⟨e, p1, tr, h1, h2, h3, h4, h5, h6⟩ :=
    tp_init_loop_ok ids n 0 0
      { garbage with running := true, waitingTasks := q_constructEmpty WORD_SIZE,
                     threads := q_constructEmpty WORD_SIZE }
      [Ev.write Field.running, Ev.condInit Cond.taskAvailable,
       Ev.mutexInit Mutex.taskMutex, Ev.write Field.waitingTasks, Ev.write Field.threads]
      (by simp [q_constructEmpty, list_constructEmpty, SIZE_MOD])
  have he : e = 0 := h2 rfl
  subst he
  refine ⟨{ rc := 0, tp := some { p1 with numIdleThreads := n },
            trace := tr ++ [Ev.write Field.numIdleThreads] },
          { p1 with numIdleThreads := n }, ?_, rfl, rfl, ?_, ?_, ?_, ?_, ?_, ?_, rfl⟩
  · simp only [tp_init, InitEnv.ok, ne_eq, not_true_eq_false, if_false, List.cons_append,
      List.nil_append]
    rw [h1]
  · simpa using h3
  · simp [h4, q_constructEmpty, list_constructEmpty]
  · simp [h4, q_length, q_constructEmpty, list_constructEmpty]
  · simpa [q_constructEmpty, list_constructEmpty] using h5
  · simp [h5, q_constructEmpty, list_constructEmpty]
  · simpa [q_length, q_constructEmpty, list_constructEmpty] using h6

/-- C3: for every pool and task pointer, a `tp_enqueueImmediate` in which every
pthread call and every allocation succeeds returns `0`; when `numIdleThreads`
was `0` one thread is created and appended to `threads` and `numIdleThreads`
becomes `1`, otherwise `threads` and `numIdleThreads` are unchanged; the task is
appended at the back of `waitingTasks`; `running` is unchanged; `taskAvailable`
is signalled exactly once, while `taskMutex` is held, and the mutex is released
at the return. -/
theorem tp_enqueueImmediate_spec (p : ThreadPool) (task : TaskPtr) (thread : ThreadId) :
    ∃ p1 tr, tp_enqueueImmediate (EnqueueEnv.ok thread) (some p) task =
        { rc := 0, tp := some p1, trace := tr } ∧
      (p.numIdleThreads = 0 →
        p1.threads.elements.nodes = p.threads.elements.nodes ++ [thread] ∧
        q_length p1.threads = (q_length p.threads + 1) % SIZE_MOD ∧
        p1.numIdleThreads = 1 ∧
        tr = [Ev.lock Mutex.taskMutex, Ev.create thread, Ev.write Field.threads,
              Ev.write Field.numIdleThreads, Ev.write Field.waitingTasks,
              Ev.signal Cond.taskAvailable, Ev.unlock Mutex.taskMutex]) ∧
      (p.numIdleThreads ≠ 0 →
        p1.threads = p.threads ∧ p1.numIdleThreads = p.numIdleThreads ∧
        tr = [Ev.lock Mutex.taskMutex, Ev.write Field.waitingTasks,
              Ev.signal Cond.taskAvailable, Ev.unlock Mutex.taskMutex]) ∧
      p1.waitingTasks.elements.nodes = p.waitingTasks.elements.nodes ++ [task] ∧
      q_length p1.waitingTasks = (q_length p.waitingTasks + 1) % SIZE_MOD ∧
      p1.running = p.running ∧
      tr.count (Ev.signal Cond.taskAvailable) = 1 ∧
      underLock Mutex.taskMutex (fun e => decide (e = Ev.signal Cond.taskAvailable))
        false tr = true ∧
      heldAfter Mutex.taskMutex false tr = false := by
  by_cases h : p.numIdleThreads = 0
  · refine ⟨{ p with
        threads := { elements := { p.threads.elements with
          nodes := p.threads.elements.nodes ++ [thread],
          length := (p.threads.elements.length + 1) % SIZE_MOD } },
        numIdleThreads := (p.numIdleThreads + 1) % UINT_MOD,
        waitingTasks := { elements := { p.waitingTasks.elements with
          nodes := p.waitingTasks.elements.nodes ++ [task],
          length := (p.waitingTasks.elements.length + 1) % SIZE_MOD } } },
      [Ev.lock Mutex.taskMutex, Ev.create thread, Ev.write Field.threads,
       Ev.write Field.numIdleThreads, Ev.write Field.waitingTasks,
       Ev.signal Cond.taskAvailable, Ev.unlock Mutex.taskMutex], ?_, ?_⟩
    · simp [tp_enqueueImmediate, EnqueueEnv.ok, h, tp_spawnThread_ok, q_enqueue,
        list_pushBack, list_pushNodeBack]
    · simp [h, q_length, underLock, heldAfter, Ev.acquires, UINT_MOD]
  · refine ⟨{ p with
        waitingTasks := { elements := { p.waitingTasks.elements with
          nodes := p.waitingTasks.elements.nodes ++ [task],
          length := (p.waitingTasks.elements.length + 1) % SIZE_MOD } } },
      [Ev.lock Mutex.taskMutex, Ev.write Field.waitingTasks,
       Ev.signal Cond.taskAvailable, Ev.unlock Mutex.taskMutex], ?_, ?_⟩
    · simp [tp_enqueueImmediate, EnqueueEnv.ok, h, q_enqueue, list_pushBack,
        list_pushNodeBack]
    · simp [h, q_length, underLock, heldAfter, Ev.acquires]

theorem tp_enqueueImmediate_spec_witness :
    emptyPool.numIdleThreads = 0 ∧
    ∃ p1 tr, tp_enqueueImmediate (EnqueueEnv.ok 0) (some emptyPool) 5 =
        { rc := 0, tp := some p1, trace := tr } ∧
      p1.threads.elements.nodes = [0] ∧ p1.numIdleThreads = 1 ∧
      p1.waitingTasks.elements.nodes = [5] ∧
      tr.count (Ev.signal Cond.taskAvailable) = 1 := by
  refine ⟨rfl, ?_⟩
  obtain ⟨p1, tr, h1, h2, _, h4, _, _, h7, _⟩ := tp_enqueueImmediate_spec emptyPool 5 0
  exact ⟨p1, tr, h1, (h2 rfl).1, (h2 rfl).2.2.1, h4, h7⟩

theorem twoSubmitted_reached (garbage : ThreadPool) (heap : TaskPtr → Task) (mem : Mem) :
    sys_init garbage 1 heap mem = some (oneThread heap mem) ∧
    sys_step neverReturns (oneThread heap mem) (Action.submit 1) =
      some (oneSubmitted heap mem) ∧
    sys_step neverReturns (oneSubmitted heap mem) (Action.submit 2) =
      some (twoSubmitted heap mem) := by
  refine ⟨?_, ?_, ?_⟩
  · simp [sys_init, tp_init, InitEnv.ok, tp_init_loop, tp_spawnThread_ok, q_constructEmpty,
      list_constructEmpty, SIZE_MOD, oneThread]
  · simp [sys_step, sys_submit, tp_enqueueImmediate, EnqueueEnv.ok, q_enqueue, list_pushBack,
      list_pushNodeBack, q_constructEmpty, list_constructEmpty, SIZE_MOD, oneThread,
      oneSubmitted]
  · simp [sys_step, sys_submit, tp_enqueueImmediate, EnqueueEnv.ok, q_enqueue, list_pushBack,
      list_pushNodeBack, twoSubmitted, oneSubmitted, SIZE_MOD]

theorem uint_dec_one : (1 + UINT_MOD - 1) % UINT_MOD = 0 := by
  unfold UINT_MOD; norm_num

theorem size_dec_two : (2 + SIZE_MOD - 1) % SIZE_MOD = 1 := by
  unfold SIZE_MOD; norm_num

theorem one_mod_size : 1 % SIZE_MOD = 1 := by
  unfold SIZE_MOD; norm_num

theorem twoSubmitted_work (heap : TaskPtr → Task) (mem : Mem) (i : Nat) :
    sys_work neverReturns (twoSubmitted heap mem) i =
      if i = 0 then some (oneClaimed heap mem) else none := by
  cases i with
  | zero =>
    simp [sys_work, twoSubmitted, oneClaimed, workerFunction_lock, workerFunction_claim,
      WorkerEnv.ok,
      q_length, q_front, q_dequeue, list_elementAt, list_nodeAt, list_walk, list_popFront,
      uint_dec_one, size_dec_two, one_mod_size]
  | succ j => simp [sys_work, twoSubmitted]

theorem oneClaimed_work (heap : TaskPtr → Task) (mem : Mem) (i : Nat) :
    sys_work neverReturns (oneClaimed heap mem) i = none := by
  cases i with
  | zero => simp [sys_work, oneClaimed, neverReturns]
  | succ j => simp [sys_work, oneClaimed]

theorem twoSubmitted_run (heap : TaskPtr → Task) (mem : Mem) (schedule : List Nat) :
    ∀ s, s = twoSubmitted heap mem ∨ s = oneClaimed heap mem →
      sys_run neverReturns s (schedule.map Action.work) = twoSubmitted heap mem ∨
      sys_run neverReturns s (schedule.map Action.work) = oneClaimed heap mem := by
  induction schedule with
  | nil => intro s hs; simpa [sys_run] using hs
  | cons i rest ih =>
    intro s hs
    rcases hs with hs | hs
    · subst hs
      by_cases hi : i = 0
      · simp only [List.map_cons, sys_run, sys_step, twoSubmitted_work, hi, if_true]
        exact ih _ (Or.inr rfl)
      · simp only [List.map_cons, sys_run, sys_step, twoSubmitted_work, hi, if_false]
        exact ih _ (Or.inl rfl)
    · subst hs
      simp only [List.map_cons, sys_run, sys_step, oneClaimed_work]
      exact ih _ (Or.inr rfl)

/-- C1 (the code does not have the property). After a fault-free `tp_init` with
one thread and two fault-free submissions made before the worker takes a step,
the pool still has one thread and both tasks wait: the second submission found
`numIdleThreads = 1` and created no thread. The tasks waiting (2) then exceed
the workers that are not executing a task (1), and with callables that never
return, task `2` stays in `waitingTasks` under every schedule of worker steps,
the pool keeping its single worker. -/
theorem growth_blocks_second_task (garbage : ThreadPool) (heap : TaskPtr → Task)
    (mem : Mem) (schedule : List Nat) :
    sys_init garbage 1 heap mem = some (oneThread heap mem) ∧
    sys_step neverReturns (oneThread heap mem) (Action.submit 1) =
      some (oneSubmitted heap mem) ∧
    sys_step neverReturns (oneSubmitted heap mem) (Action.submit 2) =
      some (twoSubmitted heap mem) ∧
    (twoSubmitted heap mem).tp.threads.elements.nodes.length = 1 ∧
    (twoSubmitted heap mem).freeWorkers = 1 ∧
    q_length (twoSubmitted heap mem).tp.waitingTasks = 2 ∧
    (sys_run neverReturns (twoSubmitted heap mem)
      (schedule.map Action.work)).workers.length = 1 ∧
    2 ∈ (sys_run neverReturns (twoSubmitted heap mem)
      (schedule.map Action.work)).tp.waitingTasks.elements.nodes := by
  obtain ⟨h1, h2, h3⟩ := twoSubmitted_reached garbage heap mem
  refine ⟨h1, h2, h3, rfl, rfl, rfl, ?_, ?_⟩
  · rcases twoSubmitted_run heap mem schedule _ (Or.inl rfl) with h | h <;> rw [h] <;> rfl
  · rcases twoSubmitted_run heap mem schedule _ (Or.inl rfl) with h | h <;> rw [h] <;>
      simp [twoSubmitted, oneClaimed]

/-- C2 (the code does not have the property). The first test of `tp_destroy`
compares `tp` with itself, so that for every pool the function returns `true` at
once: `running` is not set to `false`, nothing is broadcast and no thread is
joined. After a fault-free `tp_init` with two threads, `tp_destroy` returns
`true` and leaves `running = true` and both threads in `threads`. Even the code
after that test, run on this pool with every call succeeding, joins thread `0`
only and leaves thread `1` in `threads`. -/
theorem tp_destroy_returns_at_once (env : DestroyEnv) (errno : Nat) (p : ThreadPool) :
    tp_destroy env errno (some p) =
      some { ok := true, errno := errno, tp := some p, trace := [] } ∧
    (∃ r p2, tp_init (InitEnv.ok id) (some garbagePool) 2 = some r ∧ r.rc = 0 ∧
      r.tp = some p2 ∧ p2.running = true ∧ p2.threads.elements.nodes = [0, 1] ∧
      tp_destroy env errno (some p2) =
        some { ok := true, errno := errno, tp := some p2, trace := [] } ∧
      ∃ d p3, tp_destroy_body DestroyEnv.ok p2 = some d ∧ d.ok = true ∧ d.tp = some p3 ∧
        p3.threads.elements.nodes = [1] ∧ d.trace.count (Ev.join 0) = 1 ∧
        d.trace.count (Ev.join 1) = 0) := by
  constructor
  · simp [tp_destroy]
  · refine ⟨_, _, rfl, rfl, rfl, rfl, rfl, by simp [tp_destroy], _, _, rfl, rfl, rfl, rfl,
      by decide, by decide⟩

/-! ## Further claims on task.c -/

/-- C11: for every task pointer that is not `NULL`, every callable, argument and
result pointer (`NULL` or not), a `task_init` whose two pthread initialisations
succeed returns `0` and leaves a task with `completed = false`, `fooErrno = 0`
and `foo`, `fooArg`, `fooReturn` equal to the given values, whatever the task
variable held before. -/
theorem task_init_spec (env : TaskEnv) (garbage : Task) (f : Callable) (fooArg : Val)
    (fooReturn : Option Addr) (hc : env.condInitRc = 0) (hm : env.mutexInitRc = 0) :
    task_init env (some garbage) (some f) fooArg fooReturn =
      { rc := 0,
        task := some { foo := some f, fooArg := fooArg, fooReturn := fooReturn,
                       fooErrno := 0, completed := false },
        trace := [Ev.write Field.completed, Ev.condInit Cond.completedCond,
                  Ev.mutexInit Mutex.completedMutex] } := by
  simp [task_init, hc, hm]

theorem task_init_spec_witness :
    TaskEnv.ok.condInitRc = 0 ∧ TaskEnv.ok.mutexInitRc = 0 ∧
    (task_init TaskEnv.ok (some doneTask) (some noop) 5 (some 3)).rc = 0 ∧
    (task_init TaskEnv.ok (some doneTask) (some noop) 5 none).trace =
      [Ev.write Field.completed, Ev.condInit Cond.completedCond,
       Ev.mutexInit Mutex.completedMutex] := by
  have h1 := task_init_spec TaskEnv.ok doneTask noop 5 (some 3) rfl rfl
  have h2 := task_init_spec TaskEnv.ok doneTask noop 5 none rfl rfl
  exact ⟨rfl, rfl, by rw [h1], by rw [h2]⟩

/-- C19, as the claim states it, fails: `task_init` called with `foo = NULL` on a
task pointer that is not `NULL` returns `EPERM`, not `0`, and leaves the task
variable as it was (here still marked completed). -/
theorem task_init_null_foo_fails :
    (task_init TaskEnv.ok (some doneTask) none 5 none).rc = EPERM ∧
    (task_init TaskEnv.ok (some doneTask) none 5 none).rc ≠ 0 ∧
    (∃ t, (task_init TaskEnv.ok (some doneTask) none 5 none).task = some t ∧
      t.completed = true) ∧
    (task_init TaskEnv.ok (some doneTask) none 5 none).trace = [] := by
  refine ⟨rfl, by decide, ⟨doneTask, rfl, rfl⟩, rfl⟩

/-- C19, amended: `task_init` requires a callable. Called with `foo = NULL` on a
task pointer that is not `NULL` it returns `EPERM`, whatever the pthread calls
would return, writes no field of the task and initialises neither the condition
variable nor the mutex. A task that is only a signal is initialised with a
callable that does nothing, such as `noop`: that call succeeds, leaves
`completed = false`, and a later fault-free `task_markCompleted` returns `0` and
leaves `completed = true`. -/
theorem task_init_requires_callable (env : TaskEnv) (garbage : Task) (fooArg : Val)
    (fooReturn : Option Addr) :
    task_init env (some garbage) none fooArg fooReturn =
      { rc := EPERM, task := some garbage, trace := [] } ∧
    (∃ t, (task_init TaskEnv.ok (some garbage) (some noop) fooArg fooReturn).rc = 0 ∧
      (task_init TaskEnv.ok (some garbage) (some noop) fooArg fooReturn).task = some t ∧
      t.completed = false ∧
      (task_markCompleted TaskEnv.ok (some t)).rc = 0 ∧
      ∃ t1, (task_markCompleted TaskEnv.ok (some t)).task = some t1 ∧
        t1.completed = true) := by
  constructor
  · simp [task_init]
  · exact ⟨{ foo := some noop, fooArg := fooArg, fooReturn := fooReturn, fooErrno := 0,
             completed := false }, rfl, rfl, rfl, rfl, _, rfl, rfl⟩

/-! ## Further lemmas and claims on threadpool.c -/

theorem workerFunction_claim_ok (p : ThreadPool) (trace : List Ev) :
    workerFunction_claim WorkerEnv.ok p trace =
      if p.running = true ∧ q_length p.waitingTasks = 0 then
        { state := WorkerState.waiting, tp := p, trace := trace }
      else if ¬ p.running = true ∧ q_length p.waitingTasks = 0 then
        { state := WorkerState.stopped 0, tp := p,
          trace := trace ++ [Ev.unlock Mutex.taskMutex] }
      else
        match p.waitingTasks.elements.nodes with
        | [] =>
          { state := WorkerState.stopped EFAULT,
            tp := { p with numIdleThreads := (p.numIdleThreads + UINT_MOD - 1) % UINT_MOD },
            trace := trace ++ [Ev.write Field.numIdleThreads] }
        | t :: rest =>
          { state := WorkerState.busy t,
            tp := { p with
              numIdleThreads := (p.numIdleThreads + UINT_MOD - 1) % UINT_MOD,
              waitingTasks := { elements := { p.waitingTasks.elements with
                nodes := rest,
                length := (p.waitingTasks.elements.length + SIZE_MOD - 1) % SIZE_MOD } } },
            trace := trace ++ [Ev.write Field.numIdleThreads, Ev.write Field.waitingTasks,
                               Ev.unlock Mutex.taskMutex] } := by
  unfold workerFunction_claim
  by_cases h1 : p.running = true ∧ q_length p.waitingTasks = 0
  · simp only [h1, and_self, if_true]
  · by_cases h2 : ¬ p.running = true ∧ q_length p.waitingTasks = 0
    · simp [h1, h2, WorkerEnv.ok]
    · have hlen : ¬ p.waitingTasks.elements.length = 0 := by
        intro h0
        by_cases hr : p.running = true
        · exact h1 ⟨hr, h0⟩
        · exact h2 ⟨hr, h0⟩
      simp only [h1, h2, if_false]
      cases hn : p.waitingTasks.elements.nodes with
      | nil =>
        simp [q_front, list_elementAt, list_nodeAt, list_walk, hn, hlen]
      | cons t rest =>
        simp [q_front, q_dequeue, list_elementAt, list_nodeAt, list_walk, list_popFront, hn,
          hlen, WorkerEnv.ok]

theorem tp_spawnThread_trace (env : SpawnEnv) (p : ThreadPool) :
    (tp_spawnThread env (some p)).trace = [] ∨
    (tp_spawnThread env (some p)).trace = [Ev.create env.thread] ∨
    (tp_spawnThread env (some p)).trace =
      [Ev.create env.thread, Ev.write Field.threads, Ev.write Field.numIdleThreads] := by
  unfold tp_spawnThread
  by_cases h : env.createRc = 0
  · cases ha : env.alloc <;>
      simp [h, ha, q_enqueue, list_pushBack, list_pushNodeBack]
  · simp [h]

theorem tp_spawnThread_some (env : SpawnEnv) (p : ThreadPool) :
    ∃ p1, (tp_spawnThread env (some p)).tp = some p1 := by
  unfold tp_spawnThread
  by_cases h : env.createRc = 0
  · cases ha : env.alloc <;>
      simp [h, ha, q_enqueue, list_pushBack, list_pushNodeBack]
  · simp [h]

theorem tp_init_loop_no_lock (spawn : Nat → SpawnEnv) (k : Nat) :
    ∀ (threadNum errno : Nat) (p : ThreadPool) (trace : List Ev),
      (∀ e ∈ trace, e.acquires Mutex.taskMutex = false) →
      (∀ r, tp_init_loop spawn k threadNum errno (some p) trace = Except.error r →
        ∀ e ∈ r.trace, e.acquires Mutex.taskMutex = false) ∧
      (∀ e1 p1 tr, tp_init_loop spawn k threadNum errno (some p) trace =
          Except.ok (e1, p1, tr) →
        ∀ e ∈ tr, e.acquires Mutex.taskMutex = false) := by
  induction k with
  | zero =>
    intro threadNum errno p trace h
    constructor
    · intro r hr; simp [tp_init_loop] at hr
    · intro e1 p1 tr hr
      simp only [tp_init_loop, Except.ok.injEq, Prod.mk.injEq] at hr
      rw [← hr.2.2]; exact h
  | succ k ih =>
    intro threadNum errno p trace h
    have htr : ∀ e ∈ trace ++ (tp_spawnThread (spawn threadNum) (some p)).trace,
        e.acquires Mutex.taskMutex = false := by
      intro e he
      rcases List.mem_append.1 he with he | he
      · exact h e he
      · rcases tp_spawnThread_trace (spawn threadNum) p with ht | ht | ht <;>
          rw [ht] at he <;> simp at he
        · rw [he]; rfl
        · rcases he with he | he | he <;> rw [he] <;> rfl
    obtain ⟨p1, hp1⟩ := tp_spawnThread_some (spawn threadNum) p
    simp only [tp_init_loop]
    by_cases hok : (tp_spawnThread (spawn threadNum) (some p)).ok = true
    · simp only [hok, if_true, hp1]
      exact ih _ _ p1 _ htr
    · simp only [hok, if_false]
      constructor
      · intro r hr
        injection hr with hr
        rw [← hr]; exact htr
      · intro e1 p2 tr hr; simp at hr

/-- C18, as the claim states it, fails for `tp_init`: a fault-free `tp_init` with
one thread writes `waitingTasks` and `numIdleThreads` (the latter also through
the `tp_spawnThread` it calls) and never locks `taskMutex`. -/
theorem tp_init_writes_unlocked :
    ∃ r, tp_init (InitEnv.ok id) (some garbagePool) 1 = some r ∧ r.rc = 0 ∧
      r.trace = [Ev.write Field.running, Ev.condInit Cond.taskAvailable,
                 Ev.mutexInit Mutex.taskMutex, Ev.write Field.waitingTasks,
                 Ev.write Field.threads, Ev.create 0, Ev.write Field.threads,
                 Ev.write Field.numIdleThreads, Ev.write Field.numIdleThreads] ∧
      underLock Mutex.taskMutex isPoolWrite false r.trace = false :=
  ⟨_, rfl, rfl, rfl, by decide⟩

theorem tp_enqueueImmediate_underLock (env : EnqueueEnv) (p : ThreadPool) (task : TaskPtr) :
    underLock Mutex.taskMutex isPoolWrite false
      (tp_enqueueImmediate env (some p) task).trace = true := by
  unfold tp_enqueueImmediate
  by_cases hl : env.lockRc = 0 <;> by_cases hi : p.numIdleThreads = 0 <;>
    by_cases hc : env.spawn.createRc = 0 <;> cases hsa : env.spawn.alloc <;>
    cases ha : env.alloc <;> by_cases hs : env.signalRc = 0 <;>
    by_cases hu : env.unlockRc = 0 <;>
    simp [hl, hi, hc, hsa, ha, hs, hu, tp_spawnThread, q_enqueue, list_pushBack,
      list_pushNodeBack, underLock, isPoolWrite, Ev.acquires]

theorem workerFunction_lock_underLock (env : WorkerEnv) (p : ThreadPool) :
    underLock Mutex.taskMutex isPoolWrite false (workerFunction_lock env p).trace = true := by
  unfold workerFunction_lock workerFunction_claim
  by_cases hl : env.lockRc = 0 <;> by_cases hu : env.unlockRc = 0 <;>
    cases hr : p.running <;> by_cases hq : p.waitingTasks.elements.length = 0 <;>
    cases hn : p.waitingTasks.elements.nodes <;>
    simp [hl, hu, hr, hq, hn, q_length, q_front, q_dequeue, list_elementAt, list_nodeAt,
      list_walk, list_popFront, underLock, isPoolWrite, Ev.acquires]

theorem workerFunction_wake_underLock (env : WorkerEnv) (p : ThreadPool) :
    underLock Mutex.taskMutex isPoolWrite false (workerFunction_wake env p).trace = true := by
  unfold workerFunction_wake workerFunction_claim
  by_cases hl : env.waitRc = 0 <;> by_cases hu : env.unlockRc = 0 <;>
    cases hr : p.running <;> by_cases hq : p.waitingTasks.elements.length = 0 <;>
    cases hn : p.waitingTasks.elements.nodes <;>
    simp [hl, hu, hr, hq, hn, q_length, q_front, q_dequeue, list_elementAt, list_nodeAt,
      list_walk, list_popFront, underLock, isPoolWrite, Ev.acquires]

theorem workerFunction_finish_underLock (env : WorkerEnv) (tenv : TaskEnv) (p : ThreadPool)
    (task : Option Task) (mem : Mem) (r : FinishResult)
    (h : workerFunction_finish env tenv p task mem = some r) :
    underLock Mutex.taskMutex isPoolWrite false r.trace = true := by
  unfold workerFunction_finish task_execute task_markCompleted at h
  cases task with
  | none =>
    simp [EPERM] at h
    rw [← h]; rfl
  | some t =>
    cases hf : t.foo with
    | none => simp [hf] at h
    | some f =>
      by_cases hl : env.lockRc = 0 <;> by_cases hu : env.unlockRc = 0 <;>
        cases hc : t.completed <;> by_cases htl : tenv.lockRc = 0 <;>
        by_cases htb : tenv.broadcastRc = 0 <;> by_cases htu : tenv.unlockRc = 0 <;>
        simp [hf, hl, hu, hc, htl, htb, htu] at h <;>
        (rw [← h]; simp [underLock, isPoolWrite, Ev.acquires])

/-- C18, amended: lock discipline of the operations that run while the pool is
shared. Whatever the pthread calls and allocations return, every write to
`waitingTasks` or `numIdleThreads` made by `tp_enqueueImmediate` (those of the
`tp_spawnThread` it calls included) and by every step of `workerFunction`
happens while the writing thread holds `taskMutex`. `tp_init`, with the
`tp_spawnThread` calls it makes, never takes `taskMutex`: it writes both fields
without the lock. -/
theorem lock_discipline (p : ThreadPool) :
    (∀ (env : EnqueueEnv) (task : TaskPtr),
      underLock Mutex.taskMutex isPoolWrite false
        (tp_enqueueImmediate env (some p) task).trace = true) ∧
    (∀ env : WorkerEnv,
      underLock Mutex.taskMutex isPoolWrite false (workerFunction_lock env p).trace = true ∧
      underLock Mutex.taskMutex isPoolWrite false (workerFunction_wake env p).trace = true) ∧
    (∀ (env : WorkerEnv) (tenv : TaskEnv) (task : Option Task) (mem : Mem) (r : FinishResult),
      workerFunction_finish env tenv p task mem = some r →
      underLock Mutex.taskMutex isPoolWrite false r.trace = true) ∧
    (∀ (env : InitEnv) (n : Nat) (r : PoolResult), tp_init env (some p) n = some r →
      ∀ e ∈ r.trace, e.acquires Mutex.taskMutex = false) := by
  refine ⟨fun env task => tp_enqueueImmediate_underLock env p task,
    fun env => ⟨workerFunction_lock_underLock env p, workerFunction_wake_underLock env p⟩,
    fun env tenv task mem r h => workerFunction_finish_underLock env tenv p task mem r h,
    ?_⟩
  intro env n r h
  unfold tp_init at h
  by_cases hc : env.condInitRc = 0
  · by_cases hm : env.mutexInitRc = 0
    · simp only [hc, hm, ne_eq, not_true_eq_false, if_false] at h
      have h0 : ∀ e ∈ ([Ev.write Field.running] ++ [Ev.condInit Cond.taskAvailable] ++
          [Ev.mutexInit Mutex.taskMutex, Ev.write Field.waitingTasks,
           Ev.write Field.threads] : List Ev), e.acquires Mutex.taskMutex = false := by
        decide
      obtain ⟨h1, h2⟩ := tp_init_loop_no_lock env.spawn n 0 0
        { p with running := true, waitingTasks := q_constructEmpty WORD_SIZE,
                 threads := q_constructEmpty WORD_SIZE } _ h0
      split at h
      · next r1 hr1 =>
        simp only [Option.some.injEq] at h
        rw [← h]; exact h1 r1 hr1
      · next e1 tr4 hr1 =>
        simp only [Option.some.injEq] at h
        rw [← h]; exact h2 e1 none tr4 hr1
      · next e1 p3 tr4 hr1 =>
        simp only [Option.some.injEq] at h
        rw [← h]
        intro e he
        rcases List.mem_append.1 he with he | he
        · exact h2 e1 (some p3) tr4 hr1 e he
        · simp at he; rw [he]; rfl
    · simp only [hc, hm, ne_eq, not_true_eq_false, if_false, not_false_eq_true, if_true,
        Option.some.injEq] at h
      rw [← h]; simp [Ev.acquires]
  · simp only [hc, ne_eq, not_false_eq_true, if_true, Option.some.injEq] at h
    rw [← h]; simp [Ev.acquires]

theorem lock_discipline_witness :
    (∃ r, workerFunction_finish WorkerEnv.ok TaskEnv.ok emptyPool (some sampleTask) zeroMem =
        some r ∧
      underLock Mutex.taskMutex isPoolWrite false r.trace = true) ∧
    (∃ r, tp_init (InitEnv.ok id) (some emptyPool) 2 = some r ∧
      ∀ e ∈ r.trace, e.acquires Mutex.taskMutex = false) :=
  ⟨⟨_, rfl, (lock_discipline emptyPool).2.2.1 WorkerEnv.ok TaskEnv.ok (some sampleTask)
      zeroMem _ rfl⟩,
   ⟨_, rfl, (lock_discipline emptyPool).2.2.2 (InitEnv.ok id) 2 _ rfl⟩⟩

/-! ## Lemmas and claims on queue.c -/

theorem size_succ (len : Nat) (h : len + 1 < SIZE_MOD) : (len + 1) % SIZE_MOD = len + 1 :=
  Nat.mod_eq_of_lt h

theorem size_pred (len : Nat) (h : len < SIZE_MOD) :
    (len + 1 + SIZE_MOD - 1) % SIZE_MOD = len := by
  have h1 : len + 1 + SIZE_MOD - 1 = len + SIZE_MOD := by omega
  rw [h1, Nat.add_mod_right]
  exact Nat.mod_eq_of_lt h

theorem q_enqueueAll_nodes {α : Type} (xs : List α) :
    ∀ q : Queue α, q.elements.length = q.elements.nodes.length →
      q.elements.nodes.length + xs.length < SIZE_MOD →
      (q_enqueueAll q xs).elements.nodes = q.elements.nodes ++ xs ∧
      (q_enqueueAll q xs).elements.length = q.elements.nodes.length + xs.length ∧
      (q_enqueueAll q xs).elements.dataSize = q.elements.dataSize := by
  induction xs with
  | nil => intro q h _; simp [q_enqueueAll, h]
  | cons x rest ih =>
    intro q h hlt
    simp only [List.length_cons] at hlt
    have hs : (q.elements.nodes.length + 1) % SIZE_MOD = q.elements.nodes.length + 1 :=
      size_succ _ (by omega)
    have := ih (q_enqueue true q (some x)).2.2
      (by simp [q_enqueue, list_pushBack, list_pushNodeBack, h, hs])
      (by simp [q_enqueue, list_pushBack, list_pushNodeBack]; omega)
    simp only [q_enqueueAll]
    rw [this.1, this.2.1, this.2.2]
    simp [q_enqueue, list_pushBack, list_pushNodeBack]
    omega

theorem q_drain_all {α : Type} (xs : List α) :
    ∀ q : Queue α, q.elements.nodes = xs → q.elements.length = xs.length →
      xs.length < SIZE_MOD →
      (q_drain xs.length q).1.map (fun r => r.1) = xs.map some ∧
      (q_drain xs.length q).1.map (fun r => r.2.1) = List.replicate xs.length true ∧
      (q_drain xs.length q).1.map (fun r => r.2.2) = (List.range xs.length).reverse ∧
      (q_drain xs.length q).2.elements.nodes = [] ∧
      q_length (q_drain xs.length q).2 = 0 := by
  induction xs with
  | nil => intro q hn hl _; simp [q_drain, q_length, hn, hl]
  | cons x rest ih =>
    intro q hn hl hlt
    simp only [List.length_cons] at hl hlt
    have hp : (q.elements.length + SIZE_MOD - 1) % SIZE_MOD = rest.length := by
      rw [hl]; exact size_pred _ (by omega)
    have hd : q_dequeue q =
        (true, 0, { elements := { q.elements with nodes := rest, length := rest.length } }) := by
      simp [q_dequeue, list_popFront, hn, hp]
    have hf : q_front q = (some x, 0) := by
      simp [q_front, list_elementAt, list_nodeAt, list_walk, hn, hl]
    obtain ⟨h1, h2, h3, h4, h5⟩ :=
      ih { elements := { q.elements with nodes := rest, length := rest.length } } rfl rfl
        (by omega)
    simp only [List.length_cons, q_drain, hd, hf, List.map_cons, h1, h2, h3, h4, h5]
    simp [q_length, List.range_succ, List.replicate_succ]

/-- C13: the queue is a FIFO over its list. For every sequence `xs` (shorter
than `2 ^ 64`) enqueued with `q_enqueue` on a queue built by `q_constructEmpty`,
`q_length` is the length of `xs`, the queue holds `xs` in order, `q_front`
returns the first element (it takes the queue read-only), and as many pairs of
`q_front` and `q_dequeue` as there are elements return the elements of `xs` in
order, every `q_dequeue` returning `true` and lowering `q_length` by one, down
to `0`; the queue is then empty, no dequeued element being reachable from it. -/
theorem queue_fifo {α : Type} (dataSize : Nat) (xs : List α) (h : xs.length < SIZE_MOD) :
    q_length (q_enqueueAll (q_constructEmpty dataSize) xs) = xs.length ∧
    (q_enqueueAll (q_constructEmpty dataSize) xs).elements.nodes = xs ∧
    (∀ x rest, xs = x :: rest →
      q_front (q_enqueueAll (q_constructEmpty dataSize) xs) = (some x, 0)) ∧
    (q_drain xs.length (q_enqueueAll (q_constructEmpty dataSize) xs)).1.map (fun r => r.1) =
      xs.map some ∧
    (q_drain xs.length (q_enqueueAll (q_constructEmpty dataSize) xs)).1.map
      (fun r => r.2.1) = List.replicate xs.length true ∧
    (q_drain xs.length (q_enqueueAll (q_constructEmpty dataSize) xs)).1.map
      (fun r => r.2.2) = (List.range xs.length).reverse ∧
    (q_drain xs.length (q_enqueueAll (q_constructEmpty dataSize) xs)).2.elements.nodes = [] ∧
    q_length (q_drain xs.length (q_enqueueAll (q_constructEmpty dataSize) xs)).2 = 0 := by
  obtain ⟨h1a, h2a, _⟩ := q_enqueueAll_nodes xs (q_constructEmpty dataSize) rfl
    (by simpa [q_constructEmpty, list_constructEmpty] using h)
  have h1 : (q_enqueueAll (q_constructEmpty dataSize) xs).elements.nodes = xs := h1a
  have h2 : (q_enqueueAll (q_constructEmpty dataSize) xs).elements.length = xs.length := by
    rw [h2a]; simp [q_constructEmpty, list_constructEmpty]
  have h3 := q_drain_all xs (q_enqueueAll (q_constructEmpty dataSize) xs) h1 h2 h
  refine ⟨h2, h1, ?_, h3⟩
  intro x rest hx
  subst hx
  simp only [q_front, list_elementAt, list_nodeAt, h1, h2]
  simp [list_walk]

theorem queue_fifo_witness :
    [7, 8, 9].length < SIZE_MOD ∧
    q_length (q_enqueueAll (q_constructEmpty WORD_SIZE) [7, 8, 9]) = 3 ∧
    (q_drain 3 (q_enqueueAll (q_constructEmpty WORD_SIZE) [7, 8, 9])).1 =
      [(some 7, true, 2), (some 8, true, 1), (some 9, true, 0)] ∧
    (q_drain [7, 8, 9].length
      (q_enqueueAll (q_constructEmpty WORD_SIZE) [7, 8, 9])).2.elements.nodes = [] := by
  have hlt : [7, 8, 9].length < SIZE_MOD := by simp [SIZE_MOD]
  have h := queue_fifo WORD_SIZE [7, 8, 9] hlt
  exact ⟨hlt, h.1, by decide, h.2.2.2.2.2.2.1⟩

/-! ## Lemmas on the steps of the transition system -/

theorem uint_one : (0 + 1) % UINT_MOD = 1 := by
  unfold UINT_MOD; norm_num

theorem sys_submit_spawn (s : PoolSys) (task : TaskPtr) (h : s.tp.numIdleThreads = 0) :
    sys_submit s task =
      some { tp := { s.tp with
               threads := { elements := { s.tp.threads.elements with
                 nodes := s.tp.threads.elements.nodes ++ [s.workers.length],
                 length := (s.tp.threads.elements.length + 1) % SIZE_MOD } },
               numIdleThreads := 1,
               waitingTasks := { elements := { s.tp.waitingTasks.elements with
                 nodes := s.tp.waitingTasks.elements.nodes ++ [task],
                 length := (s.tp.waitingTasks.elements.length + 1) % SIZE_MOD } } },
             workers := s.workers ++ [WorkerState.idle], heap := s.heap, mem := s.mem } := by
  simp [sys_submit, tp_enqueueImmediate, EnqueueEnv.ok, h, tp_spawnThread_ok, q_enqueue,
    list_pushBack, list_pushNodeBack, uint_one]

theorem sys_submit_keep (s : PoolSys) (task : TaskPtr) (h : s.tp.numIdleThreads ≠ 0) :
    sys_submit s task =
      some { tp := { s.tp with
               waitingTasks := { elements := { s.tp.waitingTasks.elements with
                 nodes := s.tp.waitingTasks.elements.nodes ++ [task],
                 length := (s.tp.waitingTasks.elements.length + 1) % SIZE_MOD } } },
             workers := s.workers, heap := s.heap, mem := s.mem } := by
  simp [sys_submit, tp_enqueueImmediate, EnqueueEnv.ok, h, q_enqueue, list_pushBack,
    list_pushNodeBack]

theorem sys_work_idle (returns : TaskPtr → Bool) (s : PoolSys) (i : Nat)
    (h : s.workers.get? i = some WorkerState.idle) :
    sys_work returns s i =
      some { tp := (workerFunction_claim WorkerEnv.ok s.tp [Ev.lock Mutex.taskMutex]).tp,
             workers := s.workers.set i
               (workerFunction_claim WorkerEnv.ok s.tp [Ev.lock Mutex.taskMutex]).state,
             heap := s.heap, mem := s.mem } := by
  simp only [sys_work, h]
  rfl

theorem sys_work_waiting (returns : TaskPtr → Bool) (s : PoolSys) (i : Nat)
    (h : s.workers.get? i = some WorkerState.waiting) :
    sys_work returns s i =
      some { tp := (workerFunction_claim WorkerEnv.ok s.tp
                     [Ev.wait Cond.taskAvailable Mutex.taskMutex]).tp,
             workers := s.workers.set i
               (workerFunction_claim WorkerEnv.ok s.tp
                 [Ev.wait Cond.taskAvailable Mutex.taskMutex]).state,
             heap := s.heap, mem := s.mem } := by
  simp only [sys_work, h]
  rfl

theorem workerFunction_finish_ok (p : ThreadPool) (t : Task) (mem : Mem) (f : Callable)
    (hf : t.foo = some f) :
    workerFunction_finish WorkerEnv.ok TaskEnv.ok p (some t) mem =
      some { state := WorkerState.idle,
             tp := { p with numIdleThreads := (p.numIdleThreads + 1) % UINT_MOD },
             task := some { t with fooErrno := (f t.fooArg 0).2, completed := true },
             mem := (match t.fooReturn with
               | some a => mem.store a (f t.fooArg 0).1
               | none => mem),
             trace := [Ev.call t.fooArg] ++
               (if t.completed = true then []
                else [Ev.lock Mutex.completedMutex, Ev.write Field.completed,
                      Ev.broadcast Cond.completedCond, Ev.unlock Mutex.completedMutex]) ++
               [Ev.lock Mutex.taskMutex, Ev.write Field.numIdleThreads,
                Ev.unlock Mutex.taskMutex] } := by
  cases hc : t.completed <;>
    simp [workerFunction_finish, task_execute, task_markCompleted, hf, hc, WorkerEnv.ok,
      TaskEnv.ok]

theorem workerFunction_finish_shape (p : ThreadPool) (task : Option Task) (mem : Mem)
    (r : FinishResult)
    (h : workerFunction_finish WorkerEnv.ok TaskEnv.ok p task mem = some r) :
    (r.state = WorkerState.idle ∧ task ≠ none ∧
      r.tp = { p with numIdleThreads := (p.numIdleThreads + 1) % UINT_MOD }) ∨
    (r.state = WorkerState.stopped EPERM ∧ task = none ∧ r.tp = p) := by
  cases task with
  | none =>
    simp [workerFunction_finish, task_execute, EPERM] at h
    right
    rw [← h]
    exact ⟨rfl, rfl, rfl⟩
  | some t =>
    cases hf : t.foo with
    | none => simp [workerFunction_finish, task_execute, hf] at h
    | some f =>
      rw [workerFunction_finish_ok p t mem f hf] at h
      simp only [Option.some.injEq] at h
      left
      rw [← h]
      exact ⟨rfl, by simp, rfl⟩

theorem uint_claim_finish (x : Nat) (h : x < UINT_MOD) :
    ((x + UINT_MOD - 1) % UINT_MOD + 1) % UINT_MOD = x := by
  unfold UINT_MOD at *
  omega

theorem workerFunction_finishAll_spec (ts : List Task) :
    ∀ (p : ThreadPool) (mem : Mem), (∀ t ∈ ts, t.foo ≠ none) →
      (ts.filterMap fun t => t.fooReturn).Nodup →
      ∃ p1 ts1 mem1, workerFunction_finishAll p ts mem = some (p1, ts1, mem1) ∧
        ts1.length = ts.length ∧ (∀ t ∈ ts1, t.completed = true) ∧
        (∀ b, b ∉ (ts.filterMap fun t => t.fooReturn) → mem1 b = mem b) ∧
        (∀ t ∈ ts, ∀ a f, t.fooReturn = some a → t.foo = some f →
          mem1 a = (f t.fooArg 0).1) := by
  induction ts with
  | nil =>
    intro p mem _ _
    exact ⟨p, [], mem, rfl, rfl, by simp, fun _ _ => rfl, by simp⟩
  | cons t rest ih =>
    intro p mem hfoo hnd
    have hft : t.foo ≠ none := hfoo t (List.mem_cons_self _ _)
    obtain ⟨f, hf⟩ := Option.ne_none_iff_exists'.1 hft
    have hrest : ∀ u ∈ rest, u.foo ≠ none := fun u hu => hfoo u (List.mem_cons_of_mem _ hu)
    cases ha : t.fooReturn with
    | none =>
      have hnd1 : (rest.filterMap fun t => t.fooReturn).Nodup := by
        simpa [List.filterMap_cons, ha] using hnd
      obtain ⟨p1, ts1, mem1, h1, h2, h3, h4, h5⟩ :=
        ih { p with numIdleThreads := (p.numIdleThreads + 1) % UINT_MOD } mem hrest hnd1
      refine ⟨p1, ({ t with fooErrno := (f t.fooArg 0).2, completed := true } : Task) :: ts1,
        mem1, ?_, by simp [h2], ?_, ?_, ?_⟩
      · simp only [workerFunction_finishAll, workerFunction_finish_ok p t mem f hf, ha, h1]
      · intro u hu
        rcases List.mem_cons.1 hu with hu | hu
        · rw [hu]
        · exact h3 u hu
      · intro b hb
        exact h4 b (by simpa [List.filterMap_cons, ha] using hb)
      · intro u hu a g hua hug
        rcases List.mem_cons.1 hu with hu | hu
        · rw [hu, ha] at hua; cases hua
        · exact h5 u hu a g hua hug
    | some a =>
      have hnd0 : (a :: rest.filterMap fun t => t.fooReturn).Nodup := by
        simpa [List.filterMap_cons, ha] using hnd
      obtain ⟨hna, hnd1⟩ := List.nodup_cons.1 hnd0
      obtain ⟨p1, ts1, mem1, h1, h2, h3, h4, h5⟩ :=
        ih { p with numIdleThreads := (p.numIdleThreads + 1) % UINT_MOD }
          (mem.store a (f t.fooArg 0).1) hrest hnd1
      refine ⟨p1, ({ t with fooErrno := (f t.fooArg 0).2, completed := true } : Task) :: ts1,
        mem1, ?_, by simp [h2], ?_, ?_, ?_⟩
      · simp only [workerFunction_finishAll, workerFunction_finish_ok p t mem f hf, ha, h1]
      · intro u hu
        rcases List.mem_cons.1 hu with hu | hu
        · rw [hu]
        · exact h3 u hu
      · intro b hb
        have hb1 : b ≠ a ∧ b ∉ (rest.filterMap fun t => t.fooReturn) := by
          simpa [List.filterMap_cons, ha] using hb
        rw [h4 b hb1.2]
        simp [Mem.store, hb1.1]
      · intro u hu b g hub hug
        rcases List.mem_cons.1 hu with hu | hu
        · subst hu
          rw [ha] at hub
          rw [hf] at hug
          cases hub; cases hug
          rw [h4 a hna]
          simp [Mem.store]
        · exact h5 u hu b g hub hug

/-- C15: future correctness. Let a worker claim the front task of a pool (a
queue whose `length` field counts its nodes, an `unsigned` idle count) and let
`t`, with callable `f`, be the task claimed. One fault-free iteration executes
`t`, then marks it completed, then, under `taskMutex`, puts `numIdleThreads` back
to its value before the claim, and the worker is idle again. Afterwards
`completed = true`, the result slot of `t`, when it has one, holds exactly
`f fooArg`, no other cell of the memory has changed, and `task_getResult` on the
task returns `0` at once. For every list of tasks with callables and pairwise
distinct result slots executed one after the other, every task ends completed
and every slot holds the result of its own task. -/
theorem future_correctness (p : ThreadPool) (t : Task) (task : TaskPtr)
    (rest : List TaskPtr) (mem : Mem) (f : Callable) (wakes : List Wake)
    (hf : t.foo = some f) (hq : p.waitingTasks.elements.nodes = task :: rest)
    (hwf : p.waitingTasks.elements.length = p.waitingTasks.elements.nodes.length)
    (hidle : p.numIdleThreads < UINT_MOD) :
    (workerFunction_lock WorkerEnv.ok p).state = WorkerState.busy task ∧
    (∃ r t1, workerFunction_finish WorkerEnv.ok TaskEnv.ok (workerFunction_lock WorkerEnv.ok p).tp
          (some t) mem = some r ∧
      r.state = WorkerState.idle ∧ r.tp.numIdleThreads = p.numIdleThreads ∧
      r.task = some t1 ∧ t1.completed = true ∧
      r.trace = [Ev.call t.fooArg] ++
        (if t.completed = true then []
         else [Ev.lock Mutex.completedMutex, Ev.write Field.completed,
               Ev.broadcast Cond.completedCond, Ev.unlock Mutex.completedMutex]) ++
        [Ev.lock Mutex.taskMutex, Ev.write Field.numIdleThreads,
         Ev.unlock Mutex.taskMutex] ∧
      (∀ a, t.fooReturn = some a → r.mem a = (f t.fooArg 0).1) ∧
      (∀ b, t.fooReturn ≠ some b → r.mem b = mem b) ∧
      task_getResult TaskEnv.ok wakes (some t1) =
        WaitOutcome.returned 0 (some t1)
          [Ev.lock Mutex.completedMutex, Ev.unlock Mutex.completedMutex]) ∧
    (∀ (ts : List Task) (q : ThreadPool), (∀ u ∈ ts, u.foo ≠ none) →
      (ts.filterMap fun u => u.fooReturn).Nodup →
      ∃ q1 ts1 mem1, workerFunction_finishAll q ts mem = some (q1, ts1, mem1) ∧
        ts1.length = ts.length ∧ (∀ u ∈ ts1, u.completed = true) ∧
        (∀ u ∈ ts, ∀ a g, u.fooReturn = some a → u.foo = some g →
          mem1 a = (g u.fooArg 0).1)) := by
  have hlen : ¬ q_length p.waitingTasks = 0 := by simp [q_length, hwf, hq]
  have hclaim : workerFunction_lock WorkerEnv.ok p =
      { state := WorkerState.busy task,
        tp := { p with
          numIdleThreads := (p.numIdleThreads + UINT_MOD - 1) % UINT_MOD,
          waitingTasks := { elements := { p.waitingTasks.elements with
            nodes := rest,
            length := (p.waitingTasks.elements.length + SIZE_MOD - 1) % SIZE_MOD } } },
        trace := [Ev.lock Mutex.taskMutex] ++
          [Ev.write Field.numIdleThreads, Ev.write Field.waitingTasks,
           Ev.unlock Mutex.taskMutex] } := by
    have h0 : workerFunction_lock WorkerEnv.ok p =
        workerFunction_claim WorkerEnv.ok p [Ev.lock Mutex.taskMutex] := rfl
    rw [h0, workerFunction_claim_ok]
    simp [hlen, hq]
  refine ⟨by rw [hclaim], ?_, ?_⟩
  · rw [hclaim, workerFunction_finish_ok _ t mem f hf]
    refine ⟨_, _, rfl, rfl, uint_claim_finish _ hidle, rfl, rfl, rfl, ?_, ?_, ?_⟩
    · intro a ha
      simp [ha, Mem.store]
    · intro b hb
      cases ha : t.fooReturn with
      | none => rfl
      | some a =>
        have hne : b ≠ a := by
          intro hba; rw [hba, ha] at hb; exact hb rfl
        simp [Mem.store, hne]
    · exact (task_getResult_loop_completed TaskEnv.ok _ _ wakes rfl).trans rfl
  · intro ts q hfoo hnd
    obtain ⟨q1, ts1, mem1, h1, h2, h3, _, h5⟩ :=
      workerFunction_finishAll_spec ts q mem hfoo hnd
    exact ⟨q1, ts1, mem1, h1, h2, h3, h5⟩

theorem future_correctness_witness :
    (writerTask 3 42).foo = some (constCallable 42) ∧
    drainingPool.waitingTasks.elements.nodes = [4, 6] ∧
    drainingPool.numIdleThreads < UINT_MOD ∧
    (workerFunction_lock WorkerEnv.ok drainingPool).state = WorkerState.busy 4 ∧
    (∃ r, workerFunction_finish WorkerEnv.ok TaskEnv.ok
          (workerFunction_lock WorkerEnv.ok drainingPool).tp (some (writerTask 3 42))
          zeroMem = some r ∧
      r.tp.numIdleThreads = 1 ∧ r.mem 3 = 42) ∧
    (∃ q1 ts1 mem1,
      workerFunction_finishAll emptyPool [writerTask 1 10, writerTask 2 20, writerTask 3 30]
        zeroMem = some (q1, ts1, mem1) ∧
      mem1 1 = 10 ∧ mem1 2 = 20 ∧ mem1 3 = 30) := by
  have hidle : drainingPool.numIdleThreads < UINT_MOD := by
    simp [drainingPool, UINT_MOD]
  obtain ⟨h1, ⟨r, t1, h2, _, h4, _, _, _, h8, _⟩, h10⟩ :=
    future_correctness drainingPool (writerTask 3 42) 4 [6] zeroMem (constCallable 42) []
      rfl rfl rfl hidle
  obtain ⟨q1, ts1, mem1, h11, _, _, h14⟩ :=
    h10 [writerTask 1 10, writerTask 2 20, writerTask 3 30] emptyPool
      (by simp [writerTask]) (by simp [writerTask])
  refine ⟨rfl, rfl, hidle, h1, ⟨r, h2, h4, h8 3 rfl⟩, ⟨q1, ts1, mem1, h11, ?_, ?_, ?_⟩⟩
  · exact h14 (writerTask 1 10) (by simp) 1 (constCallable 10) rfl rfl
  · exact h14 (writerTask 2 20) (by simp) 2 (constCallable 20) rfl rfl
  · exact h14 (writerTask 3 30) (by simp) 3 (constCallable 30) rfl rfl

/-! ## Runs of a pool with a single worker -/

theorem singleWorker_submits (returns : TaskPtr → Bool) (ts : List TaskPtr) :
    ∀ (s : PoolSys) (nodes : List TaskPtr), s.singleWorker WorkerState.idle 1 nodes →
      nodes.length + ts.length < SIZE_MOD →
      (sys_run returns s (ts.map Action.submit)).singleWorker WorkerState.idle 1
        (nodes ++ ts) ∧
      (sys_run returns s (ts.map Action.submit)).heap = s.heap := by
  induction ts with
  | nil => intro s nodes h _; simpa [sys_run] using h
  | cons t rest ih =>
    intro s nodes h hlt
    obtain ⟨h1, h2, h3, h4, h5⟩ := h
    simp only [List.length_cons] at hlt
    have hne : s.tp.numIdleThreads ≠ 0 := by rw [h2]; decide
    have hs : (nodes.length + 1) % SIZE_MOD = nodes.length + 1 := size_succ _ (by omega)
    simp only [List.map_cons, sys_run, sys_step, sys_submit_keep s t hne]
    have := ih
      { tp := { s.tp with
          waitingTasks := { elements := { s.tp.waitingTasks.elements with
            nodes := s.tp.waitingTasks.elements.nodes ++ [t],
            length := (s.tp.waitingTasks.elements.length + 1) % SIZE_MOD } } },
        workers := s.workers, heap := s.heap, mem := s.mem }
      (nodes ++ [t])
      ⟨h1, h2, h3, by simp [h4], by simp [h5, hs]⟩
      (by simp; omega)
    simpa using this

theorem workerFunction_claim_cons (p : ThreadPool) (trace : List Ev) (t : TaskPtr)
    (rest : List TaskPtr) (hn : p.waitingTasks.elements.nodes = t :: rest)
    (hq : ¬ q_length p.waitingTasks = 0) :
    workerFunction_claim WorkerEnv.ok p trace =
      { state := WorkerState.busy t,
        tp := { p with
          numIdleThreads := (p.numIdleThreads + UINT_MOD - 1) % UINT_MOD,
          waitingTasks := { elements := { p.waitingTasks.elements with
            nodes := rest,
            length := (p.waitingTasks.elements.length + SIZE_MOD - 1) % SIZE_MOD } } },
        trace := trace ++ [Ev.write Field.numIdleThreads, Ev.write Field.waitingTasks,
                           Ev.unlock Mutex.taskMutex] } := by
  rw [workerFunction_claim_ok]
  simp [hq, hn]

theorem singleWorker_claim (returns : TaskPtr → Bool) (s : PoolSys) (t : TaskPtr)
    (rest : List TaskPtr) (h : s.singleWorker WorkerState.idle 1 (t :: rest))
    (hlt : rest.length + 1 < SIZE_MOD) :
    ∃ s1, sys_step returns s (Action.work 0) = some s1 ∧
      s1.singleWorker (WorkerState.busy t) 0 rest ∧ s1.heap = s.heap := by
  obtain ⟨h1, h2, h3, h4, h5⟩ := h
  have hget : s.workers.get? 0 = some WorkerState.idle := by rw [h1]; rfl
  have hq : ¬ q_length s.tp.waitingTasks = 0 := by simp [q_length, h5]
  have hp : (s.tp.waitingTasks.elements.length + SIZE_MOD - 1) % SIZE_MOD = rest.length := by
    rw [h5, List.length_cons]; exact size_pred rest.length (by omega)
  have hu : (s.tp.numIdleThreads + UINT_MOD - 1) % UINT_MOD = 0 := by
    rw [h2]; exact uint_dec_one
  have hstep : sys_step returns s (Action.work 0) =
      some { tp := { threads := s.tp.threads, numIdleThreads := 0,
                     waitingTasks := { elements :=
                       { nodes := rest, length := rest.length,
                         dataSize := s.tp.waitingTasks.elements.dataSize } },
                     running := true },
             workers := [WorkerState.busy t], heap := s.heap, mem := s.mem } := by
    have h0 : sys_step returns s (Action.work 0) = _ := sys_work_idle returns s 0 hget
    rw [h0, workerFunction_claim_cons s.tp _ t rest h4 hq, hp, hu, h1, h3]
    rfl
  exact ⟨_, hstep, ⟨rfl, rfl, rfl, rfl, rfl⟩, rfl⟩

theorem sys_work_busy (returns : TaskPtr → Bool) (s : PoolSys) (i : Nat) (t : TaskPtr)
    (f : Callable) (hget : s.workers.get? i = some (WorkerState.busy t))
    (hr : returns t = true) (ht : t ≠ 0) (hf : (s.heap t).foo = some f) :
    sys_work returns s i =
      some { tp := { s.tp with numIdleThreads := (s.tp.numIdleThreads + 1) % UINT_MOD },
             workers := s.workers.set i WorkerState.idle,
             heap := fun q => if q = t then
               { s.heap t with fooErrno := (f (s.heap t).fooArg 0).2, completed := true }
               else s.heap q,
             mem := (match (s.heap t).fooReturn with
               | some a => s.mem.store a (f (s.heap t).fooArg 0).1
               | none => s.mem) } := by
  simp only [sys_work, hget, hr, if_true, derefTask, ht, if_false,
    workerFunction_finish_ok s.tp (s.heap t) s.mem f hf]

theorem singleWorker_finish (s : PoolSys) (t : TaskPtr) (rest : List TaskPtr)
    (h : s.singleWorker (WorkerState.busy t) 0 rest) (ht : t ≠ 0)
    (hf : (s.heap t).foo ≠ none) :
    ∃ s1, sys_step alwaysReturns s (Action.work 0) = some s1 ∧
      s1.singleWorker WorkerState.idle 1 rest ∧
      ∀ u, (s1.heap u).foo = (s.heap u).foo := by
  obtain ⟨h1, h2, h3, h4, h5⟩ := h
  obtain ⟨f, hf1⟩ := Option.ne_none_iff_exists'.1 hf
  have hget : s.workers.get? 0 = some (WorkerState.busy t) := by rw [h1]; rfl
  have hu : (s.tp.numIdleThreads + 1) % UINT_MOD = 1 := by
    rw [h2]; exact uint_one
  have hstep : sys_step alwaysReturns s (Action.work 0) =
      some { tp := { threads := s.tp.threads, numIdleThreads := 1,
                     waitingTasks := s.tp.waitingTasks, running := s.tp.running },
             workers := [WorkerState.idle],
             heap := fun q => if q = t then
               { s.heap t with fooErrno := (f (s.heap t).fooArg 0).2, completed := true }
               else s.heap q,
             mem := (match (s.heap t).fooReturn with
               | some a => s.mem.store a (f (s.heap t).fooArg 0).1
               | none => s.mem) } := by
    have h0 : sys_step alwaysReturns s (Action.work 0) = _ :=
      sys_work_busy alwaysReturns s 0 t f hget rfl ht hf1
    rw [h0, hu, h1]
    rfl
  refine ⟨_, hstep, ⟨rfl, rfl, h3, h4, h5⟩, ?_⟩
  intro u
  by_cases hu1 : u = t
  · simp [hu1]
  · simp [hu1]

theorem singleWorker_rounds (k : Nat) :
    ∀ (s : PoolSys) (nodes : List TaskPtr), s.singleWorker WorkerState.idle 1 nodes →
      nodes.length < SIZE_MOD → (∀ t ∈ nodes, t ≠ 0 ∧ (s.heap t).foo ≠ none) →
      ∀ t, nodes[k]? = some t →
        (sys_run alwaysReturns s
          (List.replicate (2 * k + 1) (Action.work 0))).singleWorker
          (WorkerState.busy t) 0 (nodes.drop (k + 1)) := by
  induction k with
  | zero =>
    intro s nodes h hlt _ t ht
    cases nodes with
    | nil => simp at ht
    | cons t0 rest =>
      simp only [List.getElem?_cons_zero, Option.some.injEq] at ht
      subst ht
      obtain ⟨s1, hs1, hsw, _⟩ := singleWorker_claim alwaysReturns s t0 rest h
        (by simpa using hlt)
      simp only [Nat.mul_zero, Nat.zero_add, List.replicate_one, sys_run, hs1]
      simpa using hsw
  | succ k ih =>
    intro s nodes h hlt hall t ht
    cases nodes with
    | nil => simp at ht
    | cons t0 rest =>
      simp only [List.getElem?_cons_succ] at ht
      have hlt1 : rest.length + 1 < SIZE_MOD := by simpa using hlt
      obtain ⟨s1, hs1, hsw1, hh1⟩ := singleWorker_claim alwaysReturns s t0 rest h hlt1
      have h0 := hall t0 (List.mem_cons_self _ _)
      obtain ⟨s2, hs2, hsw2, hh2⟩ := singleWorker_finish s1 t0 rest hsw1 h0.1
        (by rw [hh1]; exact h0.2)
      have hall2 : ∀ u ∈ rest, u ≠ 0 ∧ (s2.heap u).foo ≠ none := by
        intro u hu
        have := hall u (List.mem_cons_of_mem _ hu)
        refine ⟨this.1, ?_⟩
        rw [hh2 u, hh1]; exact this.2
      have hrep : List.replicate (2 * (k + 1) + 1) (Action.work 0) =
          Action.work 0 :: Action.work 0 :: List.replicate (2 * k + 1) (Action.work 0) := by
        have : 2 * (k + 1) + 1 = (2 * k + 1) + 1 + 1 := by omega
        rw [this, List.replicate_succ, List.replicate_succ]
      rw [hrep]
      simp only [sys_run, hs1, hs2]
      simpa using ih s2 rest hsw2 (by omega) hall2 t ht

/-- C12: FIFO dequeue. The claim step of `workerFunction` takes the task at the
front of `waitingTasks` and leaves the others in their order. Hence, for every
list `ts` of tasks (not `NULL`, each with a callable that returns) submitted in
that order with `tp_enqueueImmediate` to a pool initialised with one thread, the
worker performing all claims: its claim number `k` (counted from `0`, after `k`
complete iterations) takes the task number `k` of `ts` and leaves exactly the
tasks after it waiting, in their order. -/
theorem fifo_dequeue (garbage : ThreadPool) (heap : TaskPtr → Task) (mem : Mem)
    (ts : List TaskPtr) (k : Nat) (t : TaskPtr)
    (hts : ∀ u ∈ ts, u ≠ 0 ∧ (heap u).foo ≠ none) (hlen : ts.length < SIZE_MOD)
    (hk : ts[k]? = some t) :
    (∀ (p : ThreadPool) (u : TaskPtr) (rest : List TaskPtr),
      p.waitingTasks.elements.nodes = u :: rest →
      p.waitingTasks.elements.length = (u :: rest).length →
      (workerFunction_lock WorkerEnv.ok p).state = WorkerState.busy u ∧
      (workerFunction_lock WorkerEnv.ok p).tp.waitingTasks.elements.nodes = rest) ∧
    (∃ s0, sys_init garbage 1 heap mem = some s0 ∧
      (sys_run alwaysReturns s0
        (ts.map Action.submit ++ List.replicate (2 * k + 1) (Action.work 0))).workers =
          [WorkerState.busy t] ∧
      (sys_run alwaysReturns s0
        (ts.map Action.submit ++
          List.replicate (2 * k + 1) (Action.work 0))).tp.waitingTasks.elements.nodes =
          ts.drop (k + 1)) := by
  constructor
  · intro p u rest hn hl
    have hq : ¬ q_length p.waitingTasks = 0 := by simp [q_length, hl]
    have h0 : workerFunction_lock WorkerEnv.ok p =
        workerFunction_claim WorkerEnv.ok p [Ev.lock Mutex.taskMutex] := rfl
    rw [h0, workerFunction_claim_cons p _ u rest hn hq]
    exact ⟨rfl, rfl⟩
  · have hrun : ∀ (s : PoolSys) (xs ys : List Action),
        sys_run alwaysReturns s (xs ++ ys) =
          sys_run alwaysReturns (sys_run alwaysReturns s xs) ys := by
      intro s xs
      induction xs generalizing s with
      | nil => intro ys; rfl
      | cons a rest ih =>
        intro ys
        simp only [List.cons_append, sys_run]
        cases sys_step alwaysReturns s a with
        | none => exact ih s ys
        | some s1 => exact ih s1 ys
    have hinit := (twoSubmitted_reached garbage heap mem).1
    have h0 : (oneThread heap mem).singleWorker WorkerState.idle 1 [] :=
      ⟨rfl, rfl, rfl, rfl, rfl⟩
    obtain ⟨h1, h2⟩ := singleWorker_submits alwaysReturns ts (oneThread heap mem) [] h0
      (by simpa using hlen)
    simp only [List.nil_append] at h1
    have h3 := singleWorker_rounds k _ ts h1 hlen
      (by intro u hu; rw [h2]; exact hts u hu) t hk
    refine ⟨oneThread heap mem, hinit, ?_, ?_⟩
    · rw [hrun]; exact h3.1
    · rw [hrun]; exact h3.2.2.2.1

theorem fifo_dequeue_witness :
    (∀ u ∈ [5, 6, 7], u ≠ 0 ∧ (sampleHeap u).foo ≠ none) ∧
    ([5, 6, 7] : List TaskPtr)[1]? = some 6 ∧
    (∃ s0, sys_init garbagePool 1 sampleHeap zeroMem = some s0 ∧
      (sys_run alwaysReturns s0
        ([5, 6, 7].map Action.submit ++ List.replicate (2 * 1 + 1) (Action.work 0))).workers =
          [WorkerState.busy 6] ∧
      (sys_run alwaysReturns s0
        ([5, 6, 7].map Action.submit ++
          List.replicate (2 * 1 + 1) (Action.work 0))).tp.waitingTasks.elements.nodes =
          [7]) := by
  have hts : ∀ u ∈ ([5, 6, 7] : List TaskPtr), u ≠ 0 ∧ (sampleHeap u).foo ≠ none := by
    intro u hu
    refine ⟨?_, by simp [sampleHeap, sampleTask]⟩
    simp only [List.mem_cons, List.mem_singleton, List.not_mem_nil, or_false] at hu
    rcases hu with hu | hu | hu <;> rw [hu] <;> decide
  exact ⟨hts, rfl,
    (fifo_dequeue garbagePool sampleHeap zeroMem [5, 6, 7] 1 6 hts
      (by simp [SIZE_MOD]) rfl).2⟩

/-! ## Idle accounting in the transition system -/

theorem uint_lt_size (x : Nat) (h : x < UINT_MOD) : x < SIZE_MOD := by
  unfold UINT_MOD at h
  unfold SIZE_MOD
  omega

theorem uint_succ (x : Nat) (h : x + 1 < UINT_MOD) : (x + 1) % UINT_MOD = x + 1 :=
  Nat.mod_eq_of_lt h

theorem uint_pred (x : Nat) (h : x < UINT_MOD) : (x + 1 + UINT_MOD - 1) % UINT_MOD = x := by
  have h1 : x + 1 + UINT_MOD - 1 = x + UINT_MOD := by omega
  rw [h1, Nat.add_mod_right]
  exact Nat.mod_eq_of_lt h

theorem countP_set_get {α : Type} (p : α → Bool) (l : List α) :
    ∀ (i : Nat) (old new : α), l.get? i = some old →
      (l.set i new).countP p + (if p old then 1 else 0) =
        l.countP p + (if p new then 1 else 0) := by
  induction l with
  | nil => intro i old new h; simp at h
  | cons x rest ih =>
    intro i old new h
    cases i with
    | zero =>
      simp only [List.get?_cons_zero, Option.some.injEq] at h
      subst h
      simp only [List.set_cons_zero, List.countP_cons]
      omega
    | succ j =>
      simp only [List.get?_cons_succ] at h
      have := ih j old new h
      simp only [List.set_cons_succ, List.countP_cons]
      omega

theorem countP_lt_of_get {α : Type} (p : α → Bool) (l : List α) :
    ∀ (i : Nat) (w : α), l.get? i = some w → p w = false → l.countP p < l.length := by
  induction l with
  | nil => intro i w h; simp at h
  | cons x rest ih =>
    intro i w h hw
    cases i with
    | zero =>
      simp only [List.get?_cons_zero, Option.some.injEq] at h
      subst h
      have := List.countP_le_length p (l := rest)
      simp only [List.countP_cons, hw, List.length_cons]
      simp only [Bool.false_eq_true, if_false]
      omega
    | succ j =>
      simp only [List.get?_cons_succ] at h
      have := ih j w h hw
      simp only [List.countP_cons, List.length_cons]
      split <;> omega

theorem mem_of_get {α : Type} (l : List α) :
    ∀ (i : Nat) (w : α), l.get? i = some w → w ∈ l := by
  induction l with
  | nil => intro i w h; simp at h
  | cons x rest ih =>
    intro i w h
    cases i with
    | zero =>
      simp only [List.get?_cons_zero, Option.some.injEq] at h
      rw [h]; exact List.mem_cons_self _ _
    | succ j =>
      simp only [List.get?_cons_succ] at h
      exact List.mem_cons_of_mem _ (ih j w h)

theorem accounted_mono (s : PoolSys) (b : Nat) (h : s.accounted (b + 1)) : s.accounted b := by
  obtain ⟨h1, h2, h3, h4, h5, h6, h7, h8⟩ := h
  exact ⟨h1, h2, h3, by omega, h5, by omega, h7, h8⟩

theorem accounted_submit (s : PoolSys) (b : Nat) (t : TaskPtr) (h : s.accounted (b + 1))
    (ht : t ≠ 0) : ∃ s1, sys_submit s t = some s1 ∧ s1.accounted b := by
  obtain ⟨h1, h2, h3, h4, h5, h6, h7, h8⟩ := h
  have hB : (s.tp.waitingTasks.elements.length + 1) % SIZE_MOD =
      s.tp.waitingTasks.elements.nodes.length + 1 := by
    rw [h5]; exact size_succ _ (uint_lt_size _ (by omega))
  have hmem : ∀ u ∈ s.tp.waitingTasks.elements.nodes ++ [t], u ≠ 0 := by
    intro u hu
    rcases List.mem_append.1 hu with hu | hu
    · exact h7 u hu
    · simp only [List.mem_singleton] at hu
      rw [hu]; exact ht
  by_cases h0 : s.tp.numIdleThreads = 0
  · have hA : (s.tp.threads.elements.length + 1) % SIZE_MOD = s.workers.length + 1 := by
      rw [h3]; exact size_succ _ (uint_lt_size _ (by omega))
    have hstep : sys_submit s t =
        some { tp := { threads := { elements :=
                         { nodes := s.tp.threads.elements.nodes ++ [s.workers.length],
                           length := s.workers.length + 1,
                           dataSize := s.tp.threads.elements.dataSize } },
                       numIdleThreads := 1,
                       waitingTasks := { elements :=
                         { nodes := s.tp.waitingTasks.elements.nodes ++ [t],
                           length := s.tp.waitingTasks.elements.nodes.length + 1,
                           dataSize := s.tp.waitingTasks.elements.dataSize } },
                       running := s.tp.running },
               workers := s.workers ++ [WorkerState.idle], heap := s.heap,
               mem := s.mem } := by
      rw [sys_submit_spawn s t h0, hA, hB]
    have hbusy : (s.workers ++ [WorkerState.idle]).countP WorkerState.isBusy =
        s.workers.countP WorkerState.isBusy := by
      simp [List.countP_append, List.countP_cons, WorkerState.isBusy]
    have h1a : s.tp.numIdleThreads + s.workers.countP WorkerState.isBusy =
        s.workers.length := h1
    refine ⟨_, hstep, ?_, ?_, ?_, ?_, ?_, ?_, hmem, ?_⟩
    · show 1 + (s.workers ++ [WorkerState.idle]).countP WorkerState.isBusy =
        (s.workers ++ [WorkerState.idle]).length
      rw [hbusy, List.length_append]
      simp only [List.length_singleton]
      omega
    · show (s.tp.threads.elements.nodes ++ [s.workers.length]).length =
        (s.workers ++ [WorkerState.idle]).length
      simp only [List.length_append, List.length_singleton, h2]
    · show s.workers.length + 1 = (s.workers ++ [WorkerState.idle]).length
      simp only [List.length_append, List.length_singleton]
    · show (s.workers ++ [WorkerState.idle]).length + b < UINT_MOD
      simp only [List.length_append, List.length_singleton]
      omega
    · show s.tp.waitingTasks.elements.nodes.length + 1 =
        (s.tp.waitingTasks.elements.nodes ++ [t]).length
      simp only [List.length_append, List.length_singleton]
    · show (s.tp.waitingTasks.elements.nodes ++ [t]).length + b < UINT_MOD
      simp only [List.length_append, List.length_singleton]
      omega
    · intro u hu
      rcases List.mem_append.1 hu with hu | hu
      · exact h8 u hu
      · simp at hu
  · have hstep : sys_submit s t =
        some { tp := { threads := s.tp.threads,
                       numIdleThreads := s.tp.numIdleThreads,
                       waitingTasks := { elements :=
                         { nodes := s.tp.waitingTasks.elements.nodes ++ [t],
                           length := s.tp.waitingTasks.elements.nodes.length + 1,
                           dataSize := s.tp.waitingTasks.elements.dataSize } },
                       running := s.tp.running },
               workers := s.workers, heap := s.heap, mem := s.mem } := by
      rw [sys_submit_keep s t h0, hB]
    refine ⟨_, hstep, h1, h2, h3, ?_, ?_, ?_, hmem, h8⟩
    · show s.workers.length + b < UINT_MOD
      omega
    · show s.tp.waitingTasks.elements.nodes.length + 1 =
        (s.tp.waitingTasks.elements.nodes ++ [t]).length
      simp only [List.length_append, List.length_singleton]
    · show (s.tp.waitingTasks.elements.nodes ++ [t]).length + b < UINT_MOD
      simp only [List.length_append, List.length_singleton]
      omega

theorem workerFunction_claim_empty (p : ThreadPool) (trace : List Ev)
    (hq : q_length p.waitingTasks = 0) :
    (workerFunction_claim WorkerEnv.ok p trace).tp = p ∧
    (workerFunction_claim WorkerEnv.ok p trace).state.isBusy = false := by
  rw [workerFunction_claim_ok]
  by_cases hr : p.running = true
  · simp [hr, hq, WorkerState.isBusy]
  · simp [hr, hq, WorkerState.isBusy]

theorem accounted_claim (s : PoolSys) (b i : Nat) (w : WorkerState) (trace : List Ev)
    (h : s.accounted (b + 1)) (hget : s.workers.get? i = some w)
    (hw : w.isBusy = false) :
    PoolSys.accounted
      { tp := (workerFunction_claim WorkerEnv.ok s.tp trace).tp,
        workers := s.workers.set i (workerFunction_claim WorkerEnv.ok s.tp trace).state,
        heap := s.heap, mem := s.mem } b := by
  obtain ⟨h1, h2, h3, h4, h5, h6, h7, h8⟩ := h
  have h1a : s.tp.numIdleThreads + s.workers.countP WorkerState.isBusy =
      s.workers.length := h1
  have hlt := countP_lt_of_get WorkerState.isBusy s.workers i w hget hw
  cases hn : s.tp.waitingTasks.elements.nodes with
  | nil =>
    have hq : q_length s.tp.waitingTasks = 0 := by
      show s.tp.waitingTasks.elements.length = 0
      rw [h5, hn]; rfl
    obtain ⟨e1, e2⟩ := workerFunction_claim_empty s.tp trace hq
    rw [e1]
    have hc := countP_set_get WorkerState.isBusy s.workers i w
      (workerFunction_claim WorkerEnv.ok s.tp trace).state hget
    rw [hw, e2] at hc
    simp only [Bool.false_eq_true, if_false, Nat.add_zero] at hc
    have h6a : s.tp.waitingTasks.elements.nodes.length + b < UINT_MOD := by omega
    refine ⟨?_, ?_, ?_, ?_, h5, h6a, h7, ?_⟩
    · show s.tp.numIdleThreads + (s.workers.set i _).countP WorkerState.isBusy =
        (s.workers.set i _).length
      rw [hc, List.length_set]; exact h1
    · show s.tp.threads.elements.nodes.length = (s.workers.set i _).length
      rw [List.length_set]; exact h2
    · show s.tp.threads.elements.length = (s.workers.set i _).length
      rw [List.length_set]; exact h3
    · show (s.workers.set i _).length + b < UINT_MOD
      rw [List.length_set]; omega
    · intro u hu
      rcases List.mem_or_eq_of_mem_set hu with hu | hu
      · exact h8 u hu
      · rw [← hu] at e2; simp [WorkerState.isBusy] at e2
  | cons t rest =>
    have hq : ¬ q_length s.tp.waitingTasks = 0 := by
      show ¬ s.tp.waitingTasks.elements.length = 0
      rw [h5, hn]; simp
    have hrest : rest.length + 1 + (b + 1) < UINT_MOD := by
      rw [hn] at h6; simpa using h6
    have hp : (s.tp.waitingTasks.elements.length + SIZE_MOD - 1) % SIZE_MOD =
        rest.length := by
      rw [h5, hn, List.length_cons]
      exact size_pred rest.length (uint_lt_size _ (by omega))
    obtain ⟨k, hk⟩ : ∃ k, s.tp.numIdleThreads = k + 1 :=
      ⟨s.tp.numIdleThreads - 1, by omega⟩
    have hu : (s.tp.numIdleThreads + UINT_MOD - 1) % UINT_MOD = k := by
      rw [hk]; exact uint_pred k (by omega)
    have hclaim : workerFunction_claim WorkerEnv.ok s.tp trace =
        { state := WorkerState.busy t,
          tp := { threads := s.tp.threads, numIdleThreads := k,
                  waitingTasks := { elements :=
                    { nodes := rest, length := rest.length,
                      dataSize := s.tp.waitingTasks.elements.dataSize } },
                  running := s.tp.running },
          trace := trace ++ [Ev.write Field.numIdleThreads, Ev.write Field.waitingTasks,
                             Ev.unlock Mutex.taskMutex] } := by
      rw [workerFunction_claim_cons s.tp trace t rest hn hq, hu, hp]
    rw [hclaim]
    have hc := countP_set_get WorkerState.isBusy s.workers i w (WorkerState.busy t) hget
    rw [hw] at hc
    simp only [Bool.false_eq_true, if_false, Nat.add_zero, WorkerState.isBusy,
      if_true] at hc
    have ht0 : t ≠ 0 := h7 t (by rw [hn]; exact List.mem_cons_self _ _)
    refine ⟨?_, ?_, ?_, ?_, rfl, ?_, ?_, ?_⟩
    · show k + (s.workers.set i (WorkerState.busy t)).countP WorkerState.isBusy =
        (s.workers.set i (WorkerState.busy t)).length
      rw [hc, List.length_set]; omega
    · show s.tp.threads.elements.nodes.length =
        (s.workers.set i (WorkerState.busy t)).length
      rw [List.length_set]; exact h2
    · show s.tp.threads.elements.length = (s.workers.set i (WorkerState.busy t)).length
      rw [List.length_set]; exact h3
    · show (s.workers.set i (WorkerState.busy t)).length + b < UINT_MOD
      rw [List.length_set]; omega
    · show rest.length + b < UINT_MOD
      omega
    · intro u hu
      exact h7 u (by rw [hn]; exact List.mem_cons_of_mem _ hu)
    · intro u hu
      rcases List.mem_or_eq_of_mem_set hu with hu | hu
      · exact h8 u hu
      · injection hu with hu
        rw [hu]; exact ht0

theorem sys_work_no_callable (returns : TaskPtr → Bool) (s : PoolSys) (i : Nat)
    (t : TaskPtr) (hget : s.workers.get? i = some (WorkerState.busy t)) (ht : t ≠ 0)
    (hf : (s.heap t).foo = none) : sys_work returns s i = none := by
  by_cases hr : returns t = true
  · simp only [sys_work, hget, hr, if_true, derefTask, ht, if_false, workerFunction_finish,
      task_execute, hf]
  · simp only [sys_work, hget, hr, Bool.false_eq_true, if_false]

theorem accounted_work (returns : TaskPtr → Bool) (s s1 : PoolSys) (b i : Nat)
    (h : s.accounted (b + 1)) (hs : sys_work returns s i = some s1) : s1.accounted b := by
  cases hget : s.workers.get? i with
  | none =>
    simp only [sys_work, hget] at hs
    exact absurd hs (by simp)
  | some w =>
    cases w with
    | idle =>
      rw [sys_work_idle returns s i hget] at hs
      injection hs with hs
      rw [← hs]
      exact accounted_claim s b i WorkerState.idle _ h hget rfl
    | waiting =>
      rw [sys_work_waiting returns s i hget] at hs
      injection hs with hs
      rw [← hs]
      exact accounted_claim s b i WorkerState.waiting _ h hget rfl
    | stopped e =>
      simp only [sys_work, hget] at hs
      exact absurd hs (by simp)
    | busy t =>
      obtain ⟨h1, h2, h3, h4, h5, h6, h7, h8⟩ := h
      have h1a : s.tp.numIdleThreads + s.workers.countP WorkerState.isBusy =
          s.workers.length := h1
      have ht : t ≠ 0 := h8 t (mem_of_get s.workers i _ hget)
      by_cases hr : returns t = true
      · cases hf : (s.heap t).foo with
        | none =>
          rw [sys_work_no_callable returns s i t hget ht hf] at hs
          exact absurd hs (by simp)
        | some f =>
          have hc := countP_set_get WorkerState.isBusy s.workers i (WorkerState.busy t)
            WorkerState.idle hget
          simp only [WorkerState.isBusy, if_true, Bool.false_eq_true, if_false,
            Nat.add_zero] at hc
          have hu : (s.tp.numIdleThreads + 1) % UINT_MOD = s.tp.numIdleThreads + 1 :=
            Nat.mod_eq_of_lt (by omega)
          rw [sys_work_busy returns s i t f hget hr ht hf, hu] at hs
          injection hs with hs
          rw [← hs]
          have h6a : s.tp.waitingTasks.elements.nodes.length + b < UINT_MOD := by omega
          refine ⟨?_, ?_, ?_, ?_, h5, h6a, h7, ?_⟩
          · show s.tp.numIdleThreads + 1 +
              (s.workers.set i WorkerState.idle).countP WorkerState.isBusy =
              (s.workers.set i WorkerState.idle).length
            rw [List.length_set]; omega
          · show s.tp.threads.elements.nodes.length =
              (s.workers.set i WorkerState.idle).length
            rw [List.length_set]; exact h2
          · show s.tp.threads.elements.length = (s.workers.set i WorkerState.idle).length
            rw [List.length_set]; exact h3
          · show (s.workers.set i WorkerState.idle).length + b < UINT_MOD
            rw [List.length_set]; omega
          · intro u hu1
            rcases List.mem_or_eq_of_mem_set hu1 with hu1 | hu1
            · exact h8 u hu1
            · exact absurd hu1 (by simp)
      · simp only [sys_work, hget, hr, Bool.false_eq_true, if_false] at hs
        exact absurd hs (by simp)

theorem accounted_step (returns : TaskPtr → Bool) (s s1 : PoolSys) (b : Nat) (a : Action)
    (h : s.accounted (b + 1)) (ha : ∀ t, a = Action.submit t → t ≠ 0)
    (hs : sys_step returns s a = some s1) : s1.accounted b := by
  cases a with
  | submit t =>
    obtain ⟨s2, e, h2⟩ := accounted_submit s b t h (ha t rfl)
    have hs1 : sys_submit s t = some s1 := hs
    rw [e] at hs1
    injection hs1 with hs1
    rw [← hs1]; exact h2
  | work i => exact accounted_work returns s s1 b i h hs

theorem accounted_run (returns : TaskPtr → Bool) (acts : List Action) :
    ∀ (s : PoolSys), s.accounted acts.length →
      (∀ t, Action.submit t ∈ acts → t ≠ 0) →
      (sys_run returns s acts).accounted 0 := by
  induction acts with
  | nil => intro s h _; exact h
  | cons a rest ih =>
    intro s h ha
    have hrest : ∀ t, Action.submit t ∈ rest → t ≠ 0 :=
      fun t ht => ha t (List.mem_cons_of_mem _ ht)
    have h1 : s.accounted (rest.length + 1) := h
    cases hs : sys_step returns s a with
    | none =>
      have e : sys_run returns s (a :: rest) = sys_run returns s rest := by
        simp [sys_run, hs]
      rw [e]; exact ih s (accounted_mono s _ h1) hrest
    | some s1 =>
      have e : sys_run returns s (a :: rest) = sys_run returns s1 rest := by
        simp [sys_run, hs]
      rw [e]
      exact ih s1 (accounted_step returns s s1 _ a h1
        (fun t ht => ha t (by rw [ht]; exact List.mem_cons_self _ _)) hs) hrest

theorem sys_init_accounted (garbage : ThreadPool) (n b : Nat) (heap : TaskPtr → Task)
    (mem : Mem) (hn : n + b < UINT_MOD) :
    ∃ s0, sys_init garbage n heap mem = some s0 ∧ s0.accounted b := by
  obtain ⟨e, p1, tr, h1, h2, h3, h4, h5, h6⟩ :=
    tp_init_loop_ok id n 0 0
      { garbage with running := true, waitingTasks := q_constructEmpty WORD_SIZE,
                     threads := q_constructEmpty WORD_SIZE }
      [Ev.write Field.running, Ev.condInit Cond.taskAvailable,
       Ev.mutexInit Mutex.taskMutex, Ev.write Field.waitingTasks, Ev.write Field.threads]
      (by simp [q_constructEmpty, list_constructEmpty, SIZE_MOD])
  have he : e = 0 := h2 rfl
  subst he
  have hinit : tp_init (InitEnv.ok id) (some garbage) n =
      some { rc := 0, tp := some { p1 with numIdleThreads := n },
             trace := tr ++ [Ev.write Field.numIdleThreads] } := by
    simp only [tp_init, InitEnv.ok, ne_eq, not_true_eq_false, if_false, List.cons_append,
      List.nil_append]
    rw [h1]
  have hsys : sys_init garbage n heap mem =
      some { tp := { p1 with numIdleThreads := n },
             workers := List.replicate n WorkerState.idle, heap := heap, mem := mem } := by
    simp only [sys_init, hinit]
  have hnodes : p1.threads.elements.nodes.length = n := by
    simp [h5, q_constructEmpty, list_constructEmpty]
  have hlen : p1.threads.elements.length = n := by
    have h7 : p1.threads.elements.length = n % SIZE_MOD := by
      simpa [q_constructEmpty, list_constructEmpty] using h6
    rw [h7]
    exact Nat.mod_eq_of_lt (uint_lt_size n (by omega))
  have hw : p1.waitingTasks = q_constructEmpty WORD_SIZE := by simpa using h4
  have hbusy : (List.replicate n WorkerState.idle).countP WorkerState.isBusy = 0 := by
    rw [List.countP_eq_zero]
    intro w hw1
    rw [List.eq_of_mem_replicate hw1]
    simp [WorkerState.isBusy]
  refine ⟨_, hsys, ?_, ?_, ?_, ?_, ?_, ?_, ?_, ?_⟩
  · show n + (List.replicate n WorkerState.idle).countP WorkerState.isBusy =
      (List.replicate n WorkerState.idle).length
    rw [hbusy, List.length_replicate, Nat.add_zero]
  · show p1.threads.elements.nodes.length = (List.replicate n WorkerState.idle).length
    rw [List.length_replicate]; exact hnodes
  · show p1.threads.elements.length = (List.replicate n WorkerState.idle).length
    rw [List.length_replicate]; exact hlen
  · show (List.replicate n WorkerState.idle).length + b < UINT_MOD
    rw [List.length_replicate]; exact hn
  · show p1.waitingTasks.elements.length = p1.waitingTasks.elements.nodes.length
    rw [hw]; rfl
  · show p1.waitingTasks.elements.nodes.length + b < UINT_MOD
    rw [hw]
    show 0 + b < UINT_MOD
    omega
  · show ∀ t ∈ p1.waitingTasks.elements.nodes, t ≠ 0
    rw [hw]
    intro t ht
    exact absurd ht (List.not_mem_nil t)
  · intro t ht
    have := List.eq_of_mem_replicate ht
    exact absurd this (by simp)

/-! ## Observations of submissions, claims and executions -/

theorem set_same {α : Type} (l : List α) :
    ∀ (i : Nat) (x : α), l.get? i = some x → l.set i x = l := by
  induction l with
  | nil => intro i x _; rfl
  | cons a l ih =>
    intro i x h
    cases i with
    | zero =>
      simp only [List.get?_cons_zero, Option.some.injEq] at h
      rw [h]; rfl
    | succ i =>
      simp only [List.get?_cons_succ] at h
      simp only [List.set_cons_succ, ih i x h]

theorem get_set_eq {α : Type} (l : List α) :
    ∀ (i : Nat) (x y : α), l.get? i = some x → (l.set i y).get? i = some y := by
  induction l with
  | nil => intro i x y h; simp at h
  | cons a l ih =>
    intro i x y h
    cases i with
    | zero => rfl
    | succ i =>
      simp only [List.get?_cons_succ] at h
      simp only [List.set_cons_succ, List.get?_cons_succ]
      exact ih i x y h

theorem get_set_ne {α : Type} (l : List α) :
    ∀ (i j : Nat) (y : α), i ≠ j → (l.set j y).get? i = l.get? i := by
  induction l with
  | nil => intro i j y _; rfl
  | cons a l ih =>
    intro i j y h
    cases j with
    | zero =>
      cases i with
      | zero => exact absurd rfl h
      | succ i => rfl
    | succ j =>
      cases i with
      | zero => rfl
      | succ i =>
        simp only [List.set_cons_succ, List.get?_cons_succ]
        exact ih i j y (fun e => h (by rw [e]))

theorem get_map {α β : Type} (f : α → β) (l : List α) :
    ∀ (i : Nat) (w : α), l.get? i = some w → (l.map f).get? i = some (f w) := by
  induction l with
  | nil => intro i w h; simp at h
  | cons a l ih =>
    intro i w h
    cases i with
    | zero =>
      simp only [List.get?_cons_zero, Option.some.injEq] at h
      rw [← h]; rfl
    | succ i =>
      simp only [List.get?_cons_succ] at h
      simp only [List.map_cons, List.get?_cons_succ]
      exact ih i w h

theorem held_get (s : PoolSys) (i : Nat) (w : WorkerState) (h : s.workers.get? i = some w) :
    s.held.get? i = some w.task :=
  get_map WorkerState.task s.workers i w h

theorem held_set_count (L : List (Option TaskPtr)) (j : Nat) (x y : Option TaskPtr)
    (h : L.get? j = some x) (t : TaskPtr) :
    (L.set j y).count (some t) + (if x = some t then 1 else 0) =
      L.count (some t) + (if y = some t then 1 else 0) := by
  have hc := countP_set_get (fun o => o == some t) L j x y h
  simp only [beq_iff_eq] at hc
  exact hc

theorem held_set_flag (L : List (Option TaskPtr)) (j : Nat) (x y : Option TaskPtr)
    (h : L.get? j = some x) (t : TaskPtr) (i : Nat) :
    (if (L.set j y).get? i = some (some t) then 1 else 0) +
        (if j = i ∧ x = some t then 1 else 0) =
      (if L.get? i = some (some t) then 1 else 0) +
        (if j = i ∧ y = some t then 1 else 0) := by
  by_cases hij : j = i
  · subst hij
    rw [get_set_eq L j x y h, h]
    simp only [Option.some.injEq, true_and]
    omega
  · rw [get_set_ne L i j y (fun e => hij e.symm)]
    simp only [hij, false_and, if_false]

theorem workerFunction_claim_nil (p : ThreadPool) (trace : List Ev)
    (hq : ¬ q_length p.waitingTasks = 0) (hn : p.waitingTasks.elements.nodes = []) :
    workerFunction_claim WorkerEnv.ok p trace =
      { state := WorkerState.stopped EFAULT,
        tp := { p with numIdleThreads := (p.numIdleThreads + UINT_MOD - 1) % UINT_MOD },
        trace := trace ++ [Ev.write Field.numIdleThreads] } := by
  rw [workerFunction_claim_ok, if_neg (fun h => hq h.2), if_neg (fun h => hq h.2), hn]

theorem idle_write_nodes (p : ThreadPool) (k : Nat) :
    ({ p with numIdleThreads := k } : ThreadPool).waitingTasks.elements.nodes =
      p.waitingTasks.elements.nodes := rfl

theorem claim_result_nodes (st : WorkerState) (p : ThreadPool) (k : Nat) (tr : List Ev) :
    ({ state := st, tp := { p with numIdleThreads := k }, trace := tr } :
      WorkerResult).tp.waitingTasks.elements.nodes = p.waitingTasks.elements.nodes := rfl

theorem workerFunction_claim_cases (p : ThreadPool) (trace : List Ev) :
    ((workerFunction_claim WorkerEnv.ok p trace).state.task = none ∧
      claimObs 0 (workerFunction_claim WorkerEnv.ok p trace) = [] ∧
      (workerFunction_claim WorkerEnv.ok p trace).tp.waitingTasks.elements.nodes =
        p.waitingTasks.elements.nodes) ∨
    (∃ t, (workerFunction_claim WorkerEnv.ok p trace).state = WorkerState.busy t ∧
      p.waitingTasks.elements.nodes =
        t :: (workerFunction_claim WorkerEnv.ok p trace).tp.waitingTasks.elements.nodes) := by
  by_cases hq : q_length p.waitingTasks = 0
  · obtain ⟨e1, e2⟩ := workerFunction_claim_empty p trace hq
    left
    rw [e1]
    refine ⟨?_, ?_, rfl⟩
    · cases hs : (workerFunction_claim WorkerEnv.ok p trace).state with
      | busy t => rw [hs] at e2; simp [WorkerState.isBusy] at e2
      | idle => rfl
      | waiting => rfl
      | stopped e => rfl
    · unfold claimObs
      cases hs : (workerFunction_claim WorkerEnv.ok p trace).state with
      | busy t => rw [hs] at e2; simp [WorkerState.isBusy] at e2
      | idle => rfl
      | waiting => rfl
      | stopped e => rfl
  · have hcases : p.waitingTasks.elements.nodes = [] ∨
        ∃ t rest, p.waitingTasks.elements.nodes = t :: rest := by
      cases p.waitingTasks.elements.nodes with
      | nil => exact Or.inl rfl
      | cons t rest => exact Or.inr ⟨t, rest, rfl⟩
    rcases hcases with hn | ⟨t, rest, hn⟩
    · left
      rw [workerFunction_claim_nil p trace hq hn]
      exact ⟨rfl, rfl, claim_result_nodes _ p _ _⟩
    · right
      rw [workerFunction_claim_cons p trace t rest hn hq]
      exact ⟨t, rfl, hn⟩

theorem claimObs_none (i : Nat) (r : WorkerResult) (h : r.state.task = none) :
    claimObs i r = [] := by
  unfold claimObs
  cases hs : r.state with
  | busy t => rw [hs] at h; exact absurd h (by simp [WorkerState.task])
  | idle => rfl
  | waiting => rfl
  | stopped e => rfl

theorem claimObs_busy (i : Nat) (r : WorkerResult) (t : TaskPtr)
    (h : r.state = WorkerState.busy t) : claimObs i r = [Obs.claimed i t] := by
  unfold claimObs
  rw [h]

theorem sys_submit_shape (s : PoolSys) (t : TaskPtr) :
    ∃ tp1 ws, sys_submit s t =
        some { tp := tp1, workers := ws, heap := s.heap, mem := s.mem } ∧
      tp1.waitingTasks.elements.nodes = s.tp.waitingTasks.elements.nodes ++ [t] ∧
      (ws = s.workers ∨ ws = s.workers ++ [WorkerState.idle]) := by
  by_cases h0 : s.tp.numIdleThreads = 0
  · exact ⟨_, _, sys_submit_spawn s t h0, rfl, Or.inr rfl⟩
  · exact ⟨_, _, sys_submit_keep s t h0, rfl, Or.inl rfl⟩

theorem sys_claim_shape (s : PoolSys) (i : Nat) (trace : List Ev) :
    (claimObs i (workerFunction_claim WorkerEnv.ok s.tp trace) = [] ∧
      (workerFunction_claim WorkerEnv.ok s.tp trace).state.task = none ∧
      (workerFunction_claim WorkerEnv.ok s.tp trace).tp.waitingTasks.elements.nodes =
        s.tp.waitingTasks.elements.nodes) ∨
    (∃ t, claimObs i (workerFunction_claim WorkerEnv.ok s.tp trace) = [Obs.claimed i t] ∧
      (workerFunction_claim WorkerEnv.ok s.tp trace).state.task = some t ∧
      s.tp.waitingTasks.elements.nodes =
        t :: (workerFunction_claim WorkerEnv.ok s.tp trace).tp.waitingTasks.elements.nodes) := by
  rcases workerFunction_claim_cases s.tp trace with ⟨h1, _, h3⟩ | ⟨t, h1, h2⟩
  · exact Or.inl ⟨claimObs_none i _ h1, h1, h3⟩
  · refine Or.inr ⟨t, claimObs_busy i _ t h1, ?_, h2⟩
    rw [h1]; rfl

/-- The shape of a step of worker `i`: it is not possible and shows nothing, or it
replaces the state of worker `i`, and either shows nothing and neither holds a
task before or after nor changes the waiting tasks, or is the claim of the task at
the front of the waiting tasks, or is the execution of the task the worker held. -/
theorem sys_work_shape (returns : TaskPtr → Bool) (s : PoolSys) (i : Nat) :
    (sys_work returns s i = none ∧ sys_obs returns s (Action.work i) = []) ∨
    (∃ tp1 w w1 heap1 mem1, s.workers.get? i = some w ∧
      sys_work returns s i =
        some { tp := tp1, workers := s.workers.set i w1, heap := heap1, mem := mem1 } ∧
      ((sys_obs returns s (Action.work i) = [] ∧ w.task = none ∧ w1.task = none ∧
          tp1.waitingTasks.elements.nodes = s.tp.waitingTasks.elements.nodes) ∨
       (∃ t, sys_obs returns s (Action.work i) = [Obs.claimed i t] ∧ w.task = none ∧
          w1.task = some t ∧ s.tp.waitingTasks.elements.nodes =
            t :: tp1.waitingTasks.elements.nodes) ∨
       (∃ t, sys_obs returns s (Action.work i) = [Obs.executed i t] ∧ w.task = some t ∧
          w1.task = none ∧
          tp1.waitingTasks.elements.nodes = s.tp.waitingTasks.elements.nodes))) := by
  cases hget : s.workers.get? i with
  | none =>
    left
    simp only [sys_work, sys_obs, hget, and_self]
  | some w =>
    cases w with
    | idle =>
      right
      have hobs : sys_obs returns s (Action.work i) =
          claimObs i (workerFunction_claim WorkerEnv.ok s.tp [Ev.lock Mutex.taskMutex]) := by
        simp only [sys_obs, hget]
        rfl
      refine ⟨_, WorkerState.idle, _, _, _, rfl, sys_work_idle returns s i hget, ?_⟩
      rw [hobs]
      rcases sys_claim_shape s i [Ev.lock Mutex.taskMutex] with ⟨h1, h2, h3⟩ | ⟨t, h1, h2, h3⟩
      · exact Or.inl ⟨h1, rfl, h2, h3⟩
      · exact Or.inr (Or.inl ⟨t, h1, rfl, h2, h3⟩)
    | waiting =>
      right
      have hobs : sys_obs returns s (Action.work i) =
          claimObs i (workerFunction_claim WorkerEnv.ok s.tp
            [Ev.wait Cond.taskAvailable Mutex.taskMutex]) := by
        simp only [sys_obs, hget]
        rfl
      refine ⟨_, WorkerState.waiting, _, _, _, rfl, sys_work_waiting returns s i hget, ?_⟩
      rw [hobs]
      rcases sys_claim_shape s i [Ev.wait Cond.taskAvailable Mutex.taskMutex] with
        ⟨h1, h2, h3⟩ | ⟨t, h1, h2, h3⟩
      · exact Or.inl ⟨h1, rfl, h2, h3⟩
      · exact Or.inr (Or.inl ⟨t, h1, rfl, h2, h3⟩)
    | stopped e =>
      left
      simp only [sys_work, sys_obs, hget, and_self]
    | busy t =>
      by_cases hr : returns t = true
      · cases hfin : workerFunction_finish WorkerEnv.ok TaskEnv.ok s.tp
            (derefTask s.heap t) s.mem with
        | none =>
          left
          simp only [sys_work, sys_obs, hget, hr, if_true, hfin, and_self]
        | some r =>
          right
          have hstep : sys_work returns s i =
              some { tp := r.tp, workers := s.workers.set i r.state,
                     heap := (match r.task with
                       | some u => fun q => if q = t then u else s.heap q
                       | none => s.heap),
                     mem := r.mem } := by
            simp only [sys_work, hget, hr, if_true, hfin]
          have hobs : sys_obs returns s (Action.work i) = [Obs.executed i t] := by
            simp only [sys_obs, hget, hr, if_true, hfin]
          refine ⟨_, WorkerState.busy t, _, _, _, rfl, hstep, Or.inr (Or.inr ⟨t, hobs, rfl, ?_⟩)⟩
          rcases workerFunction_finish_shape s.tp _ s.mem r hfin with ⟨h1, _, h3⟩ | ⟨h1, _, h3⟩
          · rw [h1, h3]
            exact ⟨rfl, idle_write_nodes s.tp _⟩
          · rw [h1, h3]
            exact ⟨rfl, rfl⟩
      · left
        simp only [sys_work, sys_obs, hget, hr, Bool.false_eq_true, if_false, and_self]

theorem sys_held (tp : ThreadPool) (ws : List WorkerState) (heap : TaskPtr → Task)
    (mem : Mem) :
    ({ tp := tp, workers := ws, heap := heap, mem := mem } : PoolSys).held =
      ws.map WorkerState.task := rfl

theorem sys_nodes (tp : ThreadPool) (ws : List WorkerState) (heap : TaskPtr → Task)
    (mem : Mem) :
    ({ tp := tp, workers := ws, heap := heap, mem := mem } :
      PoolSys).tp.waitingTasks.elements.nodes = tp.waitingTasks.elements.nodes := rfl

theorem held_set (s : PoolSys) (i : Nat) (w : WorkerState) :
    (s.workers.set i w).map WorkerState.task = s.held.set i w.task := by
  unfold PoolSys.held
  exact List.map_set

theorem sys_next_some (returns : TaskPtr → Bool) (s s1 : PoolSys) (a : Action)
    (h : sys_step returns s a = some s1) : sys_next returns s a = s1 := by
  unfold sys_next
  rw [h]

theorem sys_next_none (returns : TaskPtr → Bool) (s : PoolSys) (a : Action)
    (h : sys_step returns s a = none) : sys_next returns s a = s := by
  unfold sys_next
  rw [h]

/-- The shape of a move, on the waiting tasks and on the tasks the workers hold. -/
theorem sys_step_shape (returns : TaskPtr → Bool) (s : PoolSys) (a : Action) :
    (sys_obs returns s a = [] ∧
      (sys_next returns s a).tp.waitingTasks.elements.nodes =
        s.tp.waitingTasks.elements.nodes ∧
      (sys_next returns s a).held = s.held) ∨
    (∃ u, sys_obs returns s a = [Obs.submitted u] ∧
      (sys_next returns s a).tp.waitingTasks.elements.nodes =
        s.tp.waitingTasks.elements.nodes ++ [u] ∧
      ((sys_next returns s a).held = s.held ∨
        (sys_next returns s a).held = s.held ++ [none])) ∨
    (∃ i u, sys_obs returns s a = [Obs.claimed i u] ∧
      s.tp.waitingTasks.elements.nodes =
        u :: (sys_next returns s a).tp.waitingTasks.elements.nodes ∧
      s.held.get? i = some none ∧
      (sys_next returns s a).held = s.held.set i (some u)) ∨
    (∃ i u, sys_obs returns s a = [Obs.executed i u] ∧
      (sys_next returns s a).tp.waitingTasks.elements.nodes =
        s.tp.waitingTasks.elements.nodes ∧
      s.held.get? i = some (some u) ∧
      (sys_next returns s a).held = s.held.set i none) := by
  cases a with
  | submit u =>
    obtain ⟨tp1, ws, hsub, hn, hws⟩ := sys_submit_shape s u
    have hnext := sys_next_some returns s _ (Action.submit u) hsub
    have hobs : sys_obs returns s (Action.submit u) = [Obs.submitted u] := by
      simp only [sys_obs, hsub]
    right; left
    rw [hnext, sys_held, sys_nodes]
    refine ⟨u, hobs, hn, ?_⟩
    rcases hws with hws | hws
    · left; rw [hws]; rfl
    · right; rw [hws, List.map_append]; rfl
  | work i =>
    rcases sys_work_shape returns s i with ⟨h1, h2⟩ | ⟨tp1, w, w1, heap1, mem1, hget, hstep, h⟩
    · left
      rw [sys_next_none returns s (Action.work i) h1]
      exact ⟨h2, rfl, rfl⟩
    · have hnext := sys_next_some returns s _ (Action.work i) hstep
      have hh := held_get s i w hget
      rw [hnext, sys_held, sys_nodes, held_set]
      rcases h with ⟨h1, h2, h3, h4⟩ | ⟨t, h1, h2, h3, h4⟩ | ⟨t, h1, h2, h3, h4⟩
      · left
        rw [h2] at hh
        rw [h3]
        exact ⟨h1, h4, set_same _ i none hh⟩
      · right; right; left
        rw [h2] at hh
        rw [h3]
        exact ⟨i, t, h1, h4, hh, rfl⟩
      · right; right; right
        rw [h2] at hh
        rw [h3]
        exact ⟨i, t, h1, h4, hh, rfl⟩

theorem held_append_flag (H : List (Option TaskPtr)) (i : Nat) (t : TaskPtr) :
    (H ++ [none]).get? i = some (some t) ↔ H.get? i = some (some t) := by
  induction H generalizing i with
  | nil =>
    cases i with
    | zero => simp
    | succ i => simp
  | cons x H ih =>
    cases i with
    | zero => simp
    | succ i =>
      simp only [List.cons_append, List.get?_cons_succ]
      exact ih i

theorem sys_step_counts (returns : TaskPtr → Bool) (s : PoolSys) (a : Action)
    (t : TaskPtr) :
    (sys_obs returns s a).count (Obs.submitted t) +
        s.tp.waitingTasks.elements.nodes.count t =
      (sys_obs returns s a).countP (Obs.claims t) +
        (sys_next returns s a).tp.waitingTasks.elements.nodes.count t ∧
    (sys_obs returns s a).countP (Obs.claims t) + s.held.count (some t) =
      (sys_obs returns s a).countP (Obs.executes t) +
        (sys_next returns s a).held.count (some t) ∧
    ∀ i, (sys_obs returns s a).count (Obs.claimed i t) +
        (if s.held.get? i = some (some t) then 1 else 0) =
      (sys_obs returns s a).count (Obs.executed i t) +
        (if (sys_next returns s a).held.get? i = some (some t) then 1 else 0) := by
  rcases sys_step_shape returns s a with ⟨h1, h2, h3⟩ | ⟨u, h1, h2, h3⟩ |
    ⟨j, u, h1, h2, h3, h4⟩ | ⟨j, u, h1, h2, h3, h4⟩
  · rw [h1, h2, h3]
    exact ⟨rfl, rfl, fun _ => rfl⟩
  · rw [h1, h2]
    have hH : (sys_next returns s a).held.count (some t) = s.held.count (some t) ∧
        ∀ i, (sys_next returns s a).held.get? i = some (some t) ↔
          s.held.get? i = some (some t) := by
      rcases h3 with h3 | h3
      · rw [h3]; exact ⟨rfl, fun _ => Iff.rfl⟩
      · rw [h3]
        refine ⟨?_, fun i => held_append_flag s.held i t⟩
        simp only [List.count_singleton, List.count_cons, List.countP_cons, List.countP_nil,
      List.count_nil, List.count_append, beq_iff_eq, Obs.claims, Obs.executes, decide_eq_true_eq,
      reduceCtorEq, Obs.claimed.injEq, Obs.executed.injEq, Obs.submitted.injEq, if_false,
      Bool.false_eq_true, Nat.zero_add, Nat.add_zero]
    rw [hH.1]
    simp only [hH.2]
    simp only [List.count_singleton, List.count_cons, List.countP_cons, List.countP_nil,
      List.count_nil, List.count_append, beq_iff_eq, Obs.claims, Obs.executes, decide_eq_true_eq,
      reduceCtorEq, Obs.claimed.injEq, Obs.executed.injEq, Obs.submitted.injEq, if_false,
      Bool.false_eq_true, Nat.zero_add, Nat.add_zero]
    refine ⟨by omega, trivial, fun _ => trivial⟩
  · rw [h1, h2, h4]
    have hc := held_set_count s.held j none (some u) h3 t
    have hf := held_set_flag s.held j none (some u) h3 t
    simp only [Option.some.injEq, reduceCtorEq, if_false, Nat.add_zero, and_false] at hc hf
    simp only [List.count_singleton, List.count_cons, List.countP_cons, List.countP_nil,
      List.count_nil, List.count_append, beq_iff_eq, Obs.claims, Obs.executes, decide_eq_true_eq,
      reduceCtorEq, Obs.claimed.injEq, Obs.executed.injEq, Obs.submitted.injEq, if_false,
      Bool.false_eq_true, Nat.zero_add, Nat.add_zero]
    refine ⟨by omega, by omega, ?_⟩
    intro i
    have hfi := hf i
    omega
  · rw [h1, h2, h4]
    have hc := held_set_count s.held j (some u) none h3 t
    have hf := held_set_flag s.held j (some u) none h3 t
    simp only [Option.some.injEq, reduceCtorEq, if_false, Nat.add_zero, and_false] at hc hf
    simp only [List.count_singleton, List.count_cons, List.countP_cons, List.countP_nil,
      List.count_nil, List.count_append, beq_iff_eq, Obs.claims, Obs.executes, decide_eq_true_eq,
      reduceCtorEq, Obs.claimed.injEq, Obs.executed.injEq, Obs.submitted.injEq, if_false,
      Bool.false_eq_true, Nat.zero_add, Nat.add_zero]
    refine ⟨trivial, by omega, ?_⟩
    intro i
    have hfi := hf i
    omega

theorem sys_run_next (returns : TaskPtr → Bool) (s : PoolSys) (a : Action)
    (rest : List Action) :
    sys_run returns s (a :: rest) = sys_run returns (sys_next returns s a) rest := by
  simp only [sys_run, sys_next]
  cases sys_step returns s a <;> rfl

theorem sys_run_counts (returns : TaskPtr → Bool) (acts : List Action) (t : TaskPtr) :
    ∀ s : PoolSys,
      ((sys_log returns s acts).count (Obs.submitted t) +
          s.tp.waitingTasks.elements.nodes.count t =
        (sys_log returns s acts).countP (Obs.claims t) +
          (sys_run returns s acts).tp.waitingTasks.elements.nodes.count t) ∧
      ((sys_log returns s acts).countP (Obs.claims t) + s.held.count (some t) =
        (sys_log returns s acts).countP (Obs.executes t) +
          (sys_run returns s acts).held.count (some t)) ∧
      ∀ i, (sys_log returns s acts).count (Obs.claimed i t) +
          (if s.held.get? i = some (some t) then 1 else 0) =
        (sys_log returns s acts).count (Obs.executed i t) +
          (if (sys_run returns s acts).held.get? i = some (some t) then 1 else 0) := by
  induction acts with
  | nil => intro s; exact ⟨rfl, rfl, fun _ => rfl⟩
  | cons a rest ih =>
    intro s
    obtain ⟨h1, h2, h3⟩ := sys_step_counts returns s a t
    obtain ⟨k1, k2, k3⟩ := ih (sys_next returns s a)
    have hlog : sys_log returns s (a :: rest) =
        sys_obs returns s a ++ sys_log returns (sys_next returns s a) rest := rfl
    rw [hlog, sys_run_next]
    simp only [List.count_append, List.countP_append]
    refine ⟨by omega, by omega, ?_⟩
    intro i
    have h3i := h3 i
    have k3i := k3 i
    omega

theorem sys_init_shape (garbage : ThreadPool) (n : Nat) (heap : TaskPtr → Task)
    (mem : Mem) :
    ∃ s0, sys_init garbage n heap mem = some s0 ∧
      s0.tp.waitingTasks.elements.nodes = [] ∧
      s0.workers = List.replicate n WorkerState.idle := by
  obtain ⟨e, p1, tr, h1, h2, h3, h4, h5, h6⟩ :=
    tp_init_loop_ok id n 0 0
      { garbage with running := true, waitingTasks := q_constructEmpty WORD_SIZE,
                     threads := q_constructEmpty WORD_SIZE }
      [Ev.write Field.running, Ev.condInit Cond.taskAvailable,
       Ev.mutexInit Mutex.taskMutex, Ev.write Field.waitingTasks, Ev.write Field.threads]
      (by simp [q_constructEmpty, list_constructEmpty, SIZE_MOD])
  have he : e = 0 := h2 rfl
  subst he
  have hinit : tp_init (InitEnv.ok id) (some garbage) n =
      some { rc := 0, tp := some { p1 with numIdleThreads := n },
             trace := tr ++ [Ev.write Field.numIdleThreads] } := by
    simp only [tp_init, InitEnv.ok, ne_eq, not_true_eq_false, if_false, List.cons_append,
      List.nil_append]
    rw [h1]
  have hsys : sys_init garbage n heap mem =
      some { tp := { p1 with numIdleThreads := n },
             workers := List.replicate n WorkerState.idle, heap := heap, mem := mem } := by
    simp only [sys_init, hinit]
  have hw : p1.waitingTasks = q_constructEmpty WORD_SIZE := by simpa using h4
  refine ⟨_, hsys, ?_, rfl⟩
  show p1.waitingTasks.elements.nodes = []
  rw [hw]; rfl

theorem held_flag_iff (ws : List WorkerState) (t : TaskPtr) :
    ∀ i : Nat, (ws.map WorkerState.task).get? i = some (some t) ↔
      ws.get? i = some (WorkerState.busy t) := by
  induction ws with
  | nil => intro i; simp
  | cons w ws ih =>
    intro i
    cases i with
    | zero => cases w <;> simp [WorkerState.task]
    | succ i =>
      simp only [List.map_cons, List.get?_cons_succ]
      exact ih i

theorem held_replicate (n : Nat) (t : TaskPtr) :
    ((List.replicate n WorkerState.idle).map WorkerState.task).count (some t) = 0 ∧
    ∀ i, ¬ ((List.replicate n WorkerState.idle).map WorkerState.task).get? i =
      some (some t) := by
  constructor
  · rw [List.count_eq_zero]
    intro h
    obtain ⟨w, hw, e⟩ := List.mem_map.1 h
    rw [List.eq_of_mem_replicate hw] at e
    exact absurd e (by simp [WorkerState.task])
  · intro i h
    rw [held_flag_iff] at h
    have := List.eq_of_mem_replicate (mem_of_get _ i _ h)
    exact absurd this (by simp)

/-- C14: at-most-once execution. For every start value of the pool variable, every
number of initial threads, every schedule of `tp_enqueueImmediate` calls and
fault-free worker steps, and every task `t`: the fault-free `tp_init` succeeds, and
in the observations of the schedule (1) the submissions of `t` are its claims plus
its entries still in `waitingTasks`, so every entry is removed by exactly one
claim; (2) the claims of `t` are the completed `task_execute` calls on `t` plus the
workers that hold `t`; (3) for every worker `i`, its claims of `t` are its
completed `task_execute` calls on `t`, plus one when it holds `t`, so a claimed
task is executed by the worker that claimed it only; (4) the `task_execute` calls
on `t`, completed or in progress, never exceed the submissions of `t`: a task
submitted once is executed at most once. -/
theorem at_most_once (garbage : ThreadPool) (n : Nat) (heap : TaskPtr → Task) (mem : Mem)
    (returns : TaskPtr → Bool) (acts : List Action) (t : TaskPtr) :
    ∃ s0, sys_init garbage n heap mem = some s0 ∧
      (sys_log returns s0 acts).count (Obs.submitted t) =
        (sys_log returns s0 acts).countP (Obs.claims t) +
          (sys_run returns s0 acts).tp.waitingTasks.elements.nodes.count t ∧
      (sys_log returns s0 acts).countP (Obs.claims t) =
        (sys_log returns s0 acts).countP (Obs.executes t) +
          (sys_run returns s0 acts).held.count (some t) ∧
      (∀ i, (sys_log returns s0 acts).count (Obs.claimed i t) =
        (sys_log returns s0 acts).count (Obs.executed i t) +
          (if (sys_run returns s0 acts).workers.get? i = some (WorkerState.busy t)
            then 1 else 0)) ∧
      (sys_log returns s0 acts).countP (Obs.executes t) +
          (sys_run returns s0 acts).held.count (some t) ≤
        (sys_log returns s0 acts).count (Obs.submitted t) := by
  obtain ⟨s0, h0, hn, hw⟩ := sys_init_shape garbage n heap mem
  obtain ⟨h1, h2, h3⟩ := sys_run_counts returns acts t s0
  have hheld : s0.held = (List.replicate n WorkerState.idle).map WorkerState.task := by
    unfold PoolSys.held
    rw [hw]
  obtain ⟨r1, r2⟩ := held_replicate n t
  rw [hn] at h1
  rw [hheld, r1] at h2
  simp only [List.count_nil, Nat.add_zero] at h1 h2
  refine ⟨s0, h0, h1, h2, ?_, by omega⟩
  intro i
  have h3i := h3 i
  rw [hheld, if_neg (r2 i)] at h3i
  have hiff : (sys_run returns s0 acts).held.get? i = some (some t) ↔
      (sys_run returns s0 acts).workers.get? i = some (WorkerState.busy t) :=
    held_flag_iff (sys_run returns s0 acts).workers t i
  have hflag : (if (sys_run returns s0 acts).held.get? i = some (some t) then 1 else 0) =
      (if (sys_run returns s0 acts).workers.get? i = some (WorkerState.busy t)
        then 1 else 0) := by
    by_cases hb : (sys_run returns s0 acts).workers.get? i = some (WorkerState.busy t)
    · rw [if_pos hb, if_pos (hiff.2 hb)]
    · rw [if_neg hb, if_neg (fun h => hb (hiff.1 h))]
  rw [hflag] at h3i
  omega

theorem at_most_once_witness :
    (∃ s0, sys_init garbagePool 1 sampleHeap zeroMem = some s0 ∧
      (sys_log alwaysReturns s0
          [Action.submit 4, Action.work 0, Action.work 0, Action.work 0]).countP
            (Obs.executes 4) +
          (sys_run alwaysReturns s0
            [Action.submit 4, Action.work 0, Action.work 0, Action.work 0]).held.count
              (some 4) ≤
        (sys_log alwaysReturns s0
          [Action.submit 4, Action.work 0, Action.work 0, Action.work 0]).count
            (Obs.submitted 4)) ∧
    sys_log alwaysReturns (oneThread sampleHeap zeroMem)
        [Action.submit 4, Action.work 0, Action.work 0, Action.work 0] =
      [Obs.submitted 4, Obs.claimed 0 4, Obs.executed 0 4] := by
  obtain ⟨s0, h0, _, _, _, h4⟩ := at_most_once garbagePool 1 sampleHeap zeroMem alwaysReturns
    [Action.submit 4, Action.work 0, Action.work 0, Action.work 0] 4
  exact ⟨⟨s0, h0, h4⟩, rfl⟩

/-! ## The polling loops and the sentinel -/

theorem pollLoop_completed {E : Type} (body : E → Nat → Task → BodyResult)
    (marked : E → Bool) (errno : Nat) (s : Task) (k : Nat) (its : List E)
    (h : s.completed = true) :
    pollLoop body marked errno s k its =
      { errno := errno, sentinel := s, iterations := k, exited := true } := by
  cases its with
  | nil => simp only [pollLoop, h]
  | cons e rest => simp only [pollLoop, h, if_true]

theorem pollLoop_step {E : Type} (body : E → Nat → Task → BodyResult)
    (marked : E → Bool) (errno : Nat) (s : Task) (k : Nat) (e : E) (rest : List E)
    (h : ¬ s.completed = true) :
    pollLoop body marked errno s k (e :: rest) =
      if (body e errno s).broke = true then
        { errno := (body e errno s).errno,
          sentinel := if marked e = true then { (body e errno s).sentinel with completed := true }
                      else (body e errno s).sentinel,
          iterations := k + 1, exited := true }
      else
        pollLoop body marked (body e errno s).errno
          (if marked e = true then { (body e errno s).sentinel with completed := true }
           else (body e errno s).sentinel) (k + 1) rest := by
  have h1 : s.completed = false := by simpa using h
  simp only [pollLoop, h1, Bool.false_eq_true, if_false]

theorem pollLoop_marked {E : Type} (body : E → Nat → Task → BodyResult)
    (marked : E → Bool) (e : E) (he : marked e = true) (rest : List E) :
    ∀ (pre : List E) (errno : Nat) (s : Task) (k : Nat),
      pollLoop body marked errno s k (pre ++ e :: rest) =
        pollLoop body marked errno s k (pre ++ [e]) ∧
      (pollLoop body marked errno s k (pre ++ [e])).exited = true ∧
      (pollLoop body marked errno s k (pre ++ [e])).iterations ≤ k + pre.length + 1 := by
  intro pre
  induction pre with
  | nil =>
    intro errno s k
    simp only [List.nil_append, List.length_nil, Nat.add_zero]
    by_cases hc : s.completed = true
    · rw [pollLoop_completed body marked errno s k _ hc,
        pollLoop_completed body marked errno s k _ hc]
      exact ⟨rfl, rfl, Nat.le_succ k⟩
    · rw [pollLoop_step body marked errno s k e rest hc,
        pollLoop_step body marked errno s k e [] hc]
      by_cases hb : (body e errno s).broke = true
      · rw [if_pos hb, if_pos hb]
        exact ⟨rfl, rfl, Nat.le_refl _⟩
      · rw [if_neg hb, if_neg hb, if_pos he,
          pollLoop_completed body marked _ _ (k + 1) rest rfl,
          pollLoop_completed body marked _ _ (k + 1) [] rfl]
        exact ⟨rfl, rfl, Nat.le_refl _⟩
  | cons x pre ih =>
    intro errno s k
    simp only [List.cons_append, List.length_cons]
    by_cases hc : s.completed = true
    · rw [pollLoop_completed body marked errno s k _ hc,
        pollLoop_completed body marked errno s k _ hc]
      exact ⟨rfl, rfl, by show k ≤ k + (pre.length + 1) + 1; omega⟩
    · rw [pollLoop_step body marked errno s k x _ hc,
        pollLoop_step body marked errno s k x _ hc]
      by_cases hb : (body x errno s).broke = true
      · rw [if_pos hb, if_pos hb]
        exact ⟨rfl, rfl, by show k + 1 ≤ k + (pre.length + 1) + 1; omega⟩
      · rw [if_neg hb, if_neg hb]
        obtain ⟨h1, h2, h3⟩ := ih (body x errno s).errno
          (if marked x = true then { (body x errno s).sentinel with completed := true }
           else (body x errno s).sentinel) (k + 1)
        exact ⟨h1, h2, by omega⟩

theorem pollLoop_noError {E : Type} (body : E → Nat → Task → BodyResult)
    (marked : E → Bool) (ok : E → Bool)
    (hbody : ∀ e s, ok e = true → (body e 0 s).errno = 0 ∧ (body e 0 s).broke = false) :
    ∀ (its : List E) (s : Task) (k : Nat), (∀ x ∈ its, ok x = true) →
      (pollLoop body marked 0 s k its).errno = 0 := by
  intro its
  induction its with
  | nil => intro s k _; rfl
  | cons e rest ih =>
    intro s k h
    by_cases hc : s.completed = true
    · rw [pollLoop_completed body marked 0 s k _ hc]
    · obtain ⟨h1, h2⟩ := hbody e s (h e (List.mem_cons_self _ _))
      rw [pollLoop_step body marked 0 s k e rest hc, if_neg (by rw [h2]; simp), h1]
      exact ih _ (k + 1) (fun x hx => h x (List.mem_cons_of_mem _ hx))

theorem poller_run_eq (f : Poller) (tenv : TaskEnv) (sentinel : Task) (its : List f.Iter) :
    f.run tenv sentinel its =
      some (pollFinish tenv (pollLoop f.body f.marked 0 sentinel 0 its)) := by
  cases f <;> rfl

theorem quiet_setErrno (o : Option Nat) (h : quiet o = true) : setErrno o 0 = 0 := by
  simpa [quiet] using h

theorem task_markCompleted_quiet (env : TaskEnv) (s : Task) (h1 : env.lockRc = 0)
    (h2 : env.broadcastRc = 0) (h3 : env.unlockRc = 0) :
    (task_markCompleted env (some s)).rc = 0 := by
  by_cases hc : s.completed = true
  · simp [task_markCompleted, hc]
  · simp [task_markCompleted, hc, h1, h2, h3]

theorem poller_body_noError (f : Poller) (e : f.Iter) (s : Task)
    (h : f.noError e = true) : (f.body e 0 s).errno = 0 ∧ (f.body e 0 s).broke = false := by
  cases f with
  | screenRefresher =>
    simp only [Poller.noError, Bool.and_eq_true, beq_iff_eq] at h
    obtain ⟨⟨h1, h2⟩, h3⟩ := h
    have h4 := quiet_setErrno _ h3
    simp [Poller.body, runScreenRefresher_body, h1, h2, h4]
  | upkeep =>
    simp only [Poller.noError, Bool.and_eq_true, beq_iff_eq] at h
    obtain ⟨⟨⟨⟨⟨⟨⟨⟨⟨⟨⟨h1, h2⟩, h3⟩, h4⟩, h5⟩, h6⟩, h7⟩, h8⟩, h9⟩, h10⟩, h11⟩, h12⟩ := h
    have h13 := quiet_setErrno _ h12
    have hm := task_markCompleted_quiet (UpkeepIter.mark e) s h8 h9 h10
    by_cases hr : UpkeepIter.runningEmpty e = true
    · simp [Poller.body, runUpkeep_body, h1, h2, h3, h4, h5, h6, h7, h11, h13, hr, hm]
    · simp [Poller.body, runUpkeep_body, h1, h2, h3, h4, h5, h6, h7, h11, h13, hr]
  | spawner =>
    simp only [Poller.noError, Bool.and_eq_true, beq_iff_eq] at h
    obtain ⟨⟨⟨⟨⟨h1, h2⟩, h3⟩, h4⟩, h5⟩, h6⟩ := h
    have h7 := quiet_setErrno _ h6
    simp [Poller.body, spawnCaterpillars_body, h1, h2, h3, h4, h5, h7]
  | userInput =>
    simp only [Poller.noError, Bool.and_eq_true, beq_iff_eq, Option.isNone_iff_eq_none] at h
    obtain ⟨⟨h1, h2⟩, h3⟩ := h
    have h4 := quiet_setErrno _ h2
    by_cases hr : InputIter.inputReady e = true
    · simp [Poller.body, acceptUserInput_body, h1, h3, h4, hr]
    · simp [Poller.body, acceptUserInput_body, h1, h3, h4, hr]

theorem pollFinish_exited (tenv : TaskEnv) (r : PollResult) (h : r.exited = true) :
    (pollFinish tenv r).returned = true ∧ (pollFinish tenv r).iterations = r.iterations ∧
    (r.errno = 0 → (pollFinish tenv r).rc = 0) := by
  unfold pollFinish
  rw [if_pos h]
  unfold pollEpilogue
  by_cases he : r.errno = 0
  · rw [if_neg (fun hne => hne he)]
    exact ⟨rfl, rfl, fun _ => he⟩
  · rw [if_pos he]
    exact ⟨rfl, rfl, fun h0 => absurd h0 he⟩

/-- C20: cancellation propagation. For each of the loops `l` of a list of loops
that poll the sentinel (each one of `runScreenRefresher`, `runUpkeep`,
`spawnCaterpillars`, `acceptUserInput`, called with valid arguments): (1) whenever
the `completed` flag of the sentinel is `true` at an evaluation of the loop
condition, the loop is left there with no further iteration; (2) when the flag is
`true` at the call, the function returns `0` without an iteration; (3) when another
thread completes the sentinel during an iteration, the function returns, whatever
the environment gives afterwards, after at most that iteration, and it returns `0`
when no call has failed until then. -/
theorem cancellation_propagation (tenv : TaskEnv) (sentinel : Task) (loops : List PollRun) :
    ∀ l ∈ loops,
    (∀ (errno k : Nat) (its : List l.fn.Iter) (s : Task), s.completed = true →
      pollLoop l.fn.body l.fn.marked errno s k its =
        { errno := errno, sentinel := s, iterations := k, exited := true }) ∧
    (sentinel.completed = true →
      l.fn.run tenv sentinel l.its =
        some { returned := true, rc := 0, sentinel := some sentinel, iterations := 0 }) ∧
    (∀ (pre : List l.fn.Iter) (e : l.fn.Iter) (rest : List l.fn.Iter),
      l.its = pre ++ e :: rest → l.fn.marked e = true →
      l.fn.run tenv sentinel l.its = l.fn.run tenv sentinel (pre ++ [e]) ∧
      ∃ r, l.fn.run tenv sentinel l.its = some r ∧ r.returned = true ∧
        r.iterations ≤ pre.length + 1 ∧
        ((∀ x ∈ pre ++ [e], l.fn.noError x = true) → r.rc = 0)) := by
  intro l _
  refine ⟨?_, ?_, ?_⟩
  · intro errno k its s hs
    exact pollLoop_completed _ _ errno s k its hs
  · intro hc
    rw [poller_run_eq, pollLoop_completed _ _ 0 sentinel 0 _ hc]
    rfl
  · intro pre e rest hits he
    obtain ⟨h1, h2, h3⟩ := pollLoop_marked l.fn.body l.fn.marked e he rest pre 0 sentinel 0
    obtain ⟨k1, k2, k3⟩ := pollFinish_exited tenv _ h2
    rw [hits, poller_run_eq, poller_run_eq, h1]
    refine ⟨rfl, _, rfl, k1, ?_, ?_⟩
    · rw [k2]; omega
    · intro hok
      exact k3 (pollLoop_noError l.fn.body l.fn.marked l.fn.noError
        (fun x s hx => poller_body_noError l.fn x s hx) _ sentinel 0 hok)

theorem cancellation_propagation_witness :
    tenLoops.length = 10 ∧ oneLoop.length = 1 ∧
    sampleRun Poller.spawner ∈ tenLoops ∧ sampleRun Poller.upkeep ∈ oneLoop ∧
    (∃ r, spawnCaterpillars TaskEnv.ok
        (some { runningCaterpillars := true, sleepGame := some sampleTask, threadPool := true,
                killedCatLock := true, killedCaterpillars := true, runningCatLock := true })
        (sampleRun Poller.spawner).its = some r ∧
      r.returned = true ∧ r.iterations ≤ 2 ∧ r.rc = 0) ∧
    (∃ r, runUpkeep TaskEnv.ok
        (some { p := true, killedCatLock := true, killedCaterpillars := true, banner := true,
                sleepGame := some sampleTask })
        (sampleRun Poller.upkeep).its = some r ∧
      r.returned = true ∧ r.iterations ≤ 2 ∧ r.rc = 0) := by
  have h10 : sampleRun Poller.spawner ∈ tenLoops := by simp [tenLoops]
  have h1 : sampleRun Poller.upkeep ∈ oneLoop := by simp [oneLoop]
  obtain ⟨_, r, hr1, hr2, hr3, hr4⟩ :=
    (cancellation_propagation TaskEnv.ok sampleTask tenLoops (sampleRun Poller.spawner) h10).2.2
      [Poller.spawner.calm false] (Poller.spawner.calm true)
      [Poller.spawner.calm false, Poller.spawner.calm false] rfl rfl
  obtain ⟨_, u, hu1, hu2, hu3, hu4⟩ :=
    (cancellation_propagation TaskEnv.ok sampleTask oneLoop (sampleRun Poller.upkeep) h1).2.2
      [Poller.upkeep.calm false] (Poller.upkeep.calm true)
      [Poller.upkeep.calm false, Poller.upkeep.calm false] rfl rfl
  refine ⟨rfl, rfl, h10, h1, ⟨r, hr1, hr2, hr3, hr4 ?_⟩, ⟨u, hu1, hu2, hu3, hu4 ?_⟩⟩
  · intro x hx
    simp only [List.cons_append, List.nil_append, List.mem_cons, List.mem_singleton,
      List.not_mem_nil, or_false] at hx
    rcases hx with hx | hx <;> rw [hx] <;> rfl
  · intro x hx
    simp only [List.cons_append, List.nil_append, List.mem_cons, List.mem_singleton,
      List.not_mem_nil, or_false] at hx
    rcases hx with hx | hx <;> rw [hx] <;> rfl

/-! ## Claims on vector.c -/

/-- C21 (the code does not have the property). On the vector of length `2` and
capacity `4` holding `7` and `8`, `vector_erase` with the index `2`, which is out
of bounds, returns `true` with `errno` `0`: the vector has length `1` in a new
allocation and its last element `8` is gone. The test of the index sets `errno`
and does not return. -/
theorem vector_erase_out_of_bounds_succeeds :
    twoOfFour.length ≤ 2 ∧
    twoOfFourHeap.read twoOfFour.data twoOfFour.length = some [7, 8] ∧
    ∃ r, vector_erase MemEnv.ok twoOfFourHeap (some twoOfFour) 2 = some r ∧
      r.ok = true ∧ r.errno = 0 ∧
      r.vec = some { data := Ptr.cell 1 0, length := 1, capacity := 4, dataSize := 4,
                     elementDeleter := 0 } ∧
      r.heap.read (Ptr.cell 1 0) 1 = some [7] := by
  refine ⟨by decide, by decide, _, rfl, rfl, rfl, rfl, ?_⟩
  decide

/-! ## Claims on a1.c -/

theorem compareArrival_neg (a b : JobRequest) :
    linkedNode_compareArrival (some a) (some b) < 0 ↔ a.arrival < b.arrival := by
  simp only [linkedNode_compareArrival]
  omega

theorem compareArrival_nonpos (a b : JobRequest) :
    linkedNode_compareArrival (some a) (some b) ≤ 0 ↔ a.arrival ≤ b.arrival := by
  simp only [linkedNode_compareArrival]
  omega

theorem pushOrdered_walk_spec (j : JobRequest) (rest : List JobRequest) :
    ∀ current : JobRequest, ascendingArrival (current :: rest) →
      current.arrival < j.arrival →
      ascendingArrival (linkedList_pushOrdered_walk j current rest) ∧
      ∃ pre post, current :: rest = pre ++ post ∧
        linkedList_pushOrdered_walk j current rest = pre ++ j :: post := by
  induction rest with
  | nil =>
    intro current _ hlt
    refine ⟨?_, [current], [], rfl, rfl⟩
    show List.Pairwise _ [current, j]
    simp only [List.pairwise_cons, List.mem_singleton, forall_eq, List.not_mem_nil,
      false_implies, implies_true, List.Pairwise.nil, and_true]
    omega
  | cons nxt more ih =>
    intro current hasc hlt
    have hasc1 : List.Pairwise (fun a b : JobRequest => a.arrival ≤ b.arrival)
        (current :: nxt :: more) := hasc
    rw [List.pairwise_cons] at hasc1
    obtain ⟨hcur, htail⟩ := hasc1
    by_cases hc : linkedNode_compareArrival (some nxt) (some j) < 0
    · have hw : linkedList_pushOrdered_walk j current (nxt :: more) =
          current :: linkedList_pushOrdered_walk j nxt more := by
        simp only [linkedList_pushOrdered_walk, hc, if_true]
      obtain ⟨h1, pre, post, h2, h3⟩ := ih nxt htail ((compareArrival_neg nxt j).1 hc)
      rw [hw]
      refine ⟨?_, current :: pre, post, by rw [h2]; rfl, by rw [h3]; rfl⟩
      show List.Pairwise _ (current :: linkedList_pushOrdered_walk j nxt more)
      rw [List.pairwise_cons]
      refine ⟨?_, h1⟩
      intro a ha
      rw [h3] at ha
      rcases List.mem_append.1 ha with ha | ha
      · exact hcur a (by rw [h2]; exact List.mem_append_left _ ha)
      · rcases List.mem_cons.1 ha with ha | ha
        · rw [ha]; omega
        · exact hcur a (by rw [h2]; exact List.mem_append_right _ ha)
    · have hw : linkedList_pushOrdered_walk j current (nxt :: more) =
          current :: j :: nxt :: more := by
        simp only [linkedList_pushOrdered_walk, hc, if_false]
      have hge : j.arrival ≤ nxt.arrival := by
        have := (compareArrival_neg nxt j).not.1 hc
        omega
      rw [hw]
      refine ⟨?_, [current], nxt :: more, rfl, rfl⟩
      show List.Pairwise _ (current :: j :: nxt :: more)
      have htail1 := htail
      rw [List.pairwise_cons] at htail1
      rw [List.pairwise_cons, List.pairwise_cons]
      refine ⟨?_, ?_, htail⟩
      · intro a ha
        rcases List.mem_cons.1 ha with ha | ha
        · rw [ha]; omega
        · exact hcur a ha
      · intro a ha
        rcases List.mem_cons.1 ha with ha | ha
        · rw [ha]; exact hge
        · exact Nat.le_trans hge (htail1.1 a ha)

/-- C22: `linkedList_pushOrdered` keeps the job list ordered. For every list in
ascending order of arrival and every job `j`, a call whose `malloc` succeeds
returns `true`, and the list it leaves is in ascending order of arrival and is the
previous list with `j` put in at one place: the previous jobs, in their previous
order, plus `j`. -/
theorem pushOrdered_keeps_order (l : LinkedList) (j : JobRequest)
    (h : ascendingArrival l) :
    ∃ l1, linkedList_pushOrdered true (some l) (some j) =
        PushOutcome.returned true (some l1) ∧
      ascendingArrival l1 ∧
      ∃ pre post, l = pre ++ post ∧ l1 = pre ++ j :: post := by
  cases l with
  | nil =>
    refine ⟨[j], rfl, ?_, [], [], rfl, rfl⟩
    show List.Pairwise _ [j]
    exact List.pairwise_singleton _ _
  | cons head rest =>
    by_cases hc : linkedNode_compareArrival (some j) (some head) ≤ 0
    · have hle := (compareArrival_nonpos j head).1 hc
      refine ⟨j :: head :: rest, ?_, ?_, [], head :: rest, rfl, rfl⟩
      · simp only [linkedList_pushOrdered, ne_eq, not_true_eq_false, if_false, hc, if_true]
      · show List.Pairwise _ (j :: head :: rest)
        have h1 : List.Pairwise (fun a b : JobRequest => a.arrival ≤ b.arrival)
            (head :: rest) := h
        rw [List.pairwise_cons]
        refine ⟨?_, h1⟩
        intro a ha
        rcases List.mem_cons.1 ha with ha | ha
        · rw [ha]; exact hle
        · exact Nat.le_trans hle ((List.pairwise_cons.1 h1).1 a ha)
    · have hlt : head.arrival < j.arrival := by
        have := (compareArrival_nonpos j head).not.1 hc
        omega
      obtain ⟨h1, pre, post, h2, h3⟩ := pushOrdered_walk_spec j rest head h hlt
      refine ⟨linkedList_pushOrdered_walk j head rest, ?_, h1, pre, post, h2, h3⟩
      simp only [linkedList_pushOrdered, ne_eq, not_true_eq_false, if_false, hc]

theorem pushOrdered_keeps_order_witness :
    ascendingArrival threeJobs ∧
    ∃ l1, linkedList_pushOrdered true (some threeJobs)
        (some { remainingDuration := 2, user := 2, process := 68, arrival := 4,
                duration := 2 }) = PushOutcome.returned true (some l1) ∧
      ascendingArrival l1 ∧
      ∃ pre post, threeJobs = pre ++ post ∧
        l1 = pre ++ { remainingDuration := 2, user := 2, process := 68, arrival := 4,
                      duration := 2 } :: post := by
  have h : ascendingArrival threeJobs := by
    show List.Pairwise _ threeJobs
    simp [threeJobs]
  exact ⟨h, pushOrdered_keeps_order threeJobs _ h⟩

/-- C23 (the code does not have the property). On the list of three jobs that all
arrive at time `0`, of durations `1`, `5` and `3` in that order, `shortestJob` at
time `0` returns the job of duration `3`, although the job of duration `1` has
arrived: the loop compares each job with the job before it, not with the shortest
job met so far. -/
theorem shortestJob_not_shortest :
    ascendingArrival threeJobs ∧
    shortestJob (some threeJobs) 0 =
      some (some { remainingDuration := 3, user := 1, process := 67, arrival := 0,
                   duration := 3 }) ∧
    (∃ other ∈ threeJobs, other.arrival ≤ 0 ∧ other.duration < 3) := by
  refine ⟨?_, by decide, ?_⟩
  · show List.Pairwise _ threeJobs
    simp [threeJobs]
  · exact ⟨_, List.mem_cons_self _ _, by decide, by decide⟩

/-! ## Claims on fat32.c -/

/-- C24 (the code does not have the property). For the raw name `ABCDEFGHTXT`, a
base of eight characters and an extension of three, `dirName` writes
`ABCDEFGHTXT` with no `.`; for `ABCDEFG TXT`, a base of seven characters, it
writes `ABCDEFG` and drops the extension. With a base of six characters the name
comes out as the claim says. -/
theorem dirName_long_base_loses_dot :
    rawForm "ABCDEFGH".toList "TXT".toList = "ABCDEFGHTXT".toList ∧
    dirName "ABCDEFGHTXT".toList = "ABCDEFGHTXT".toList ∧
    cleanForm "ABCDEFGH".toList "TXT".toList = "ABCDEFGH.TXT".toList ∧
    rawForm "ABCDEFG".toList "TXT".toList = "ABCDEFG TXT".toList ∧
    dirName "ABCDEFG TXT".toList = "ABCDEFG".toList ∧
    cleanForm "ABCDEFG".toList "TXT".toList = "ABCDEFG.TXT".toList ∧
    dirName (rawForm "ABCDEF".toList "TXT".toList) =
      cleanForm "ABCDEF".toList "TXT".toList := by
  refine ⟨by decide, by decide, by decide, by decide, by decide, by decide, by decide⟩

/-- C25 (the code does not have the property). On the boot sector of a FAT32
volume of 71232 sectors with 70000 clusters, the count-of-clusters test of the
claim holds, and `isFat32Volume` returns `false`: it keeps `BPB_TotSec32` in a
`uint16_t`, so that it counts 5696 sectors and 4464 clusters. -/
theorem isFat32Volume_truncates_totSec :
    smallFat32.inRange = true ∧
    smallFat32.BS_BootSig = 0x29 ∧ smallFat32.BPB_BytesPerSec ≠ 0 ∧
    smallFat32.BPB_SecPerClus ≠ 0 ∧
    countOfClustersTest smallFat32 = true ∧
    isFat32Volume (some smallFat32) = some (false, 0) := by
  refine ⟨by decide, by decide, by decide, by decide, by decide, by decide⟩

/-! ## Claims on job_states.c -/

/-- C26 (the code does not have the property). With the foreground PIDs `10` and
`20`, a `waitpid` that succeeds for every PID and an allocator that never fails,
`waitForForegroundPids` returns `true` after one call of `waitpid`, on `10` only,
and `fgPids` still holds `20`: the loop runs while `childIdx < fgPids.length`, and
each iteration both increments `childIdx` and erases one PID of `fgPids`. -/
theorem waitForForegroundPids_skips_second :
    twoForeground.heap.read twoForeground.fgPids.data twoForeground.fgPids.length =
      some [10, 20] ∧
    ∃ r, waitForForegroundPids MemEnv.ok waitpidExited twoForeground = some r ∧
      r.ok = true ∧ r.waited = [10] ∧ r.state.fgPids.length = 1 ∧
      r.state.heap.read r.state.fgPids.data r.state.fgPids.length = some [20] ∧
      r.state.suspendedPids.length = 0 := by
  refine ⟨by decide, _, rfl, rfl, rfl, rfl, ?_, rfl⟩
  decide

/-! ## Locks held at the return -/

theorem heldAfter_append_wait (m : Mutex) (c : Cond) (xs : List Ev) :
    ∀ held, heldAfter m held (xs ++ [Ev.wait c m]) = true := by
  induction xs with
  | nil => intro held; simp [heldAfter, Ev.acquires]
  | cons e rest ih =>
    intro held
    simp only [List.cons_append, heldAfter]
    split
    · exact ih _
    · split
      · exact ih _
      · exact ih _

theorem tp_enqueueImmediate_lock_state (env : EnqueueEnv) (p : ThreadPool) (task : TaskPtr) :
    ((tp_enqueueImmediate env (some p) task).rc = 0 →
      heldAfter Mutex.taskMutex false (tp_enqueueImmediate env (some p) task).trace = false) ∧
    (env.lockRc ≠ 0 →
      (tp_enqueueImmediate env (some p) task).rc = env.lockRc ∧
      (tp_enqueueImmediate env (some p) task).trace = []) ∧
    (env.lockRc = 0 → (tp_enqueueImmediate env (some p) task).rc ≠ 0 →
      heldAfter Mutex.taskMutex false (tp_enqueueImmediate env (some p) task).trace = true) := by
  unfold tp_enqueueImmediate
  by_cases hl : env.lockRc = 0 <;> by_cases hi : p.numIdleThreads = 0 <;>
    by_cases hc : env.spawn.createRc = 0 <;> cases hsa : env.spawn.alloc <;>
    cases ha : env.alloc <;> by_cases hs : env.signalRc = 0 <;>
    by_cases hu : env.unlockRc = 0 <;>
    simp [hl, hi, hc, hsa, ha, hs, hu, tp_spawnThread, q_enqueue, list_pushBack,
      list_pushNodeBack, heldAfter, Ev.acquires, ENOMEM]

theorem task_markCompleted_lock_state (env : TaskEnv) (t : Task) :
    ((task_markCompleted env (some t)).rc = 0 →
      heldAfter Mutex.completedMutex false (task_markCompleted env (some t)).trace = false) ∧
    (env.lockRc ≠ 0 → heldAfter Mutex.completedMutex false
      (task_markCompleted env (some t)).trace = false) ∧
    (env.lockRc = 0 → (task_markCompleted env (some t)).rc ≠ 0 →
      heldAfter Mutex.completedMutex false (task_markCompleted env (some t)).trace = true) := by
  unfold task_markCompleted
  by_cases hc : t.completed = true <;> by_cases hl : env.lockRc = 0 <;>
    by_cases hb : env.broadcastRc = 0 <;> by_cases hu : env.unlockRc = 0 <;>
    simp [hc, hl, hb, hu, heldAfter, Ev.acquires]

theorem task_destroy_lock_state (env : TaskEnv) (t : Task) :
    ((task_destroy env (some t)).rc = 0 →
      heldAfter Mutex.completedMutex false (task_destroy env (some t)).trace = false) ∧
    (heldAfter Mutex.completedMutex false (task_destroy env (some t)).trace = true ↔
      env.lockRc = 0 ∧ (env.broadcastRc ≠ 0 ∨ env.unlockRc ≠ 0)) := by
  unfold task_destroy
  by_cases hl : env.lockRc = 0 <;> by_cases hb : env.broadcastRc = 0 <;>
    by_cases hu : env.unlockRc = 0 <;> by_cases hc : env.condDestroyRc = 0 <;>
    by_cases hm : env.mutexDestroyRc = 0 <;>
    simp [hl, hb, hu, hc, hm, heldAfter, Ev.acquires]

theorem task_getResult_exit_lock_state (env : TaskEnv) (t : Task) (trace : List Ev)
    (h : heldAfter Mutex.completedMutex false trace = true) (rc : Nat) (t1 : Option Task)
    (tr : List Ev) (hr : task_getResult_exit env t trace = WaitOutcome.returned rc t1 tr) :
    (rc = 0 → heldAfter Mutex.completedMutex false tr = false) ∧
    (rc ≠ 0 → heldAfter Mutex.completedMutex false tr = true) := by
  unfold task_getResult_exit at hr
  by_cases hu : env.unlockRc = 0
  · rw [if_neg (fun hne => hne hu)] at hr
    injection hr with h1 _ h3
    rw [← h3, ← h1]
    exact ⟨fun _ => heldAfter_append_unlock _ _ _, fun hne => absurd hu hne⟩
  · rw [if_pos hu] at hr
    injection hr with h1 _ h3
    rw [← h3, ← h1]
    exact ⟨fun h0 => absurd h0 hu, fun _ => h⟩

theorem task_getResult_loop_lock_state (env : TaskEnv) (wakes : List Wake) :
    ∀ (t : Task) (trace : List Ev), heldAfter Mutex.completedMutex false trace = true →
      ∀ (rc : Nat) (t1 : Option Task) (tr : List Ev),
        task_getResult_loop env t trace wakes = WaitOutcome.returned rc t1 tr →
        (rc = 0 → heldAfter Mutex.completedMutex false tr = false) ∧
        (rc ≠ 0 → heldAfter Mutex.completedMutex false tr = true) := by
  induction wakes with
  | nil =>
    intro t trace h rc t1 tr hr
    by_cases hc : t.completed = true
    · simp only [task_getResult_loop, hc, if_true] at hr
      exact task_getResult_exit_lock_state env t trace h rc t1 tr hr
    · simp [task_getResult_loop, hc] at hr
  | cons w rest ih =>
    intro t trace h rc t1 tr hr
    by_cases hc : t.completed = true
    · simp only [task_getResult_loop, hc, if_true] at hr
      exact task_getResult_exit_lock_state env t trace h rc t1 tr hr
    · have hc1 : t.completed = false := by simpa using hc
      by_cases hw : w.rc = 0
      · simp only [task_getResult_loop, hc1, Bool.false_eq_true, if_false, hw, ne_eq,
          not_true_eq_false] at hr
        exact ih _ _ (heldAfter_append_wait _ _ _ _) rc t1 tr hr
      · simp only [task_getResult_loop, hc1, Bool.false_eq_true, if_false, ne_eq, hw,
          not_false_eq_true, if_true] at hr
        injection hr with h1 _ h3
        rw [← h3, ← h1]
        exact ⟨fun h0 => absurd h0 hw, fun _ => h⟩

/-- C27 (the claim fails as stated). When `pthread_cond_signal` fails in
`tp_enqueueImmediate`, the call returns `EINVAL` with `taskMutex` held; when
`pthread_cond_broadcast` fails in `task_markCompleted` or `task_destroy`, or
`pthread_cond_wait` fails in `task_getResult`, the call returns the error with
`completedMutex` held. -/
theorem error_return_keeps_lock :
    (tp_enqueueImmediate signalFails (some emptyPool) 5).rc = EINVAL ∧
    heldAfter Mutex.taskMutex false
      (tp_enqueueImmediate signalFails (some emptyPool) 5).trace = true ∧
    (task_markCompleted broadcastFails (some sampleTask)).rc = EINVAL ∧
    heldAfter Mutex.completedMutex false
      (task_markCompleted broadcastFails (some sampleTask)).trace = true ∧
    (task_destroy broadcastFails (some sampleTask)).rc = EINVAL ∧
    heldAfter Mutex.completedMutex false
      (task_destroy broadcastFails (some sampleTask)).trace = true ∧
    (∃ t1, task_getResult TaskEnv.ok [{ rc := EINVAL, completed := false }] (some sampleTask) =
      WaitOutcome.returned EINVAL t1 [Ev.lock Mutex.completedMutex]) ∧
    heldAfter Mutex.completedMutex false [Ev.lock Mutex.completedMutex] = true := by
  refine ⟨by decide, by decide, by decide, by decide, by decide, by decide, ⟨_, rfl⟩,
    by decide⟩

/-- C27 (amended): for every outcome of the underlying operations, each of
`tp_enqueueImmediate`, `task_markCompleted`, `task_getResult` and `task_destroy`
has released the mutex it acquired when it returns `0`, and holds no mutex when its
own lock fails; when an operation fails after the lock was taken (thread spawn,
enqueue, signal, broadcast, wait or the unlock itself), the error code is returned
with the mutex still held. For `task_destroy` the mutex is held at the return
exactly when the lock succeeded and the broadcast or the unlock failed. -/
theorem lock_released_on_success :
    (∀ (env : EnqueueEnv) (p : ThreadPool) (task : TaskPtr),
      ((tp_enqueueImmediate env (some p) task).rc = 0 →
        heldAfter Mutex.taskMutex false (tp_enqueueImmediate env (some p) task).trace =
          false) ∧
      (env.lockRc ≠ 0 →
        (tp_enqueueImmediate env (some p) task).rc = env.lockRc ∧
        (tp_enqueueImmediate env (some p) task).trace = []) ∧
      (env.lockRc = 0 → (tp_enqueueImmediate env (some p) task).rc ≠ 0 →
        heldAfter Mutex.taskMutex false (tp_enqueueImmediate env (some p) task).trace =
          true)) ∧
    (∀ (env : TaskEnv) (t : Task),
      ((task_markCompleted env (some t)).rc = 0 →
        heldAfter Mutex.completedMutex false (task_markCompleted env (some t)).trace =
          false) ∧
      (env.lockRc ≠ 0 → heldAfter Mutex.completedMutex false
        (task_markCompleted env (some t)).trace = false) ∧
      (env.lockRc = 0 → (task_markCompleted env (some t)).rc ≠ 0 →
        heldAfter Mutex.completedMutex false (task_markCompleted env (some t)).trace =
          true)) ∧
    (∀ (env : TaskEnv) (wakes : List Wake) (t : Task) (rc : Nat) (t1 : Option Task)
        (tr : List Ev),
      task_getResult env wakes (some t) = WaitOutcome.returned rc t1 tr →
      (rc = 0 → heldAfter Mutex.completedMutex false tr = false) ∧
      (env.lockRc ≠ 0 → rc = env.lockRc ∧ tr = []) ∧
      (env.lockRc = 0 → rc ≠ 0 → heldAfter Mutex.completedMutex false tr = true)) ∧
    (∀ (env : TaskEnv) (t : Task),
      ((task_destroy env (some t)).rc = 0 →
        heldAfter Mutex.completedMutex false (task_destroy env (some t)).trace = false) ∧
      (heldAfter Mutex.completedMutex false (task_destroy env (some t)).trace = true ↔
        env.lockRc = 0 ∧ (env.broadcastRc ≠ 0 ∨ env.unlockRc ≠ 0))) := by
  refine ⟨tp_enqueueImmediate_lock_state, task_markCompleted_lock_state, ?_,
    task_destroy_lock_state⟩
  intro env wakes t rc t1 tr hr
  by_cases hl : env.lockRc = 0
  · have hr1 : task_getResult_loop env t [Ev.lock Mutex.completedMutex] wakes =
        WaitOutcome.returned rc t1 tr := by
      simpa [task_getResult, hl] using hr
    obtain ⟨h1, h2⟩ := task_getResult_loop_lock_state env wakes t _ (by decide) rc t1 tr hr1
    exact ⟨h1, fun hne => absurd hl hne, fun _ => h2⟩
  · simp only [task_getResult, ne_eq, hl, not_false_eq_true, if_true] at hr
    injection hr with h1 _ h3
    rw [← h3, ← h1]
    exact ⟨fun h0 => absurd h0 hl, fun _ => ⟨rfl, rfl⟩, fun h0 => absurd h0 hl⟩

theorem lock_released_on_success_witness :
    heldAfter Mutex.taskMutex false
      (tp_enqueueImmediate (EnqueueEnv.ok 1) (some emptyPool) 5).trace = false ∧
    heldAfter Mutex.completedMutex false
      (task_destroy TaskEnv.ok (some sampleTask)).trace = false :=
  ⟨(lock_released_on_success.1 (EnqueueEnv.ok 1) emptyPool 5).1 (by decide),
   (lock_released_on_success.2.2.2 TaskEnv.ok sampleTask).1 (by decide)⟩

/-! ## Claims on list.c -/

/-- C28 (the code does not have the property). Removing the only node of a well
formed list with `list_removeNode` returns `true` and leaves `head = NULL` and
`length = 0` but `tail` still pointing to the removed node: the list is not well
formed. A following `list_pushNodeBack` then links the new node after the removed
one and leaves `head = NULL`, so the list has length `1` and no node is reached
from `head`. -/
theorem list_removeNode_keeps_tail :
    Raw.wellFormed twoNodes oneNodeList = true ∧
    ∃ r, Raw.list_removeNode twoNodes (some oneNodeList) 8 = some r ∧
      r.ok = true ∧
      r.list = some { head := 0, tail := 8, length := 0, dataSize := 8 } ∧
      (r.heap 8).next = 0 ∧ (r.heap 8).prev = 0 ∧
      Raw.wellFormed r.heap { head := 0, tail := 8, length := 0, dataSize := 8 } = false ∧
      (Raw.list_pushNodeBack r.heap r.list 16).ok = true ∧
      (Raw.list_pushNodeBack r.heap r.list 16).list =
        some { head := 0, tail := 16, length := 1, dataSize := 8 } ∧
      ((Raw.list_pushNodeBack r.heap r.list 16).heap 8).next = 16 ∧
      Raw.reach (Raw.list_pushNodeBack r.heap r.list 16).heap 2 0 = [] := by
  refine ⟨by decide, _, rfl, rfl, by decide, rfl, rfl, by decide, rfl, by decide, rfl, rfl⟩

/-! ## A `NULL` task in the pool -/

theorem null_submit (returns : TaskPtr → Bool) (s : PoolSys)
    (h0 : s.tp.numIdleThreads ≠ 0) (hn : s.tp.waitingTasks.elements.nodes = [])
    (hl : s.tp.waitingTasks.elements.length = 0) :
    sys_step returns s (Action.submit 0) =
      some { tp := { threads := s.tp.threads, numIdleThreads := s.tp.numIdleThreads,
                     waitingTasks := { elements :=
                       { nodes := [0], length := 1,
                         dataSize := s.tp.waitingTasks.elements.dataSize } },
                     running := s.tp.running },
             workers := s.workers, heap := s.heap, mem := s.mem } := by
  have h : sys_step returns s (Action.submit 0) = _ := sys_submit_keep s 0 h0
  rw [h, hn, hl]
  rfl

theorem null_claim (returns : TaskPtr → Bool) (s : PoolSys) (i k : Nat)
    (hget : s.workers.get? i = some WorkerState.idle)
    (hn : s.tp.waitingTasks.elements.nodes = [0])
    (hl : s.tp.waitingTasks.elements.length = 1)
    (hk : s.tp.numIdleThreads = k + 1) (hb : k < UINT_MOD) :
    sys_step returns s (Action.work i) =
      some { tp := { threads := s.tp.threads, numIdleThreads := k,
                     waitingTasks := { elements :=
                       { nodes := [], length := 0,
                         dataSize := s.tp.waitingTasks.elements.dataSize } },
                     running := s.tp.running },
             workers := s.workers.set i (WorkerState.busy 0), heap := s.heap,
             mem := s.mem } := by
  have hq : ¬ q_length s.tp.waitingTasks = 0 := by simp [q_length, hl]
  have hp : (s.tp.waitingTasks.elements.length + SIZE_MOD - 1) % SIZE_MOD = 0 := by
    rw [hl]; exact size_pred 0 (by unfold SIZE_MOD; norm_num)
  have hu : (s.tp.numIdleThreads + UINT_MOD - 1) % UINT_MOD = k := by
    rw [hk]; exact uint_pred k hb
  have h0 : sys_step returns s (Action.work i) = _ := sys_work_idle returns s i hget
  rw [h0, workerFunction_claim_cons s.tp _ 0 [] hn hq, hp, hu]

theorem null_finish (returns : TaskPtr → Bool) (s : PoolSys) (i : Nat)
    (hget : s.workers.get? i = some (WorkerState.busy 0)) (hr : returns 0 = true) :
    sys_step returns s (Action.work i) =
      some { tp := s.tp, workers := s.workers.set i (WorkerState.stopped EPERM),
             heap := s.heap, mem := s.mem } := by
  simp only [sys_step, sys_work, hget, hr, if_true, derefTask, workerFunction_finish,
    task_execute]
  rfl

theorem get_append_left {α : Type} (l m : List α) :
    ∀ (i : Nat) (x : α), l.get? i = some x → (l ++ m).get? i = some x := by
  induction l with
  | nil => intro i x h; simp at h
  | cons a l ih =>
    intro i x h
    cases i with
    | zero => exact h
    | succ i =>
      simp only [List.get?_cons_succ] at h
      simp only [List.cons_append, List.get?_cons_succ]
      exact ih i x h

theorem stopped_stays (returns : TaskPtr → Bool) (s : PoolSys) (a : Action) (i e : Nat)
    (h : s.workers.get? i = some (WorkerState.stopped e)) :
    (sys_next returns s a).workers.get? i = some (WorkerState.stopped e) := by
  cases a with
  | submit t =>
    obtain ⟨tp1, ws, hsub, _, hws⟩ := sys_submit_shape s t
    rw [sys_next_some returns s _ (Action.submit t) hsub]
    show ws.get? i = _
    rcases hws with hws | hws
    · rw [hws]; exact h
    · rw [hws]; exact get_append_left _ _ i _ h
  | work j =>
    by_cases hj : j = i
    · have hnone : sys_step returns s (Action.work j) = none := by
        rw [hj]
        simp only [sys_step, sys_work, h]
      rw [sys_next_none returns s _ hnone]
      exact h
    · rcases sys_work_shape returns s j with ⟨h1, _⟩ | ⟨tp1, w, w1, heap1, mem1, _, hstep, _⟩
      · rw [sys_next_none returns s (Action.work j) h1]
        exact h
      · rw [sys_next_some returns s _ (Action.work j) hstep]
        show (s.workers.set j w1).get? i = _
        rw [get_set_ne s.workers i j w1 (fun e1 => hj e1.symm)]
        exact h

theorem stopped_run (returns : TaskPtr → Bool) (i e : Nat) (acts : List Action) :
    ∀ s : PoolSys, s.workers.get? i = some (WorkerState.stopped e) →
      (sys_run returns s acts).workers.get? i = some (WorkerState.stopped e) := by
  induction acts with
  | nil => intro s h; exact h
  | cons a rest ih =>
    intro s h
    rw [sys_run_next]
    exact ih _ (stopped_stays returns s a i e h)

theorem sys_init_full (garbage : ThreadPool) (n : Nat) (heap : TaskPtr → Task)
    (mem : Mem) :
    ∃ (T : Queue ThreadId) (R : Bool), sys_init garbage n heap mem =
        some { tp := { threads := T, numIdleThreads := n,
                       waitingTasks := q_constructEmpty WORD_SIZE, running := R },
               workers := List.replicate n WorkerState.idle, heap := heap, mem := mem } ∧
      T.elements.length = n % SIZE_MOD := by
  obtain ⟨e, p1, tr, h1, h2, h3, h4, h5, h6⟩ :=
    tp_init_loop_ok id n 0 0
      { garbage with running := true, waitingTasks := q_constructEmpty WORD_SIZE,
                     threads := q_constructEmpty WORD_SIZE }
      [Ev.write Field.running, Ev.condInit Cond.taskAvailable,
       Ev.mutexInit Mutex.taskMutex, Ev.write Field.waitingTasks, Ev.write Field.threads]
      (by simp [q_constructEmpty, list_constructEmpty, SIZE_MOD])
  have he : e = 0 := h2 rfl
  subst he
  have hinit : tp_init (InitEnv.ok id) (some garbage) n =
      some { rc := 0, tp := some { p1 with numIdleThreads := n },
             trace := tr ++ [Ev.write Field.numIdleThreads] } := by
    simp only [tp_init, InitEnv.ok, ne_eq, not_true_eq_false, if_false, List.cons_append,
      List.nil_append]
    rw [h1]
  have hw : p1.waitingTasks = q_constructEmpty WORD_SIZE := by simpa using h4
  have hsys : sys_init garbage n heap mem =
      some { tp := { threads := p1.threads, numIdleThreads := n,
                     waitingTasks := p1.waitingTasks, running := p1.running },
             workers := List.replicate n WorkerState.idle, heap := heap, mem := mem } := by
    simp only [sys_init, hinit]
  rw [hw] at hsys
  refine ⟨p1.threads, p1.running, hsys, ?_⟩
  simpa [q_constructEmpty, list_constructEmpty] using h6

theorem get_replicate {α : Type} (x : α) :
    ∀ (n i : Nat), i < n → (List.replicate n x).get? i = some x := by
  intro n
  induction n with
  | zero => intro i h; omega
  | succ n ih =>
    intro i h
    cases i with
    | zero => rfl
    | succ i =>
      simp only [List.replicate_succ, List.get?_cons_succ]
      exact ih i (by omega)

theorem null_run (T : Queue ThreadId) (R : Bool) (n k i : Nat) (heap : TaskPtr → Task)
    (mem : Mem) (hk : n = k + 1) (hb : k < UINT_MOD) (hi : i < n) :
    sys_run alwaysReturns
      ({ tp := { threads := T, numIdleThreads := n,
                 waitingTasks := q_constructEmpty WORD_SIZE, running := R },
         workers := List.replicate n WorkerState.idle, heap := heap, mem := mem } : PoolSys)
      [Action.submit 0, Action.work i, Action.work i] =
    { tp := { threads := T, numIdleThreads := k,
              waitingTasks := { elements := { nodes := [], length := 0,
                                              dataSize := WORD_SIZE } },
              running := R },
      workers := ((List.replicate n WorkerState.idle).set i (WorkerState.busy 0)).set i
        (WorkerState.stopped EPERM),
      heap := heap, mem := mem } := by
  have hidle := get_replicate WorkerState.idle n i hi
  have hbusy0 : ((List.replicate n WorkerState.idle).set i (WorkerState.busy 0)).get? i =
      some (WorkerState.busy 0) := get_set_eq _ i _ _ hidle
  have e1 : sys_step alwaysReturns
      ({ tp := { threads := T, numIdleThreads := n,
                 waitingTasks := q_constructEmpty WORD_SIZE, running := R },
         workers := List.replicate n WorkerState.idle, heap := heap, mem := mem } : PoolSys)
      (Action.submit 0) =
    some { tp := { threads := T, numIdleThreads := n,
                   waitingTasks := { elements := { nodes := [0], length := 1,
                                                   dataSize := WORD_SIZE } },
                   running := R },
           workers := List.replicate n WorkerState.idle, heap := heap, mem := mem } :=
    null_submit alwaysReturns _ (by show n ≠ 0; omega) rfl rfl
  have e2 : sys_step alwaysReturns
      ({ tp := { threads := T, numIdleThreads := n,
                 waitingTasks := { elements := { nodes := [0], length := 1,
                                                 dataSize := WORD_SIZE } },
                 running := R },
         workers := List.replicate n WorkerState.idle, heap := heap, mem := mem } : PoolSys)
      (Action.work i) =
    some { tp := { threads := T, numIdleThreads := k,
                   waitingTasks := { elements := { nodes := [], length := 0,
                                                   dataSize := WORD_SIZE } },
                   running := R },
           workers := (List.replicate n WorkerState.idle).set i (WorkerState.busy 0),
           heap := heap, mem := mem } :=
    null_claim alwaysReturns _ i k hidle rfl rfl hk hb
  have e3 : sys_step alwaysReturns
      ({ tp := { threads := T, numIdleThreads := k,
                 waitingTasks := { elements := { nodes := [], length := 0,
                                                 dataSize := WORD_SIZE } },
                 running := R },
         workers := (List.replicate n WorkerState.idle).set i (WorkerState.busy 0),
         heap := heap, mem := mem } : PoolSys)
      (Action.work i) =
    some { tp := { threads := T, numIdleThreads := k,
                   waitingTasks := { elements := { nodes := [], length := 0,
                                                   dataSize := WORD_SIZE } },
                   running := R },
           workers := ((List.replicate n WorkerState.idle).set i (WorkerState.busy 0)).set i
             (WorkerState.stopped EPERM),
           heap := heap, mem := mem } :=
    null_finish alwaysReturns _ i hbusy0 rfl
  simp only [sys_run, e1, e2, e3]

/-- C29: `tp_enqueueImmediate` does not validate its task argument. For every pool
a fault-free `tp_enqueueImmediate(tp, NULL)` returns `0` and appends the `NULL`
task to `waitingTasks`; the end of the iteration of a worker that holds the `NULL`
task gets `EPERM` from `task_execute` and leaves the loop with `EPERM`, the pool as
it is. So from a fault-free `tp_init` with `n` threads (`0 < n < 2 ^ 32`), after
the submission of `NULL` and the two steps of worker `i` (claim, end of the
iteration): worker `i` has stopped with `EPERM`, no worker is busy, the queue is
empty, `threads` still has length `n` and `numIdleThreads` is `n - 1`; and worker
`i` stays stopped under every further schedule. -/
theorem null_task_stops_worker (garbage : ThreadPool) (n : Nat) (heap : TaskPtr → Task)
    (mem : Mem) (i : Nat) (hn : n < UINT_MOD) (hi : i < n) :
    (∀ (p : ThreadPool) (thread : ThreadId), ∃ p1 tr,
      tp_enqueueImmediate (EnqueueEnv.ok thread) (some p) 0 =
        { rc := 0, tp := some p1, trace := tr } ∧
      p1.waitingTasks.elements.nodes = p.waitingTasks.elements.nodes ++ [0]) ∧
    (∀ (p : ThreadPool) (mem1 : Mem),
      workerFunction_finish WorkerEnv.ok TaskEnv.ok p (derefTask heap 0) mem1 =
        some { state := WorkerState.stopped EPERM, tp := p, task := none, mem := mem1,
               trace := [] }) ∧
    ∃ s0 s3, sys_init garbage n heap mem = some s0 ∧
      sys_run alwaysReturns s0 [Action.submit 0, Action.work i, Action.work i] = s3 ∧
      s3.workers.get? i = some (WorkerState.stopped EPERM) ∧
      s3.busyWorkers = 0 ∧
      s3.tp.waitingTasks.elements.nodes = [] ∧
      q_length s3.tp.threads = n ∧
      s3.tp.numIdleThreads + 1 = n ∧
      ∀ acts, (sys_run alwaysReturns s3 acts).workers.get? i =
        some (WorkerState.stopped EPERM) := by
  refine ⟨?_, ?_, ?_⟩
  · intro p thread
    by_cases h0 : p.numIdleThreads = 0
    · exact ⟨_, _, by
        simp [tp_enqueueImmediate, EnqueueEnv.ok, h0, tp_spawnThread_ok, q_enqueue,
          list_pushBack, list_pushNodeBack, uint_one]
        exact ⟨rfl, rfl⟩, rfl⟩
    · exact ⟨_, _, by
        simp [tp_enqueueImmediate, EnqueueEnv.ok, h0, q_enqueue, list_pushBack,
          list_pushNodeBack]
        exact ⟨rfl, rfl⟩, rfl⟩
  · intro p mem1
    simp only [derefTask, if_true, workerFunction_finish, task_execute]
    rfl
  · obtain ⟨k, hk⟩ : ∃ k, n = k + 1 := ⟨n - 1, by omega⟩
    obtain ⟨T, R, h0, hT⟩ := sys_init_full garbage n heap mem
    have hidle := get_replicate WorkerState.idle n i hi
    have hbusy0 : ((List.replicate n WorkerState.idle).set i (WorkerState.busy 0)).get? i =
        some (WorkerState.busy 0) := get_set_eq _ i _ _ hidle
    have hstop : (((List.replicate n WorkerState.idle).set i (WorkerState.busy 0)).set i
        (WorkerState.stopped EPERM)).get? i = some (WorkerState.stopped EPERM) :=
      get_set_eq _ i _ _ hbusy0
    have hrun := null_run T R n k i heap mem hk (by omega) hi
    have hc0 : (List.replicate n WorkerState.idle).countP WorkerState.isBusy = 0 := by
      rw [List.countP_eq_zero]
      intro w hw1
      rw [List.eq_of_mem_replicate hw1]
      simp [WorkerState.isBusy]
    have hc1 := countP_set_get WorkerState.isBusy (List.replicate n WorkerState.idle) i
      WorkerState.idle (WorkerState.busy 0) hidle
    have hc2 := countP_set_get WorkerState.isBusy
      ((List.replicate n WorkerState.idle).set i (WorkerState.busy 0)) i
      (WorkerState.busy 0) (WorkerState.stopped EPERM) hbusy0
    simp only [WorkerState.isBusy, Bool.false_eq_true, if_false, if_true, Nat.add_zero]
      at hc1 hc2
    refine ⟨_, _, h0, hrun, hstop, ?_, rfl, ?_, ?_, ?_⟩
    · show (((List.replicate n WorkerState.idle).set i (WorkerState.busy 0)).set i
        (WorkerState.stopped EPERM)).countP WorkerState.isBusy = 0
      omega
    · show T.elements.length = n
      rw [hT]
      exact Nat.mod_eq_of_lt (uint_lt_size n hn)
    · show k + 1 = n
      omega
    · intro acts
      exact stopped_run alwaysReturns i EPERM acts _ hstop

theorem null_task_stops_worker_witness :
    ∃ s0 s3, sys_init garbagePool 2 sampleHeap zeroMem = some s0 ∧
      sys_run alwaysReturns s0 [Action.submit 0, Action.work 1, Action.work 1] = s3 ∧
      s3.workers.get? 1 = some (WorkerState.stopped EPERM) ∧
      s3.busyWorkers = 0 ∧
      s3.tp.waitingTasks.elements.nodes = [] ∧
      q_length s3.tp.threads = 2 ∧
      s3.tp.numIdleThreads + 1 = 2 ∧
      ∀ acts, (sys_run alwaysReturns s3 acts).workers.get? 1 =
        some (WorkerState.stopped EPERM) :=
  (null_task_stops_worker garbagePool 2 sampleHeap zeroMem 1
    (by unfold UINT_MOD; norm_num) (by decide)).2.2

/-! ## `task_destroy` completes the task -/

/-- C30: `task_destroy` force-completes the task. For every task, whatever its
fields (also when it was never executed and never marked completed), a
`task_destroy` whose pthread calls succeed returns `0` and leaves `completed = true`,
`foo`, `fooArg` and `fooReturn` `NULL` and `fooErrno` `0`; it locks
`completedMutex`, sets the flag, broadcasts `completedCond`, unlocks, and only
then destroys the condition variable and the mutex. A `task_getResult` on the task
that wakes up after the broadcast, after any number of spurious wakeups, finds the
flag set and returns `0`. -/
theorem task_destroy_force_completes (t : Task) :
    task_destroy TaskEnv.ok (some t) =
      { rc := 0,
        task := some { foo := none, fooArg := 0, fooReturn := none, fooErrno := 0,
                       completed := true },
        trace := [Ev.lock Mutex.completedMutex, Ev.write Field.completed,
                  Ev.broadcast Cond.completedCond, Ev.unlock Mutex.completedMutex,
                  Ev.condDestroy Cond.completedCond,
                  Ev.mutexDestroy Mutex.completedMutex] } ∧
    underLock Mutex.completedMutex (fun e => decide (e = Ev.broadcast Cond.completedCond))
      false (task_destroy TaskEnv.ok (some t)).trace = true ∧
    (∀ spurious : List Wake, (∀ w ∈ spurious, w.rc = 0 ∧ w.completed = false) →
      ∃ t1 tr, task_getResult TaskEnv.ok (spurious ++ [{ rc := 0, completed := true }])
          (some t) = WaitOutcome.returned 0 (some t1) tr ∧
        t1.completed = true ∧
        heldAfter Mutex.completedMutex false tr = false) := by
  refine ⟨rfl, rfl, ?_⟩
  intro spurious hs
  have h0 : task_getResult TaskEnv.ok (spurious ++ [{ rc := 0, completed := true }]) (some t) =
      task_getResult_loop TaskEnv.ok t [Ev.lock Mutex.completedMutex]
        (spurious ++ [{ rc := 0, completed := true }]) := rfl
  rw [h0]
  by_cases hc : t.completed = true
  · rw [task_getResult_loop_completed TaskEnv.ok t _ _ hc]
    exact ⟨t, _, rfl, hc, by decide⟩
  · have hc1 : t.completed = false := by simpa using hc
    rw [task_getResult_loop_wakes TaskEnv.ok rfl spurious [] t _ hc1 hs]
    exact ⟨_, _, rfl, rfl, heldAfter_append_unlock _ _ _⟩

/-! ## Idle accounting for tasks of any pointer value -/

theorem countP_isOut (l : List WorkerState) :
    l.countP WorkerState.isOut =
      l.countP WorkerState.isBusy + l.countP WorkerState.isStopped := by
  induction l with
  | nil => rfl
  | cons w rest ih =>
    cases w <;>
      simp only [List.countP_cons, ih, WorkerState.isOut, WorkerState.isBusy,
        WorkerState.isStopped, Bool.or_false, Bool.or_true, Bool.false_eq_true, if_false,
        if_true] <;>
      omega

theorem workerFunction_claim_wait (p : ThreadPool) (trace : List Ev)
    (hr : p.running = true) (hq : q_length p.waitingTasks = 0) :
    workerFunction_claim WorkerEnv.ok p trace =
      { state := WorkerState.waiting, tp := p, trace := trace } := by
  rw [workerFunction_claim_ok, if_pos ⟨hr, hq⟩]

theorem balanced_mono (s : PoolSys) (b : Nat) (h : s.balanced (b + 1)) : s.balanced b := by
  obtain ⟨h1, h2, h3, h4, h5, h6, h7, h8⟩ := h
  exact ⟨h1, h2, h3, by omega, h5, by omega, h7, h8⟩

theorem balanced_submit (s : PoolSys) (b : Nat) (t : TaskPtr) (h : s.balanced (b + 1)) :
    ∃ s1, sys_submit s t = some s1 ∧ s1.balanced b := by
  obtain ⟨h1, h2, h3, h4, h5, h6, h7, h8⟩ := h
  have hB : (s.tp.waitingTasks.elements.length + 1) % SIZE_MOD =
      s.tp.waitingTasks.elements.nodes.length + 1 := by
    rw [h5]; exact size_succ _ (uint_lt_size _ (by omega))
  by_cases h0 : s.tp.numIdleThreads = 0
  · have hA : (s.tp.threads.elements.length + 1) % SIZE_MOD = s.workers.length + 1 := by
      rw [h3]; exact size_succ _ (uint_lt_size _ (by omega))
    have hstep : sys_submit s t =
        some { tp := { threads := { elements :=
                         { nodes := s.tp.threads.elements.nodes ++ [s.workers.length],
                           length := s.workers.length + 1,
                           dataSize := s.tp.threads.elements.dataSize } },
                       numIdleThreads := 1,
                       waitingTasks := { elements :=
                         { nodes := s.tp.waitingTasks.elements.nodes ++ [t],
                           length := s.tp.waitingTasks.elements.nodes.length + 1,
                           dataSize := s.tp.waitingTasks.elements.dataSize } },
                       running := s.tp.running },
               workers := s.workers ++ [WorkerState.idle], heap := s.heap,
               mem := s.mem } := by
      rw [sys_submit_spawn s t h0, hA, hB]
    have hout : (s.workers ++ [WorkerState.idle]).countP WorkerState.isOut =
        s.workers.countP WorkerState.isOut := by
      simp [List.countP_append, List.countP_cons, WorkerState.isOut, WorkerState.isBusy,
        WorkerState.isStopped]
    refine ⟨_, hstep, ?_, ?_, ?_, ?_, ?_, ?_, ?_, ?_⟩
    · show 1 + (s.workers ++ [WorkerState.idle]).countP WorkerState.isOut =
        (s.workers ++ [WorkerState.idle]).length
      rw [hout, List.length_append]
      simp only [List.length_singleton]
      omega
    · show (s.tp.threads.elements.nodes ++ [s.workers.length]).length =
        (s.workers ++ [WorkerState.idle]).length
      simp only [List.length_append, List.length_singleton, h2]
    · show s.workers.length + 1 = (s.workers ++ [WorkerState.idle]).length
      simp only [List.length_append, List.length_singleton]
    · show (s.workers ++ [WorkerState.idle]).length + b < UINT_MOD
      simp only [List.length_append, List.length_singleton]
      omega
    · show s.tp.waitingTasks.elements.nodes.length + 1 =
        (s.tp.waitingTasks.elements.nodes ++ [t]).length
      simp only [List.length_append, List.length_singleton]
    · show (s.tp.waitingTasks.elements.nodes ++ [t]).length + b < UINT_MOD
      simp only [List.length_append, List.length_singleton]
      omega
    · show s.tp.running = true
      exact h7
    · intro e he
      rcases List.mem_append.1 he with he | he
      · exact h8 e he
      · simp at he
  · have hstep : sys_submit s t =
        some { tp := { threads := s.tp.threads,
                       numIdleThreads := s.tp.numIdleThreads,
                       waitingTasks := { elements :=
                         { nodes := s.tp.waitingTasks.elements.nodes ++ [t],
                           length := s.tp.waitingTasks.elements.nodes.length + 1,
                           dataSize := s.tp.waitingTasks.elements.dataSize } },
                       running := s.tp.running },
               workers := s.workers, heap := s.heap, mem := s.mem } := by
      rw [sys_submit_keep s t h0, hB]
    refine ⟨_, hstep, h1, h2, h3, ?_, ?_, ?_, h7, h8⟩
    · show s.workers.length + b < UINT_MOD
      omega
    · show s.tp.waitingTasks.elements.nodes.length + 1 =
        (s.tp.waitingTasks.elements.nodes ++ [t]).length
      simp only [List.length_append, List.length_singleton]
    · show (s.tp.waitingTasks.elements.nodes ++ [t]).length + b < UINT_MOD
      simp only [List.length_append, List.length_singleton]
      omega

theorem balanced_claim (s : PoolSys) (b i : Nat) (w : WorkerState) (trace : List Ev)
    (h : s.balanced (b + 1)) (hget : s.workers.get? i = some w)
    (hw : w.isOut = false) :
    PoolSys.balanced
      { tp := (workerFunction_claim WorkerEnv.ok s.tp trace).tp,
        workers := s.workers.set i (workerFunction_claim WorkerEnv.ok s.tp trace).state,
        heap := s.heap, mem := s.mem } b := by
  obtain ⟨h1, h2, h3, h4, h5, h6, h7, h8⟩ := h
  have hlt := countP_lt_of_get WorkerState.isOut s.workers i w hget hw
  have hcases : s.tp.waitingTasks.elements.nodes = [] ∨
      ∃ t rest, s.tp.waitingTasks.elements.nodes = t :: rest := by
    cases s.tp.waitingTasks.elements.nodes with
    | nil => exact Or.inl rfl
    | cons t rest => exact Or.inr ⟨t, rest, rfl⟩
  rcases hcases with hn | ⟨t, rest, hn⟩
  · have hq : q_length s.tp.waitingTasks = 0 := by
      show s.tp.waitingTasks.elements.length = 0
      rw [h5, hn]; rfl
    rw [workerFunction_claim_wait s.tp trace h7 hq]
    have hc := countP_set_get WorkerState.isOut s.workers i w WorkerState.waiting hget
    rw [hw] at hc
    simp only [Bool.false_eq_true, if_false, Nat.add_zero, WorkerState.isOut,
      WorkerState.isBusy, WorkerState.isStopped, Bool.or_false] at hc
    have h6a : s.tp.waitingTasks.elements.nodes.length + b < UINT_MOD := by omega
    refine ⟨?_, ?_, ?_, ?_, h5, h6a, h7, ?_⟩
    · show s.tp.numIdleThreads +
        (s.workers.set i WorkerState.waiting).countP WorkerState.isOut =
        (s.workers.set i WorkerState.waiting).length
      rw [hc, List.length_set]; exact h1
    · show s.tp.threads.elements.nodes.length =
        (s.workers.set i WorkerState.waiting).length
      rw [List.length_set]; exact h2
    · show s.tp.threads.elements.length = (s.workers.set i WorkerState.waiting).length
      rw [List.length_set]; exact h3
    · show (s.workers.set i WorkerState.waiting).length + b < UINT_MOD
      rw [List.length_set]; omega
    · intro e he
      rcases List.mem_or_eq_of_mem_set he with he | he
      · exact h8 e he
      · exact absurd he (by simp)
  · have hq : ¬ q_length s.tp.waitingTasks = 0 := by
      show ¬ s.tp.waitingTasks.elements.length = 0
      rw [h5, hn]; simp
    have hrest : rest.length + 1 + (b + 1) < UINT_MOD := by
      rw [hn] at h6; simpa using h6
    have hp : (s.tp.waitingTasks.elements.length + SIZE_MOD - 1) % SIZE_MOD =
        rest.length := by
      rw [h5, hn, List.length_cons]
      exact size_pred rest.length (uint_lt_size _ (by omega))
    obtain ⟨k, hk⟩ : ∃ k, s.tp.numIdleThreads = k + 1 :=
      ⟨s.tp.numIdleThreads - 1, by omega⟩
    have hu : (s.tp.numIdleThreads + UINT_MOD - 1) % UINT_MOD = k := by
      rw [hk]; exact uint_pred k (by omega)
    have hclaim : workerFunction_claim WorkerEnv.ok s.tp trace =
        { state := WorkerState.busy t,
          tp := { threads := s.tp.threads, numIdleThreads := k,
                  waitingTasks := { elements :=
                    { nodes := rest, length := rest.length,
                      dataSize := s.tp.waitingTasks.elements.dataSize } },
                  running := s.tp.running },
          trace := trace ++ [Ev.write Field.numIdleThreads, Ev.write Field.waitingTasks,
                             Ev.unlock Mutex.taskMutex] } := by
      rw [workerFunction_claim_cons s.tp trace t rest hn hq, hu, hp]
    rw [hclaim]
    have hc := countP_set_get WorkerState.isOut s.workers i w (WorkerState.busy t) hget
    rw [hw] at hc
    simp only [Bool.false_eq_true, if_false, Nat.add_zero, WorkerState.isOut,
      WorkerState.isBusy, WorkerState.isStopped, Bool.or_false, if_true] at hc
    refine ⟨?_, ?_, ?_, ?_, rfl, ?_, ?_, ?_⟩
    · show k + (s.workers.set i (WorkerState.busy t)).countP WorkerState.isOut =
        (s.workers.set i (WorkerState.busy t)).length
      rw [hc, List.length_set]; omega
    · show s.tp.threads.elements.nodes.length =
        (s.workers.set i (WorkerState.busy t)).length
      rw [List.length_set]; exact h2
    · show s.tp.threads.elements.length = (s.workers.set i (WorkerState.busy t)).length
      rw [List.length_set]; exact h3
    · show (s.workers.set i (WorkerState.busy t)).length + b < UINT_MOD
      rw [List.length_set]; omega
    · show rest.length + b < UINT_MOD
      omega
    · show s.tp.running = true
      exact h7
    · intro e he
      rcases List.mem_or_eq_of_mem_set he with he | he
      · exact h8 e he
      · exact absurd he (by simp)

theorem balanced_work (returns : TaskPtr → Bool) (s s1 : PoolSys) (b i : Nat)
    (h : s.balanced (b + 1)) (hs : sys_work returns s i = some s1) : s1.balanced b := by
  cases hget : s.workers.get? i with
  | none =>
    simp only [sys_work, hget] at hs
    exact absurd hs (by simp)
  | some w =>
    cases w with
    | idle =>
      rw [sys_work_idle returns s i hget] at hs
      injection hs with hs
      rw [← hs]
      exact balanced_claim s b i WorkerState.idle _ h hget rfl
    | waiting =>
      rw [sys_work_waiting returns s i hget] at hs
      injection hs with hs
      rw [← hs]
      exact balanced_claim s b i WorkerState.waiting _ h hget rfl
    | stopped e =>
      simp only [sys_work, hget] at hs
      exact absurd hs (by simp)
    | busy t =>
      obtain ⟨h1, h2, h3, h4, h5, h6, h7, h8⟩ := h
      have h6a : s.tp.waitingTasks.elements.nodes.length + b < UINT_MOD := by omega
      by_cases hr : returns t = true
      · by_cases ht : t = 0
        · subst ht
          have e0 : sys_work returns s i =
              some { tp := s.tp, workers := s.workers.set i (WorkerState.stopped EPERM),
                     heap := s.heap, mem := s.mem } := null_finish returns s i hget hr
          rw [e0] at hs
          injection hs with hs
          rw [← hs]
          have hc := countP_set_get WorkerState.isOut s.workers i (WorkerState.busy 0)
            (WorkerState.stopped EPERM) hget
          simp only [WorkerState.isOut, WorkerState.isBusy, WorkerState.isStopped,
            Bool.or_false, Bool.or_true, if_true, Nat.add_right_cancel_iff] at hc
          refine ⟨?_, ?_, ?_, ?_, h5, h6a, h7, ?_⟩
          · show s.tp.numIdleThreads +
              (s.workers.set i (WorkerState.stopped EPERM)).countP WorkerState.isOut =
              (s.workers.set i (WorkerState.stopped EPERM)).length
            rw [hc, List.length_set]; exact h1
          · show s.tp.threads.elements.nodes.length =
              (s.workers.set i (WorkerState.stopped EPERM)).length
            rw [List.length_set]; exact h2
          · show s.tp.threads.elements.length =
              (s.workers.set i (WorkerState.stopped EPERM)).length
            rw [List.length_set]; exact h3
          · show (s.workers.set i (WorkerState.stopped EPERM)).length + b < UINT_MOD
            rw [List.length_set]; omega
          · intro e he
            rcases List.mem_or_eq_of_mem_set he with he | he
            · exact h8 e he
            · injection he
        · cases hf : (s.heap t).foo with
          | none =>
            rw [sys_work_no_callable returns s i t hget ht hf] at hs
            exact absurd hs (by simp)
          | some f =>
            have hc := countP_set_get WorkerState.isOut s.workers i (WorkerState.busy t)
              WorkerState.idle hget
            simp only [WorkerState.isOut, WorkerState.isBusy, WorkerState.isStopped,
              Bool.or_false, if_true, Bool.false_eq_true, if_false, Nat.add_zero] at hc
            have hle := List.countP_le_length WorkerState.isOut (l := s.workers)
            have hu : (s.tp.numIdleThreads + 1) % UINT_MOD = s.tp.numIdleThreads + 1 :=
              Nat.mod_eq_of_lt (by omega)
            rw [sys_work_busy returns s i t f hget hr ht hf, hu] at hs
            injection hs with hs
            rw [← hs]
            refine ⟨?_, ?_, ?_, ?_, h5, h6a, h7, ?_⟩
            · show s.tp.numIdleThreads + 1 +
                (s.workers.set i WorkerState.idle).countP WorkerState.isOut =
                (s.workers.set i WorkerState.idle).length
              rw [List.length_set]; omega
            · show s.tp.threads.elements.nodes.length =
                (s.workers.set i WorkerState.idle).length
              rw [List.length_set]; exact h2
            · show s.tp.threads.elements.length = (s.workers.set i WorkerState.idle).length
              rw [List.length_set]; exact h3
            · show (s.workers.set i WorkerState.idle).length + b < UINT_MOD
              rw [List.length_set]; omega
            · intro e he
              rcases List.mem_or_eq_of_mem_set he with he | he
              · exact h8 e he
              · exact absurd he (by simp)
      · simp only [sys_work, hget, hr, Bool.false_eq_true, if_false] at hs
        exact absurd hs (by simp)

theorem balanced_step (returns : TaskPtr → Bool) (s s1 : PoolSys) (b : Nat) (a : Action)
    (h : s.balanced (b + 1)) (hs : sys_step returns s a = some s1) : s1.balanced b := by
  cases a with
  | submit t =>
    obtain ⟨s2, e, h2⟩ := balanced_submit s b t h
    have hs1 : sys_submit s t = some s1 := hs
    rw [e] at hs1
    injection hs1 with hs1
    rw [← hs1]; exact h2
  | work i => exact balanced_work returns s s1 b i h hs

theorem balanced_run (returns : TaskPtr → Bool) (acts : List Action) :
    ∀ (s : PoolSys), s.balanced acts.length → (sys_run returns s acts).balanced 0 := by
  induction acts with
  | nil => intro s h; exact h
  | cons a rest ih =>
    intro s h
    have h1 : s.balanced (rest.length + 1) := h
    cases hs : sys_step returns s a with
    | none =>
      have e : sys_run returns s (a :: rest) = sys_run returns s rest := by
        simp [sys_run, hs]
      rw [e]; exact ih s (balanced_mono s _ h1)
    | some s1 =>
      have e : sys_run returns s (a :: rest) = sys_run returns s1 rest := by
        simp [sys_run, hs]
      rw [e]
      exact ih s1 (balanced_step returns s s1 _ a h1 hs)

theorem sys_init_balanced (garbage : ThreadPool) (n b : Nat) (heap : TaskPtr → Task)
    (mem : Mem) (hn : n + b < UINT_MOD) :
    ∃ s0, sys_init garbage n heap mem = some s0 ∧ s0.balanced b := by
  obtain ⟨e, p1, tr, h1, h2, h3, h4, h5, h6⟩ :=
    tp_init_loop_ok id n 0 0
      { garbage with running := true, waitingTasks := q_constructEmpty WORD_SIZE,
                     threads := q_constructEmpty WORD_SIZE }
      [Ev.write Field.running, Ev.condInit Cond.taskAvailable,
       Ev.mutexInit Mutex.taskMutex, Ev.write Field.waitingTasks, Ev.write Field.threads]
      (by simp [q_constructEmpty, list_constructEmpty, SIZE_MOD])
  have he : e = 0 := h2 rfl
  subst he
  have hinit : tp_init (InitEnv.ok id) (some garbage) n =
      some { rc := 0, tp := some { p1 with numIdleThreads := n },
             trace := tr ++ [Ev.write Field.numIdleThreads] } := by
    simp only [tp_init, InitEnv.ok, ne_eq, not_true_eq_false, if_false, List.cons_append,
      List.nil_append]
    rw [h1]
  have hsys : sys_init garbage n heap mem =
      some { tp := { p1 with numIdleThreads := n },
             workers := List.replicate n WorkerState.idle, heap := heap, mem := mem } := by
    simp only [sys_init, hinit]
  have hnodes : p1.threads.elements.nodes.length = n := by
    simp [h5, q_constructEmpty, list_constructEmpty]
  have hlen : p1.threads.elements.length = n := by
    have h7 : p1.threads.elements.length = n % SIZE_MOD := by
      simpa [q_constructEmpty, list_constructEmpty] using h6
    rw [h7]
    exact Nat.mod_eq_of_lt (uint_lt_size n (by omega))
  have hw : p1.waitingTasks = q_constructEmpty WORD_SIZE := by simpa using h4
  have hrun : p1.running = true := by simpa using h3
  have hout : (List.replicate n WorkerState.idle).countP WorkerState.isOut = 0 := by
    rw [List.countP_eq_zero]
    intro w hw1
    rw [List.eq_of_mem_replicate hw1]
    simp [WorkerState.isOut, WorkerState.isBusy, WorkerState.isStopped]
  refine ⟨_, hsys, ?_, ?_, ?_, ?_, ?_, ?_, ?_, ?_⟩
  · show n + (List.replicate n WorkerState.idle).countP WorkerState.isOut =
      (List.replicate n WorkerState.idle).length
    rw [hout, List.length_replicate, Nat.add_zero]
  · show p1.threads.elements.nodes.length = (List.replicate n WorkerState.idle).length
    rw [List.length_replicate]; exact hnodes
  · show p1.threads.elements.length = (List.replicate n WorkerState.idle).length
    rw [List.length_replicate]; exact hlen
  · show (List.replicate n WorkerState.idle).length + b < UINT_MOD
    rw [List.length_replicate]; exact hn
  · show p1.waitingTasks.elements.length = p1.waitingTasks.elements.nodes.length
    rw [hw]; rfl
  · show p1.waitingTasks.elements.nodes.length + b < UINT_MOD
    rw [hw]
    show 0 + b < UINT_MOD
    omega
  · show p1.running = true
    exact hrun
  · intro e he
    have := List.eq_of_mem_replicate he
    exact absurd this (by simp)

/-- C17 (counterexample): from the pool that the fault-free `tp_init` builds with
one thread, the schedule that submits the `NULL` task and then lets worker `0`
take two steps (claim the task, end the iteration) reaches a state in which
`numIdleThreads` is `0` and no worker is between the claim of a task and the end
of its iteration, while `threads` has length `1`: the sum of the claim is `0`
and not the length of `threads`. -/
theorem idle_accounting_fails_on_null :
    ∃ s0, sys_init garbagePool 1 sampleHeap zeroMem = some s0 ∧
      (sys_run alwaysReturns s0 nullSchedule).tp.numIdleThreads = 0 ∧
      (sys_run alwaysReturns s0 nullSchedule).busyWorkers = 0 ∧
      q_length (sys_run alwaysReturns s0 nullSchedule).tp.threads = 1 ∧
      (sys_run alwaysReturns s0 nullSchedule).workers = [WorkerState.stopped EPERM] ∧
      ¬ ((sys_run alwaysReturns s0 nullSchedule).tp.numIdleThreads +
          (sys_run alwaysReturns s0 nullSchedule).busyWorkers =
        q_length (sys_run alwaysReturns s0 nullSchedule).tp.threads) :=
  ⟨oneThread sampleHeap zeroMem, (twoSubmitted_reached garbagePool sampleHeap zeroMem).1,
    rfl, rfl, rfl, rfl, by decide⟩

/-- C17 (amended): idle accounting for tasks of any pointer value. For every start
value of the pool variable, every number `n` of initial threads and every
schedule `acts` of `tp_enqueueImmediate` calls and fault-free worker steps, with
`n + acts.length < 2 ^ 32`: the fault-free `tp_init` succeeds, and in the state
reached by the schedule `numIdleThreads` plus the number of workers between the
claim of a task and the end of their iteration plus the number of workers that
have left their loop equals the length of `threads`, which is the number of
workers; `numIdleThreads` does not exceed the number of workers; `numIdleThreads`
is at least `1` whenever some worker is neither busy nor gone, so the decrement
of the claim step is never applied to `0`; a worker that has left its loop left
it with `EPERM`, the error of `task_execute` on a `NULL` task; and when the
schedule submits no `NULL` task no worker has left its loop and `numIdleThreads`
plus the busy workers equals the length of `threads`. -/
theorem idle_accounting_any_task (garbage : ThreadPool) (n : Nat) (heap : TaskPtr → Task)
    (mem : Mem) (returns : TaskPtr → Bool) (acts : List Action)
    (hb : n + acts.length < UINT_MOD) :
    ∃ s0, sys_init garbage n heap mem = some s0 ∧
      (sys_run returns s0 acts).tp.numIdleThreads + (sys_run returns s0 acts).busyWorkers +
          (sys_run returns s0 acts).stoppedWorkers =
        q_length (sys_run returns s0 acts).tp.threads ∧
      q_length (sys_run returns s0 acts).tp.threads =
        (sys_run returns s0 acts).workers.length ∧
      (sys_run returns s0 acts).tp.threads.elements.nodes.length =
        (sys_run returns s0 acts).workers.length ∧
      (sys_run returns s0 acts).tp.numIdleThreads ≤
        (sys_run returns s0 acts).workers.length ∧
      (∀ i w, (sys_run returns s0 acts).workers.get? i = some w → w.isBusy = false →
        w.isStopped = false → 0 < (sys_run returns s0 acts).tp.numIdleThreads) ∧
      (∀ e, WorkerState.stopped e ∈ (sys_run returns s0 acts).workers → e = EPERM) ∧
      ((sys_run returns s0 acts).stoppedWorkers = 0 →
        (sys_run returns s0 acts).tp.numIdleThreads +
            (sys_run returns s0 acts).busyWorkers =
          q_length (sys_run returns s0 acts).tp.threads) ∧
      ((∀ t, Action.submit t ∈ acts → t ≠ 0) →
        (sys_run returns s0 acts).stoppedWorkers = 0) := by
  obtain ⟨s0, h0, hbal⟩ := sys_init_balanced garbage n acts.length heap mem hb
  obtain ⟨s0a, h0a, hacc⟩ := sys_init_accounted garbage n acts.length heap mem hb
  have hs : s0a = s0 := by
    rw [h0] at h0a
    injection h0a with h0a
    exact h0a.symm
  rw [hs] at hacc
  obtain ⟨h1, h2, h3, _, _, _, _, h8⟩ := balanced_run returns acts s0 hbal
  rw [countP_isOut] at h1
  have h1a : (sys_run returns s0 acts).tp.numIdleThreads +
      ((sys_run returns s0 acts).busyWorkers + (sys_run returns s0 acts).stoppedWorkers) =
      (sys_run returns s0 acts).workers.length := h1
  have h3a : q_length (sys_run returns s0 acts).tp.threads =
      (sys_run returns s0 acts).workers.length := h3
  refine ⟨s0, h0, ?_, h3a, h2, ?_, ?_, h8, ?_, ?_⟩
  · rw [h3a]; omega
  · omega
  · intro i w hget hw1 hw2
    have hw : w.isOut = false := by
      simp only [WorkerState.isOut, hw1, hw2, Bool.or_self]
    have hlt := countP_lt_of_get WorkerState.isOut _ i w hget hw
    rw [countP_isOut] at hlt
    have hlt1 : (sys_run returns s0 acts).busyWorkers +
        (sys_run returns s0 acts).stoppedWorkers <
        (sys_run returns s0 acts).workers.length := hlt
    omega
  · intro hz
    rw [h3a]; omega
  · intro ht
    obtain ⟨g1, _⟩ := accounted_run returns acts s0 hacc ht
    have g1a : (sys_run returns s0 acts).tp.numIdleThreads +
        (sys_run returns s0 acts).busyWorkers =
        (sys_run returns s0 acts).workers.length := g1
    omega

theorem idle_accounting_any_task_witness :
    1 + nullSchedule.length < UINT_MOD ∧
    ∃ s0, sys_init garbagePool 1 sampleHeap zeroMem = some s0 ∧
      (sys_run alwaysReturns s0 nullSchedule).tp.numIdleThreads +
          (sys_run alwaysReturns s0 nullSchedule).busyWorkers +
          (sys_run alwaysReturns s0 nullSchedule).stoppedWorkers =
        q_length (sys_run alwaysReturns s0 nullSchedule).tp.threads := by
  have hb : 1 + nullSchedule.length < UINT_MOD := by decide
  obtain ⟨s0, h0, h1, _⟩ := idle_accounting_any_task garbagePool 1 sampleHeap zeroMem
    alwaysReturns nullSchedule hb
  exact ⟨hb, s0, h0, h1⟩

end JdLib
